import Mathlib

/-!
# launchd: job table, job lifecycle and IPC dispatcher

A shallow embedding of `src/launchd/src/launchd.c`.

* The tagged-variant tree `launch_data_t` and its accessors live in the
  serialization library (`launch.h`), which is not part of the sources; they are
  modelled from the specification and marked as such.
* Records allocated with `calloc` (`struct jobcb`, `struct conncb`) carry their
  address in the field `addr`; a pointer is an address.  Addresses come from the
  counter `State.next_addr` and are never handed out twice, so a pointer to a freed
  record is an address that no record of the table carries any more.
* Every answer of the operating system that the code reads (the wait status, the
  clock, the result of `fork`, of `kevent`, of `socketpair`, of sending a message) is
  a field of `Oracle`; the calls the code issues are appended to `State.log`.
* What the forked child does before `execvp` is the `child` field of the
  `Effect.fork` entry.
-/

namespace Launchd

/-! ## Constants -/

/-- Source: `#define LAUNCHD_MIN_JOB_RUN_TIME 10`. -/
def LAUNCHD_MIN_JOB_RUN_TIME : Int := 10

/-- Source: `#define LAUNCHD_FAILED_EXITS_THRESHOLD 10`. -/
def LAUNCHD_FAILED_EXITS_THRESHOLD : Nat := 10

/-- Modelled from the spec: the job keys are declared in `launch.h`, which is missing;
the spec writes the label key as `Label` (scenario S1). -/
def LAUNCH_JOBKEY_LABEL : String := "Label"

/-- Modelled from the spec: key of the program-arguments sequence (`launch.h`, missing). -/
def LAUNCH_JOBKEY_PROGRAMARGUMENTS : String := "ProgramArguments"

/-- Modelled from the spec: key of the optional program override (`launch.h`, missing). -/
def LAUNCH_JOBKEY_PROGRAM : String := "Program"

/-- Modelled from the spec: key of the on-demand flag (`launch.h`, missing). -/
def LAUNCH_JOBKEY_ONDEMAND : String := "OnDemand"

/-- Modelled from the spec: key of the service-IPC flag (`launch.h`, missing). -/
def LAUNCH_JOBKEY_SERVICEIPC : String := "ServiceIPC"

/-- Modelled from the spec: key of the nice value (`launch.h`, missing). -/
def LAUNCH_JOBKEY_NICE : String := "Nice"

/-- Modelled from the spec: key of the soft resource limits (`launch.h`, missing). -/
def LAUNCH_JOBKEY_SOFTRESOURCELIMITS : String := "SoftResourceLimits"

/-- Modelled from the spec: key of the hard resource limits (`launch.h`, missing). -/
def LAUNCH_JOBKEY_HARDRESOURCELIMITS : String := "HardResourceLimits"

/-- Modelled from the spec: key of the initgroups flag (`launch.h`, missing). -/
def LAUNCH_JOBKEY_INITGROUPS : String := "InitGroups"

/-- Modelled from the spec: key of the user name (`launch.h`, missing). -/
def LAUNCH_JOBKEY_USERNAME : String := "UserName"

/-- Modelled from the spec: key of the group id (`launch.h`, missing). -/
def LAUNCH_JOBKEY_GID : String := "GID"

/-- Modelled from the spec: key of the user id (`launch.h`, missing). -/
def LAUNCH_JOBKEY_UID : String := "UID"

/-- Modelled from the spec: key of the low-priority-I/O flag (`launch.h`, missing). -/
def LAUNCH_JOBKEY_LOWPRIORITY_IO_FLAG : String := "LowPriorityIO"

/-- Modelled from the spec: key of the chroot directory (`launch.h`, missing). -/
def LAUNCH_JOBKEY_ROOTDIRECTORY : String := "RootDirectory"

/-- Modelled from the spec: key of the working directory (`launch.h`, missing). -/
def LAUNCH_JOBKEY_WORKINGDIRECTORY : String := "WorkingDirectory"

/-- Modelled from the spec: key of the umask (`launch.h`, missing). -/
def LAUNCH_JOBKEY_UMASK : String := "Umask"

/-- Modelled from the spec: key of the stdout path (`launch.h`, missing). -/
def LAUNCH_JOBKEY_STANDARDOUTPATH : String := "StandardOutPath"

/-- Modelled from the spec: key of the stderr path (`launch.h`, missing). -/
def LAUNCH_JOBKEY_STANDARDERRORPATH : String := "StandardErrorPath"

/-- Modelled from the spec: key of the environment mapping (`launch.h`, missing). -/
def LAUNCH_JOBKEY_ENVIRONMENTVARIABLES : String := "EnvironmentVariables"

/-- Modelled from the spec: key of the inetd-compatibility flag (`launch.h`, missing). -/
def LAUNCH_JOBKEY_INETDCOMPATIBILITY : String := "inetdCompatibility"

/-- Modelled from the spec: the nine resource-limit keys of the table `limits[]` in
`job_start`, in the order of that table (`launch.h`, missing), each with the number of
its `RLIMIT_*` resource (`sys/resource.h`, missing). -/
def limits : List (String × Nat) :=
  [("Core", 4), ("CPU", 0), ("Data", 2), ("FileSize", 1), ("MemoryLock", 6),
   ("NumberOfFiles", 8), ("NumberOfProcesses", 7), ("ResidentSetSize", 5), ("Stack", 3)]

/-- Modelled from the spec: name of the environment variable that carries the trusted
descriptor (`launch.h`, missing). -/
def LAUNCHD_TRUSTED_FD_ENV : String := "__LAUNCHD_FD"

/-- Modelled from the spec: label of the helper daemon (`launchd.h`, missing). -/
def HELPERD : String := "com.apple.launchd_helperd"

/-- Modelled from the spec: request key START_JOB (`launch.h`, missing). -/
def LAUNCH_KEY_STARTJOB : String := "StartJob"
/-- Modelled from the spec: request key STOP_JOB (`launch.h`, missing). -/
def LAUNCH_KEY_STOPJOB : String := "StopJob"
/-- Modelled from the spec: request key REMOVE_JOB (`launch.h`, missing). -/
def LAUNCH_KEY_REMOVEJOB : String := "RemoveJob"
/-- Modelled from the spec: request key SUBMIT_JOB (`launch.h`, missing). -/
def LAUNCH_KEY_SUBMITJOB : String := "SubmitJob"
/-- Modelled from the spec: request key UNSET_USER_ENV (`launch.h`, missing). -/
def LAUNCH_KEY_UNSETUSERENVIRONMENT : String := "UnsetUserEnvironment"
/-- Modelled from the spec: request GET_USER_ENV (`launch.h`, missing). -/
def LAUNCH_KEY_GETUSERENVIRONMENT : String := "GetUserEnvironment"
/-- Modelled from the spec: request key SET_USER_ENV (`launch.h`, missing). -/
def LAUNCH_KEY_SETUSERENVIRONMENT : String := "SetUserEnvironment"
/-- Modelled from the spec: request CHECK_IN (`launch.h`, missing). -/
def LAUNCH_KEY_CHECKIN : String := "CheckIn"
/-- Modelled from the spec: request RELOAD_TTYS (`launch.h`, missing). -/
def LAUNCH_KEY_RELOADTTYS : String := "ReloadTTYS"
/-- Modelled from the spec: request SHUTDOWN (`launch.h`, missing). -/
def LAUNCH_KEY_SHUTDOWN : String := "Shutdown"
/-- Modelled from the spec: request GET_JOBS (`launch.h`, missing). -/
def LAUNCH_KEY_GETJOBS : String := "GetJobs"
/-- Modelled from the spec: request GET_RLIMITS (`launch.h`, missing). -/
def LAUNCH_KEY_GETRESOURCELIMITS : String := "GetResourceLimits"
/-- Modelled from the spec: request key SET_RLIMITS (`launch.h`, missing). -/
def LAUNCH_KEY_SETRESOURCELIMITS : String := "SetResourceLimits"
/-- Modelled from the spec: request key GET_JOB (`launch.h`, missing). -/
def LAUNCH_KEY_GETJOB : String := "GetJob"
/-- Modelled from the spec: request key GET_JOB_WITH_HANDLES (`launch.h`, missing). -/
def LAUNCH_KEY_GETJOBWITHHANDLES : String := "GetJobWithHandles"
/-- Modelled from the spec: request key SET_UMASK (`launch.h`, missing). -/
def LAUNCH_KEY_SETUMASK : String := "SetUmask"
/-- Modelled from the spec: request GET_UMASK (`launch.h`, missing). -/
def LAUNCH_KEY_GETUMASK : String := "GetUmask"
/-- Modelled from the spec: request key SET_STDOUT (`launch.h`, missing). -/
def LAUNCH_KEY_SETSTDOUT : String := "SetStandardOut"
/-- Modelled from the spec: request key SET_STDERR (`launch.h`, missing). -/
def LAUNCH_KEY_SETSTDERR : String := "SetStandardError"
/-- Modelled from the spec: request key BATCH_CONTROL (`launch.h`, missing). -/
def LAUNCH_KEY_BATCHCONTROL : String := "BatchControl"
/-- Modelled from the spec: request BATCH_QUERY (`launch.h`, missing). -/
def LAUNCH_KEY_BATCHQUERY : String := "BatchQuery"

/-- Modelled from the spec: response string SUCCESS (`launch.h`, missing). -/
def LAUNCH_RESPONSE_SUCCESS : String := "Success"
/-- Modelled from the spec: response string JOBNOTFOUND (`launch.h`, missing). -/
def LAUNCH_RESPONSE_JOBNOTFOUND : String := "JobNotFound"
/-- Modelled from the spec: response string JOBEXISTS (`launch.h`, missing). -/
def LAUNCH_RESPONSE_JOBEXISTS : String := "JobExists"
/-- Modelled from the spec: response string LABELMISSING (`launch.h`, missing). -/
def LAUNCH_RESPONSE_LABELMISSING : String := "LabelMissing"
/-- Modelled from the spec: response string PROGRAMARGUMENTSMISSING (`launch.h`, missing). -/
def LAUNCH_RESPONSE_PROGRAMARGUMENTSMISSING : String := "ProgramArgumentsMissing"
/-- Modelled from the spec: response string NOTRUNNINGFROMLAUNCHD (`launch.h`, missing). -/
def LAUNCH_RESPONSE_NOTRUNNINGFROMLAUNCHD : String := "NotRunningFromLaunchd"
/-- Modelled from the spec: response string UNKNOWNCOMMAND (`launch.h`, missing). -/
def LAUNCH_RESPONSE_UNKNOWNCOMMAND : String := "UnknownCommand"

/-- Signal numbers (`sys/signal.h`, BSD numbering). -/
def SIGHUP : Nat := 1
/-- Signal number of SIGKILL. -/
def SIGKILL : Nat := 9
/-- Signal number of SIGTERM. -/
def SIGTERM : Nat := 15
/-- Signal number of SIGSTOP (BSD). -/
def SIGSTOP : Nat := 17
/-- Signal number of SIGCONT (BSD). -/
def SIGCONT : Nat := 19
/-- Signal number of SIGUSR1 (BSD). -/
def SIGUSR1 : Nat := 30
/-- Signal number of SIGUSR2 (BSD). -/
def SIGUSR2 : Nat := 31

/-- Flag `EV_ADD` of `sys/event.h`. -/
def EV_ADD : Nat := 1
/-- Flag `EV_DELETE` of `sys/event.h`. -/
def EV_DELETE : Nat := 2
/-- Flag `NOTE_EXIT` of `sys/event.h`. -/
def NOTE_EXIT : Nat := 0x80000000

/-- Number of resource limits, `RLIM_NLIMITS` of `sys/resource.h` (9 on Darwin). -/
def RLIM_NLIMITS : Nat := 9

/-- Exit status `EXIT_SUCCESS`. -/
def EXIT_SUCCESS : Int := 0
/-- Exit status `EXIT_FAILURE`. -/
def EXIT_FAILURE : Int := 1

/-! ## The tagged-variant tree -/

/-- One `struct rlimit`: soft and hard limit. -/
structure rlimit where
  rlim_cur : Nat
  rlim_max : Nat
deriving DecidableEq, Repr

/-- Modelled from the spec: `launch_data_t`, the tagged-variant tree of the wire format
with the types dict, array, string, integer, boolean, fd and opaque; its declaration
is in `launch.h`, which is missing.  A dictionary is its sequence of key/value pairs in
insertion order.  The only opaque payload this program reads or writes is an array of
`struct rlimit`, so an opaque node holds that array. -/
inductive launch_data where
  | dictionary (kv : List (String × launch_data))
  | array (xs : List launch_data)
  | fd (n : Int)
  | integer (n : Int)
  | bool (b : Bool)
  | string (s : String)
  | opaq (l : List rlimit)
deriving Repr

/-- Lookup of the first pair with the given key. -/
def dict_find (key : String) : List (String × launch_data) → Option launch_data
  | [] => none
  | (k, v) :: rest => if k = key then some v else dict_find key rest

/-- Replace the value of the first pair with the given key, or append a new pair. -/
def dict_set (key : String) (what : launch_data) :
    List (String × launch_data) → List (String × launch_data)
  | [] => [(key, what)]
  | (k, v) :: rest => if k = key then (key, what) :: rest else (k, v) :: dict_set key what rest

/-- Modelled from the spec: `launch_data_dict_lookup` of the serialization library
(missing): the value stored under `key`, `none` (NULL) when the key is absent or the
node is no dictionary. -/
def launch_data_dict_lookup : launch_data → String → Option launch_data
  | .dictionary kv, key => dict_find key kv
  | _, _ => none

/-- Modelled from the spec: `launch_data_dict_insert` of the serialization library
(missing): store `what` under `key`, replacing a value already stored there. -/
def launch_data_dict_insert : launch_data → launch_data → String → launch_data
  | .dictionary kv, what, key => .dictionary (dict_set key what kv)
  | d, _, _ => d

/-- Modelled from the spec: `launch_data_get_string` of the serialization library
(missing).  The C accessor reads a union member whatever the node type; the model
answers the empty string on a node that is no string. -/
def launch_data_get_string : launch_data → String
  | .string s => s
  | _ => ""

/-- Modelled from the spec: `launch_data_get_bool` of the serialization library
(missing); `false` on a node that is no boolean. -/
def launch_data_get_bool : launch_data → Bool
  | .bool b => b
  | _ => false

/-- Modelled from the spec: `launch_data_get_integer` of the serialization library
(missing); `0` on a node that is no integer. -/
def launch_data_get_integer : launch_data → Int
  | .integer n => n
  | _ => 0

/-- Modelled from the spec: `launch_data_get_opaque` with `launch_data_get_opaque_size`
of the serialization library (missing): the array of `struct rlimit` of an opaque
node, empty on any other node. -/
def launch_data_get_opaq : launch_data → List rlimit
  | .opaq l => l
  | _ => []

/-- Modelled from the spec: `launch_data_array_get_count` of the serialization library
(missing). -/
def launch_data_array_get_count : launch_data → Nat
  | .array xs => xs.length
  | _ => 0

/-- Modelled from the spec: `launch_data_array_get_index` of the serialization library
(missing); NULL beyond the end and on a node that is no array. -/
def launch_data_array_get_index : launch_data → Nat → Option launch_data
  | .array xs, i => xs.get? i
  | _, _ => none

/-- Modelled from the spec: `launch_data_copy`, a deep copy; values have no identity in
the model, so the copy is the value. -/
def launch_data_copy (o : launch_data) : launch_data := o

/-- The C test `!strcmp(a, b)` where `a` may be NULL (`none`): true when `a` is the
string `b`. -/
def streq (a : Option String) (b : String) : Bool :=
  match a with
  | some x => x == b
  | none => false

/-- Source: `job_get_integer`. -/
def job_get_integer (j : launch_data) (key : String) : Int :=
  match launch_data_dict_lookup j key with
  | some t => launch_data_get_integer t
  | none => 0

/-- Source: `job_get_string`; NULL is `none`. -/
def job_get_string (j : launch_data) (key : String) : Option String :=
  match launch_data_dict_lookup j key with
  | some t => some (launch_data_get_string t)
  | none => none

/-- Source: `job_get_argv0`. -/
def job_get_argv0 (j : launch_data) : Option String :=
  match launch_data_dict_lookup j LAUNCH_JOBKEY_PROGRAM with
  | some tmp => some (launch_data_get_string tmp)
  | none =>
    match launch_data_dict_lookup j LAUNCH_JOBKEY_PROGRAMARGUMENTS with
    | some tmp =>
      match launch_data_array_get_index tmp 0 with
      | some tmpi => some (launch_data_get_string tmpi)
      | none => none
    | none => none

/-- Source: `job_get_bool`. -/
def job_get_bool (j : launch_data) (key : String) : Bool :=
  match launch_data_dict_lookup j key with
  | some t => launch_data_get_bool t
  | none => false

mutual
/-- Source: `launch_data_revoke_fds`; the tree is changed in place in C, the model
returns the changed tree. -/
def launch_data_revoke_fds : launch_data → launch_data
  | .dictionary kv => .dictionary (launch_data_revoke_fds_dict kv)
  | .array xs => .array (launch_data_revoke_fds_array xs)
  | .fd _ => .fd (-1)
  | o => o
/-- The `launch_data_dict_iterate` of `launch_data_revoke_fds`. -/
def launch_data_revoke_fds_dict : List (String × launch_data) → List (String × launch_data)
  | [] => []
  | (k, v) :: rest => (k, launch_data_revoke_fds v) :: launch_data_revoke_fds_dict rest
/-- The array loop of `launch_data_revoke_fds`. -/
def launch_data_revoke_fds_array : List launch_data → List launch_data
  | [] => []
  | v :: rest => launch_data_revoke_fds v :: launch_data_revoke_fds_array rest
end

mutual
/-- The descriptor leaves of a tree, in the order in which the recursive walkers
(`launch_data_close_fds`, `job_watch_fds`, `job_ignore_fds`) visit them. -/
def launch_data_fds : launch_data → List Int
  | .dictionary kv => launch_data_fds_dict kv
  | .array xs => launch_data_fds_array xs
  | .fd n => [n]
  | _ => []
/-- The `launch_data_dict_iterate` of the walkers. -/
def launch_data_fds_dict : List (String × launch_data) → List Int
  | [] => []
  | (_, v) :: rest => launch_data_fds v ++ launch_data_fds_dict rest
/-- The array loop of the walkers. -/
def launch_data_fds_array : List launch_data → List Int
  | [] => []
  | v :: rest => launch_data_fds v ++ launch_data_fds_array rest
end

/-! ## Records, effects, state -/

/-- A `struct timeval`. -/
structure timeval where
  tv_sec : Int
  tv_usec : Int
deriving DecidableEq, Repr

/-- The macro `timersub` of `sys/time.h`. -/
def timersub (tvp uvp : timeval) : timeval :=
  let sec := tvp.tv_sec - uvp.tv_sec
  let usec := tvp.tv_usec - uvp.tv_usec
  if usec < 0 then { tv_sec := sec - 1, tv_usec := usec + 1000000 }
  else { tv_sec := sec, tv_usec := usec }

/-- Kernel event filters used by the program. -/
inductive Filter where
  | READ | WRITE | PROC | SIGNAL | FS | MACHPORT
deriving DecidableEq, Repr

/-- The user-data pointer of an event registration: the address of the callback
pointer embedded in a record (`&j->kqjob_callback` is the job's address,
`&c->kqconn_callback` the connection's), one of the global callback pointers, the
function `job_callback` itself (as `job_start` passes it to `job_ignore_fds`), or
NULL. -/
inductive Udata where
  | null
  | job (addr : Nat)
  | conn (addr : Nat)
  | job_callback_fn
  | simple_zombie_reaper
  | listen
  | signal
  | fs
  | mach
  | readcfg
deriving DecidableEq, Repr

/-- One step of the forked child of `job_start`, between `fork` and the end of the
child. -/
inductive ChildStep where
  | close (fd : Int)
  | setpriority (prio : Int)
  | getrlimit (res : Nat)
  | setrlimit (res : Nat) (rl : rlimit)
  | initgroups (user : String) (gid : Int)
  | low_priority_io
  | chroot (path : String)
  | setgid (gid : Int)
  | setuid (uid : Int)
  | chdir (path : String)
  | umask (mask : Int)
  | redirect (path : String) (target : Int)
  | setenv (name value : String)
  | setsid
  | sleep (secs : Int)
  | execvp (a0 : Option String) (argv : List String)
  | exit (code : Int)
deriving DecidableEq, Repr

/-- A call the supervisor issues that is visible outside its own memory. -/
inductive Effect where
  | kevent (ident : Int) (filter : Filter) (flags fflags : Nat) (udata : Udata)
  | kill (pid : Int) (sig : Nat)
  | waitpid (pid : Int)
  | socketpair (fds : Int × Int)
  | fork (pid : Int) (child : List ChildStep)
  | fork_failed
  | close (fd : Int)
  | fcntl (fd : Int)
  | msg_send (fd : Int) (resp : launch_data)
  | dup2 (fd target : Int)
  | getrlimit (res : Nat)
  | setrlimit (res : Nat) (rl : rlimit)
  | update_ttys
  | catatonia
  | mach_start_shutdown (sig : Nat)
  | pthread_create
  | pipe (fds : Int × Int)
  | mach_port_allocate
  | mach_port_move_member (port : Int) (into_set : Bool)
  | accept (fd : Int)
deriving Repr

/-- Outcome of `launchd_msg_send`: sent, `-1` with `EAGAIN`, `-1` with another error. -/
inductive SendResult where
  | ok | eagain | error
deriving DecidableEq, Repr

/-- A `struct jobcb`.  `addr` is the address of the record, `c` the address of the
connection record or `none` for NULL.  `failed_exits` is a `size_t`; a record in the
table never holds more than the threshold, so the counter is a natural number. -/
structure jobcb where
  addr : Nat
  ldj : launch_data
  p : Int
  start_time : timeval
  failed_exits : Nat
  c : Option Nat
  checkedin : Bool
deriving Repr

/-- A `struct conncb`.  `conn` is the descriptor behind the `launch_t`, `j` the address
of the job record or `none` for NULL. -/
structure conncb where
  addr : Nat
  conn : Int
  j : Option Nat
deriving DecidableEq, Repr

/-- The on-demand bridge table `machcbtable`: the number of slots the last
`malloc`/`realloc` asked for, and what was stored at which index, newest first
(stores beyond the allocation included). -/
structure MachTable where
  cap : Nat
  stored : List (Nat × Udata)
deriving DecidableEq, Repr

/-- The process-wide state of the supervisor. -/
structure State where
  /-- The queue `jobs`. -/
  jobs : List jobcb
  /-- The queue `connections`. -/
  connections : List conncb
  /-- The pointer `helperd`. -/
  helperd : Option Nat
  /-- The flag `batch_enabled`. -/
  batch_enabled : Bool
  /-- Next address `calloc` hands out. -/
  next_addr : Nat
  /-- The calls issued so far, oldest first. -/
  log : List Effect
  /-- Set when the C code reads or writes memory it does not own (a freed record, a slot
  beyond the bridge table); its behaviour is undefined from there on. -/
  ub : Bool
  /-- The status passed to `exit`, once the process has called it. -/
  exited : Option Int
  /-- What `getpid()` answers. -/
  pid : Int
  /-- Whether the program was compiled with `PID1_REAP_ADOPTED_CHILDREN`. -/
  PID1_REAP_ADOPTED_CHILDREN : Bool
  /-- The process environment `environ`, as name/value pairs. -/
  environ : List (String × String)
  /-- The file-creation mask of the process. -/
  cur_umask : Int
  /-- The global `pending_stdout`. -/
  pending_stdout : Option String
  /-- The global `pending_stderr`. -/
  pending_stderr : Option String
  /-- The static cache `l` of `adjust_rlimits`; `none` while it is NULL. -/
  l : Option (List rlimit)
  /-- The global `machcbtable`; `none` while it is NULL. -/
  machcbtable : Option MachTable
  /-- The global `machcbtable_cnt`. -/
  machcbtable_cnt : Nat
  /-- The global `machcbreadfd`. -/
  machcbreadfd : Int
  /-- The global `machcbwritefd`. -/
  machcbwritefd : Int

/-- The answers of the operating system during one call. -/
structure Oracle where
  /-- The status `waitpid` stores (or `pid1_child_exit_status`). -/
  status : Int
  /-- What `gettimeofday` answers. -/
  now : timeval
  /-- What `fork_with_bootstrap_port` answers. -/
  fork_result : Int
  /-- What `kevent` answers when a change is registered. -/
  kevent_result : Int
  /-- The pair `socketpair` fills in. -/
  spair : Int × Int
  /-- How `launchd_msg_send` ends. -/
  send_result : SendResult
  /-- What `getuid()` answers in the child. -/
  uid : Int
  /-- What `getgid()` answers in the child. -/
  gid : Int
  /-- What `getrlimit` fills in for a resource. -/
  getrlimit : Nat → rlimit
  /-- The primary group `getpwnam` finds for a user, if any. -/
  getpwnam : String → Option Int
  /-- What `pthread_create` answers. -/
  pthread_create_result : Int
  /-- The pair `pipe` fills in. -/
  pipe_fds : Int × Int
  /-- Whether `mach_port_allocate` answers `KERN_SUCCESS`. -/
  mach_port_allocate_ok : Bool
  /-- Whether `mach_port_move_member` answers `KERN_SUCCESS`. -/
  mach_port_move_member_ok : Bool

/-- The state at the start of `main`: empty queues, `helperd = NULL`,
`batch_enabled = true`. -/
def State.start (pid : Int) (reap : Bool) (env : List (String × String)) (mask : Int) : State :=
  { jobs := [], connections := [], helperd := none, batch_enabled := true, next_addr := 1,
    log := [], ub := false, exited := none, pid := pid, PID1_REAP_ADOPTED_CHILDREN := reap,
    environ := env, cur_umask := mask, pending_stdout := none, pending_stderr := none,
    l := none, machcbtable := none, machcbtable_cnt := 0, machcbreadfd := -1,
    machcbwritefd := -1 }

/-- Append one call to the log. -/
def emit (e : Effect) (s : State) : State := { s with log := s.log ++ [e] }

/-- The record of the table at address `a`, if the address is (still) linked. -/
def find_job (s : State) (a : Nat) : Option jobcb := s.jobs.find? (fun j => j.addr == a)

/-- Write a job record through its pointer: the record of the table with the same
address takes the new contents; a record that is not linked in the table is private
to the caller and the table does not change. -/
def set_job (j : jobcb) (s : State) : State :=
  { s with jobs := s.jobs.map (fun x => if x.addr = j.addr then j else x) }

/-- The macro `MACH_PORT_INDEX` of `mach/port.h`: the name without its low 8 bits. -/
def MACH_PORT_INDEX (name : Int) : Nat := name.toNat / 256

/-- Source: `_fd`, which sets close-on-exec on a valid descriptor. -/
def _fd (fd : Int) (s : State) : Int × State :=
  if fd ≥ 0 then (fd, emit (.fcntl fd) s) else (fd, s)

/-- Source: `kevent_mod`, the block under `if (machcbtable == NULL)`: start the bridge
thread, allocate the empty table, open the pipe, watch its read end, allocate the port
set. -/
def machcb_init (o : Oracle) (s : State) : State :=
  match s.machcbtable with
  | some _ => s
  | none =>
    let s := emit .pthread_create s
    if o.pthread_create_result ≠ 0 then { s with exited := some EXIT_FAILURE }
    else
      let s := { s with machcbtable := some { cap := 0, stored := [] } }
      let s := emit (.pipe o.pipe_fds) s
      let w := _fd o.pipe_fds.2 s
      let s := { w.2 with machcbwritefd := w.1 }
      let r := _fd o.pipe_fds.1 s
      let s := { r.2 with machcbreadfd := r.1 }
      let s := emit (.kevent r.1 .READ EV_ADD 0 .mach) s
      let s := emit .mach_port_allocate s
      if o.mach_port_allocate_ok then s else { s with exited := some EXIT_FAILURE }

/-- Source: `kevent_mod`, the store `machcbtable[MACH_PORT_INDEX(ident)] = udata` with the
`realloc` before it.  The table is reallocated to `MACH_PORT_INDEX(ident)` slots when
that index exceeds `machcbtable_cnt`; a store at an index that is not below the number
of allocated slots writes beyond the allocation. -/
def machcb_store (ident : Int) (udata : Udata) (s : State) : State :=
  let idx := MACH_PORT_INDEX ident
  let t := s.machcbtable.getD { cap := 0, stored := [] }
  let t := if idx > s.machcbtable_cnt then { t with cap := idx } else t
  { s with ub := if idx < t.cap then s.ub else true,
           machcbtable := some { t with stored := (idx, udata) :: t.stored } }

/-- Source: `kevent_mod`, the part for the filter MACHPORT. -/
def kevent_mod_mach (o : Oracle) (ident : Int) (flags : Nat) (udata : Udata) (s : State) :
    Int × State :=
  let s := machcb_init o s
  if s.exited.isSome then (0, s)
  else if flags &&& EV_ADD ≠ 0 then
    let s := emit (.mach_port_move_member ident true) s
    if !o.mach_port_move_member_ok then (0, { s with exited := some EXIT_FAILURE })
    else (0, machcb_store ident udata s)
  else if flags &&& EV_DELETE ≠ 0 then
    let s := emit (.mach_port_move_member ident false) s
    if !o.mach_port_move_member_ok then (0, { s with exited := some EXIT_FAILURE })
    else (0, s)
  else (-1, s)

/-- Source: `kevent_mod`. -/
def kevent_mod (o : Oracle) (ident : Int) (filter : Filter) (flags fflags : Nat)
    (udata : Udata) (s : State) : Int × State :=
  if filter ≠ .MACHPORT then
    if s.PID1_REAP_ADOPTED_CHILDREN && filter = .PROC && s.pid = 1 then (0, s)
    else (o.kevent_result, emit (.kevent ident filter flags fflags udata) s)
  else kevent_mod_mach o ident flags udata s

/-! ## Walkers over the descriptor leaves -/

mutual
/-- Source: `launch_data_close_fds`. -/
def launch_data_close_fds (o : launch_data) (s : State) : State :=
  match o with
  | .dictionary kv => launch_data_close_fds_dict kv s
  | .array xs => launch_data_close_fds_array xs s
  | .fd n => if n ≠ -1 then emit (.close n) s else s
  | _ => s
/-- The `launch_data_dict_iterate` of `launch_data_close_fds`. -/
def launch_data_close_fds_dict (kv : List (String × launch_data)) (s : State) : State :=
  match kv with
  | [] => s
  | (_, v) :: rest => launch_data_close_fds_dict rest (launch_data_close_fds v s)
/-- The array loop of `launch_data_close_fds`. -/
def launch_data_close_fds_array (xs : List launch_data) (s : State) : State :=
  match xs with
  | [] => s
  | v :: rest => launch_data_close_fds_array rest (launch_data_close_fds v s)
end

mutual
/-- Source: `job_ignore_fds`. -/
def job_ignore_fds (or : Oracle) (o : launch_data) (cookie : Udata) (s : State) : State :=
  match o with
  | .dictionary kv => job_ignore_fds_dict or kv cookie s
  | .array xs => job_ignore_fds_array or xs cookie s
  | .fd n => (kevent_mod or n .READ EV_DELETE 0 cookie s).2
  | _ => s
/-- Source: `job_ignore_fds_dict`, under `launch_data_dict_iterate`. -/
def job_ignore_fds_dict (or : Oracle) (kv : List (String × launch_data)) (cookie : Udata)
    (s : State) : State :=
  match kv with
  | [] => s
  | (_, v) :: rest => job_ignore_fds_dict or rest cookie (job_ignore_fds or v cookie s)
/-- The array loop of `job_ignore_fds`. -/
def job_ignore_fds_array (or : Oracle) (xs : List launch_data) (cookie : Udata)
    (s : State) : State :=
  match xs with
  | [] => s
  | v :: rest => job_ignore_fds_array or rest cookie (job_ignore_fds or v cookie s)
end

mutual
/-- Source: `job_watch_fds`. -/
def job_watch_fds (or : Oracle) (o : launch_data) (cookie : Udata) (s : State) : State :=
  match o with
  | .dictionary kv => job_watch_fds_dict or kv cookie s
  | .array xs => job_watch_fds_array or xs cookie s
  | .fd n => (kevent_mod or n .READ EV_ADD 0 cookie s).2
  | _ => s
/-- Source: `job_watch_fds_dict`, under `launch_data_dict_iterate`. -/
def job_watch_fds_dict (or : Oracle) (kv : List (String × launch_data)) (cookie : Udata)
    (s : State) : State :=
  match kv with
  | [] => s
  | (_, v) :: rest => job_watch_fds_dict or rest cookie (job_watch_fds or v cookie s)
/-- The array loop of `job_watch_fds`. -/
def job_watch_fds_array (or : Oracle) (xs : List launch_data) (cookie : Udata)
    (s : State) : State :=
  match xs with
  | [] => s
  | v :: rest => job_watch_fds_array or rest cookie (job_watch_fds or v cookie s)
end

/-! ## Jobs -/

/-- The macro `_WSTATUS` of `sys/wait.h`: the low seven bits. -/
def WSTATUS (x : Int) : Int := x % 128
/-- The macro `WIFEXITED` of `sys/wait.h`. -/
def WIFEXITED (x : Int) : Bool := WSTATUS x == 0
/-- The macro `WEXITSTATUS` of `sys/wait.h`: bits 8 to 15. -/
def WEXITSTATUS (x : Int) : Int := (x / 256) % 256
/-- The macro `WIFSIGNALED` of `sys/wait.h`. -/
def WIFSIGNALED (x : Int) : Bool := WSTATUS x != 127 && WSTATUS x != 0
/-- The macro `WTERMSIG` of `sys/wait.h`. -/
def WTERMSIG (x : Int) : Int := WSTATUS x

/-- Source: `job_stop`. -/
def job_stop (j : jobcb) (s : State) : State :=
  if j.p ≠ 0 then emit (.kill j.p SIGTERM) s else s

/-- The flag `bad_exit` that `job_reap` computes from the wait status. -/
def bad_exit (status : Int) : Bool :=
  let b1 := WIFEXITED status && WEXITSTATUS status != 0
  let b2 := WIFSIGNALED status && (WTERMSIG status != SIGKILL && WTERMSIG status != SIGTERM)
  b1 || b2

/-- Source: `job_reap`.  The record behind the pointer `j` is passed and returned; it is
written back to the table when it is linked there. -/
def job_reap (or : Oracle) (j : jobcb) (s : State) : jobcb × State :=
  let s := if s.PID1_REAP_ADOPTED_CHILDREN && s.pid = 1 then s else emit (.waitpid j.p) s
  let status := or.status
  let j := if bad_exit status then { j with failed_exits := j.failed_exits + 1 }
           else { j with failed_exits := 0 }
  let j := { j with c := none, p := 0, checkedin := false }
  (j, set_job j s)

/-- Source: `job_remove`.  `j` is the record behind the pointer; after `TAILQ_REMOVE` it
is no longer in the table and is freed at the end. -/
def job_remove (or : Oracle) (j : jobcb) (s : State) : State :=
  let s := { s with jobs := s.jobs.filter (fun x => !(x.addr == j.addr)) }
  let s :=
    if j.p ≠ 0 then
      let r := kevent_mod or j.p .PROC EV_ADD NOTE_EXIT .simple_zombie_reaper s
      if r.1 = -1 then (job_reap or j r.2).2 else job_stop j r.2
    else s
  launch_data_close_fds j.ldj s

/-- Source: `ipc_open`.  Returns the job record with its back-pointer set. -/
def ipc_open (or : Oracle) (fd : Int) (j : Option jobcb) (s : State) : Option jobcb × State :=
  let c : conncb := { addr := s.next_addr, conn := fd, j := j.map (fun x => x.addr) }
  let s := { s with next_addr := s.next_addr + 1 }
  let s := emit (.fcntl fd) s
  let j := j.map (fun x => { x with c := some c.addr })
  let s := match j with
    | some x => set_job x s
    | none => s
  let s := { s with connections := s.connections ++ [c] }
  (j, (kevent_mod or fd .READ EV_ADD 0 (.conn c.addr) s).2)

/-- Conversion of a `long long` to the unsigned 64-bit `rlim_t`. -/
def to_rlim (x : Int) : Nat := (x % 2 ^ 64).toNat

/-- The resource-limit loop of the child in `job_start`. -/
def child_rlimits (or : Oracle) (srl hrl : Option launch_data) : List ChildStep :=
  if srl.isSome || hrl.isSome then
    limits.flatMap (fun kv =>
      let rl := or.getrlimit kv.2
      let rl := match hrl with
        | some h => { rl with rlim_max := to_rlim (job_get_integer h kv.1) }
        | none => rl
      let rl := match srl with
        | some h => { rl with rlim_cur := to_rlim (job_get_integer h kv.1) }
        | none => rl
      [ChildStep.getrlimit kv.2, ChildStep.setrlimit kv.2 rl])
  else []

/-- Source: `setup_job_env` under `launch_data_dict_iterate`: `setenv` for every string
value of the mapping. -/
def setup_job_env : List (String × launch_data) → List ChildStep
  | [] => []
  | (k, .string v) :: rest => ChildStep.setenv k v :: setup_job_env rest
  | _ :: rest => setup_job_env rest

/-- The `c == 0` branch of `job_start`: what the child does, in order, from the return
of `fork` to its end.  `j` is the record at the time of `fork`, `tvd` the gap between
this start and the previous one. -/
def child_steps (or : Oracle) (j : jobcb) (sipc : Bool) (tvd : timeval) : List ChildStep :=
  let ldpa := launch_data_dict_lookup j.ldj LAUNCH_JOBKEY_PROGRAMARGUMENTS
  let srl := launch_data_dict_lookup j.ldj LAUNCH_JOBKEY_SOFTRESOURCELIMITS
  let hrl := launch_data_dict_lookup j.ldj LAUNCH_JOBKEY_HARDRESOURCELIMITS
  let argv : List String := match ldpa with
    | some (.array xs) => xs.map launch_data_get_string
    | _ => []
  (if sipc then [ChildStep.close or.spair.1] else [])
  ++ [ChildStep.setpriority (job_get_integer j.ldj LAUNCH_JOBKEY_NICE)]
  ++ child_rlimits or srl hrl
  ++ (if job_get_bool j.ldj LAUNCH_JOBKEY_INITGROUPS then
        match job_get_string j.ldj LAUNCH_JOBKEY_USERNAME with
        | none => []
        | some u =>
          if (launch_data_dict_lookup j.ldj LAUNCH_JOBKEY_GID).isSome then
            [ChildStep.initgroups u (job_get_integer j.ldj LAUNCH_JOBKEY_GID)]
          else match or.getpwnam u with
            | some g => [ChildStep.initgroups u g]
            | none => []
      else [])
  ++ (if job_get_bool j.ldj LAUNCH_JOBKEY_LOWPRIORITY_IO_FLAG then [ChildStep.low_priority_io]
      else [])
  ++ (match job_get_string j.ldj LAUNCH_JOBKEY_ROOTDIRECTORY with
      | some d => [ChildStep.chroot d]
      | none => [])
  ++ (if job_get_integer j.ldj LAUNCH_JOBKEY_GID ≠ or.gid then
        [ChildStep.setgid (job_get_integer j.ldj LAUNCH_JOBKEY_GID)] else [])
  ++ (if job_get_integer j.ldj LAUNCH_JOBKEY_UID ≠ or.uid then
        [ChildStep.setuid (job_get_integer j.ldj LAUNCH_JOBKEY_UID)] else [])
  ++ (match job_get_string j.ldj LAUNCH_JOBKEY_WORKINGDIRECTORY with
      | some d => [ChildStep.chdir d]
      | none => [])
  ++ (if (launch_data_dict_lookup j.ldj LAUNCH_JOBKEY_UMASK).isSome then
        [ChildStep.umask (job_get_integer j.ldj LAUNCH_JOBKEY_UMASK)] else [])
  ++ (match job_get_string j.ldj LAUNCH_JOBKEY_STANDARDOUTPATH with
      | some f => [ChildStep.redirect f 1]
      | none => [])
  ++ (match job_get_string j.ldj LAUNCH_JOBKEY_STANDARDERRORPATH with
      | some f => [ChildStep.redirect f 2]
      | none => [])
  ++ (match launch_data_dict_lookup j.ldj LAUNCH_JOBKEY_ENVIRONMENTVARIABLES with
      | some (.dictionary kv) => setup_job_env kv
      | _ => [])
  ++ (if sipc then [ChildStep.setenv LAUNCHD_TRUSTED_FD_ENV (toString or.spair.2)] else [])
  ++ [ChildStep.setsid]
  ++ (if !job_get_bool j.ldj LAUNCH_JOBKEY_ONDEMAND && tvd.tv_sec < LAUNCHD_MIN_JOB_RUN_TIME then
        (if j.failed_exits > 0 then [ChildStep.sleep (LAUNCHD_MIN_JOB_RUN_TIME - tvd.tv_sec)]
         else [])
      else [])
  ++ [ChildStep.execvp
        (if (launch_data_dict_lookup j.ldj LAUNCH_JOBKEY_INETDCOMPATIBILITY).isSome then
           some "/usr/libexec/launchproxy"
         else job_get_argv0 j.ldj)
        argv,
      ChildStep.exit EXIT_FAILURE]

/-- Source: `job_start`.  `j` is the record behind the pointer. -/
def job_start (or : Oracle) (j : jobcb) (s : State) : State :=
  let last_start_time := j.start_time
  if j.p ≠ 0 then s
  else
    let sipc := job_get_bool j.ldj LAUNCH_JOBKEY_SERVICEIPC
    let s := if sipc then emit (.socketpair or.spair) s else s
    let j := { j with start_time := or.now }
    let tvd := timersub j.start_time last_start_time
    let j := if tvd.tv_sec ≥ LAUNCHD_MIN_JOB_RUN_TIME then { j with failed_exits := 0 } else j
    let s := set_job j s
    let c := or.fork_result
    if c = -1 then
      let s := emit .fork_failed s
      if sipc then emit (.close or.spair.2) (emit (.close or.spair.1) s) else s
    else if c = 0 then
      { s with exited := some EXIT_FAILURE }
    else
      let s := emit (.fork c (child_steps or j sipc tvd)) s
      let o :=
        if sipc then
          let fd := _fd or.spair.1 (emit (.close or.spair.2) s)
          ipc_open or fd.1 (some j) fd.2
        else (some j, s)
      let j := o.1.getD j
      let r := kevent_mod or c .PROC EV_ADD NOTE_EXIT (.job j.addr) o.2
      if r.1 = -1 then r.2
      else
        let j := { j with p := c }
        let s := set_job j r.2
        if job_get_bool j.ldj LAUNCH_JOBKEY_ONDEMAND then
          job_ignore_fds or j.ldj .job_callback_fn s
        else s

/-- Source: `job_callback`.  `a` is the pointer `obj`, `filter` is `kev->filter`.  An
address without a record in the table is a pointer to a freed record. -/
def job_callback (or : Oracle) (a : Nat) (filter : Filter) (s : State) : State :=
  match find_job s a with
  | none => { s with ub := true }
  | some j =>
    if filter = .PROC then
      if job_get_bool j.ldj LAUNCH_JOBKEY_SERVICEIPC && !j.checkedin then
        job_remove or j s
      else
        let r := job_reap or j s
        let j := r.1
        let s := r.2
        if j.failed_exits > LAUNCHD_FAILED_EXITS_THRESHOLD then
          job_remove or j s
        else if job_get_bool j.ldj LAUNCH_JOBKEY_ONDEMAND then
          job_watch_fds or j.ldj (.job j.addr) s
        else if s.helperd = some j.addr && !s.batch_enabled then s
        else job_start or j s
    else job_start or j s

/-! ## Helper daemon and batch flag -/

/-- Source: `notify_helperd`.  A helper pointer whose record has left the table points
to freed memory. -/
def notify_helperd (s : State) : State :=
  match s.helperd with
  | none => s
  | some a =>
    match find_job s a with
    | some h => if h.p ≠ 0 then emit (.kill h.p SIGHUP) s else s
    | none => { s with ub := true }

/-- Source: `batch_job_enable`. -/
def batch_job_enable (e : Bool) (s : State) : State :=
  if e then
    let s := { s with batch_enabled := true }
    match s.helperd with
    | none => s
    | some a =>
      match find_job s a with
      | some h => if h.p ≠ 0 then emit (.kill h.p SIGCONT) s else s
      | none => { s with ub := true }
  else
    let s := { s with batch_enabled := false }
    match s.helperd with
    | none => s
    | some a =>
      match find_job s a with
      | some h => if h.p ≠ 0 then emit (.kill h.p SIGSTOP) s else s
      | none => { s with ub := true }

/-! ## Connections -/

/-- Source: `ipc_close`. -/
def ipc_close (c : conncb) (s : State) : State :=
  let s := batch_job_enable true s
  let s := { s with connections := s.connections.filter (fun x => !(x.addr == c.addr)) }
  emit (.close c.conn) s

/-- Source: `listen_callback`; `cfd` is what `accept` answers. -/
def listen_callback (or : Oracle) (cfd : Int) (s : State) : State :=
  let s := emit (.accept cfd) s
  let r := _fd cfd s
  if r.1 = -1 then r.2 else (ipc_open or r.1 none r.2).2

/-! ## Commands -/

/-- Source: `load_job`.  Returns the response, the submitted tree as the call leaves it
(its descriptor leaves revoked once it was copied into a job), and the state. -/
def load_job (or : Oracle) (pload : launch_data) (s : State) : launch_data × launch_data × State :=
  match launch_data_dict_lookup pload LAUNCH_JOBKEY_LABEL with
  | none => (.string LAUNCH_RESPONSE_LABELMISSING, pload, s)
  | some label =>
    if s.jobs.any (fun j =>
        streq (job_get_string j.ldj LAUNCH_JOBKEY_LABEL) (launch_data_get_string label)) then
      (.string LAUNCH_RESPONSE_JOBEXISTS, pload, s)
    else if (launch_data_dict_lookup pload LAUNCH_JOBKEY_PROGRAMARGUMENTS).isNone then
      (.string LAUNCH_RESPONSE_PROGRAMARGUMENTSMISSING, pload, s)
    else
      let j : jobcb :=
        { addr := s.next_addr, ldj := launch_data_copy pload, p := 0,
          start_time := { tv_sec := 0, tv_usec := 0 }, failed_exits := 0, c := none,
          checkedin := false }
      let s := { s with next_addr := s.next_addr + 1 }
      let pload := launch_data_revoke_fds pload
      let j :=
        if (launch_data_dict_lookup j.ldj LAUNCH_JOBKEY_ONDEMAND).isNone then
          { j with ldj := launch_data_dict_insert j.ldj (.bool true) LAUNCH_JOBKEY_ONDEMAND }
        else j
      let j :=
        if (launch_data_dict_lookup j.ldj LAUNCH_JOBKEY_SERVICEIPC).isNone then
          { j with ldj := launch_data_dict_insert j.ldj (.bool true) LAUNCH_JOBKEY_SERVICEIPC }
        else j
      let s := { s with jobs := s.jobs ++ [j] }
      let s :=
        if job_get_bool j.ldj LAUNCH_JOBKEY_ONDEMAND then job_watch_fds or j.ldj (.job j.addr) s
        else job_start or j s
      let s :=
        if launch_data_get_string label == HELPERD then { s with helperd := some j.addr } else s
      (.string LAUNCH_RESPONSE_SUCCESS, pload, notify_helperd s)

/-- The loop of `ipc_readmsg` over an array payload of SUBMIT_JOB: `load_job` on every
element, the element with index `i` under the oracle `os i`. -/
def load_jobs (os : Nat → Oracle) :
    Nat → List launch_data → State → List launch_data × List launch_data × State
  | _, [], s => ([], [], s)
  | i, p :: rest, s =>
    let r := load_job (os i) p s
    let rs := load_jobs os (i + 1) rest r.2.2
    (r.1 :: rs.1, r.2.1 :: rs.2.1, rs.2.2)

/-- Source: `get_jobs`; `which` is `none` for NULL.  A record of the table always has a
label (`load_job` refuses a descriptor without one); for a record without label the C
code hands NULL to `launch_data_dict_insert`, and the model inserts nothing. -/
def get_jobs (which : Option String) (s : State) : launch_data :=
  match which with
  | some w =>
    let resp : Option launch_data := s.jobs.foldl (fun resp j =>
      if streq (job_get_string j.ldj LAUNCH_JOBKEY_LABEL) w then some (launch_data_copy j.ldj)
      else resp) none
    match resp with
    | some r => r
    | none => .string LAUNCH_RESPONSE_JOBNOTFOUND
  | none =>
    s.jobs.foldl (fun resp j =>
      let tmp := launch_data_copy j.ldj
      match job_get_string tmp LAUNCH_JOBKEY_LABEL with
      | some k => launch_data_dict_insert resp tmp k
      | none => resp) (.dictionary [])

/-- Source: `setstdio`. -/
def setstdio (d : Int) (o : launch_data) (s : State) : launch_data × State :=
  match o with
  | .string path =>
    if d = 1 then (.string LAUNCH_RESPONSE_SUCCESS, { s with pending_stdout := some path })
    else (.string LAUNCH_RESPONSE_SUCCESS, { s with pending_stderr := some path })
  | .fd n => (.string LAUNCH_RESPONSE_SUCCESS, emit (.dup2 n d) s)
  | _ => (.string LAUNCH_RESPONSE_UNKNOWNCOMMAND, s)

/-- The loop of `adjust_rlimits` over the first `n` entries of the input, from index
`i`: an entry that differs from the cache is stored and handed to `setrlimit`. -/
def adjust_rlimits_loop (ltmp : List rlimit) :
    Nat → Nat → List rlimit → State → List rlimit × State
  | 0, _, l, s => (l, s)
  | n + 1, i, l, s =>
    match ltmp.get? i, l.get? i with
    | some x, some y =>
      if x.rlim_cur ≠ y.rlim_cur ∨ x.rlim_max ≠ y.rlim_max then
        adjust_rlimits_loop ltmp n (i + 1) (l.set i x) (emit (.setrlimit i x) s)
      else adjust_rlimits_loop ltmp n (i + 1) l s
    | _, _ => adjust_rlimits_loop ltmp n (i + 1) l s

/-- Source: `adjust_rlimits`; `inp` is `none` for NULL.  A `struct rlimit` has 16
bytes. -/
def adjust_rlimits (or : Oracle) (inp : Option launch_data) (s : State) : launch_data × State :=
  let lsz := 16 * RLIM_NLIMITS
  let l : List rlimit :=
    match s.l with
    | some l => l
    | none => (List.range RLIM_NLIMITS).map or.getrlimit
  let s : State :=
    match s.l with
    | some _ => s
    | none =>
      { (List.range RLIM_NLIMITS).foldl (fun s i => emit (.getrlimit i) s) s with l := some l }
  match inp with
  | none => (.opaq l, s)
  | some i =>
    let ltmp := launch_data_get_opaq i
    let ltmpsz := 16 * ltmp.length
    let ltmpsz := if ltmpsz > lsz then lsz else ltmpsz
    let r := adjust_rlimits_loop ltmp (ltmpsz / 16) 0 l s
    (.opaq r.1, { r.2 with l := some r.1 })

/-- The loop of `launchd_remove_all_jobs`, at most `fuel` rounds. -/
def remove_all_loop (or : Oracle) : Nat → State → State
  | 0, s => s
  | fuel + 1, s =>
    match s.jobs with
    | [] => s
    | j :: _ => remove_all_loop or fuel (job_remove or j s)

/-- Source: `launchd_remove_all_jobs`.  Every round unlinks the first record, so as
many rounds as the table has records empty it. -/
def launchd_remove_all_jobs (or : Oracle) (s : State) : State :=
  remove_all_loop or s.jobs.length s

/-- Source: `do_shutdown`. -/
def do_shutdown (or : Oracle) (s : State) : State :=
  let s := launchd_remove_all_jobs or s
  if s.pid = 1 then emit (.mach_start_shutdown SIGTERM) (emit .catatonia s)
  else { s with exited := some EXIT_SUCCESS }

/-- Source: `setenv(name, value, 1)` on `environ`. -/
def setenv (name value : String) : List (String × String) → List (String × String)
  | [] => [(name, value)]
  | (k, v) :: rest => if k = name then (name, value) :: rest else (k, v) :: setenv name value rest

/-- Source: `set_user_env` under `launch_data_dict_iterate`. -/
def set_user_env : List (String × launch_data) → List (String × String) → List (String × String)
  | [], env => env
  | (k, v) :: rest, env => set_user_env rest (setenv k (launch_data_get_string v) env)

/-- The test of `ipc_readmsg` for a string request:
`LAUNCH_DATA_STRING == type(msg) && !strcmp(string(msg), key)`. -/
def is_request (msg : launch_data) (key : String) : Bool :=
  match msg with
  | .string x => x == key
  | _ => false

/-- The value of the first pair with the given key replaced by `v`. -/
def dict_replace_first (key : String) (v : launch_data) :
    List (String × launch_data) → List (String × launch_data)
  | [] => []
  | (k, x) :: rest =>
    if k = key then (k, v) :: rest else (k, x) :: dict_replace_first key v rest

/-- The value that `launch_data_dict_lookup` finds under `key` replaced by `v`: how the
owner of a dictionary sees that value after it was changed in place. -/
def dict_replace (msg : launch_data) (key : String) (v : launch_data) : launch_data :=
  match msg with
  | .dictionary kv => .dictionary (dict_replace_first key v kv)
  | d => d

/-- The result of the command chain of `ipc_readmsg`: the response `resp`, the message
as the command leaves it, whether the command jumped to the label `out` (past
`launch_data_close_fds(msg)`), and the state. -/
structure CmdResult where
  resp : launch_data
  msg : launch_data
  goto_out : Bool
  s : State

/-- Source: `ipc_readmsg`, the chain of `if`/`else if` that picks the command.  `c` is
the connection record behind `context`; the `i`-th `load_job` of a SUBMIT_JOB runs
under the oracle `os i`, everything else under `os 0`. -/
def ipc_readmsg_cmd (os : Nat → Oracle) (msg : launch_data) (c : conncb) (s : State) :
    CmdResult :=
  let or := os 0
  let ok : launch_data := .string LAUNCH_RESPONSE_SUCCESS
  let notfound : launch_data := .string LAUNCH_RESPONSE_JOBNOTFOUND
  let find := fun (tmp : launch_data) => s.jobs.find? (fun j =>
    streq (job_get_string j.ldj LAUNCH_JOBKEY_LABEL) (launch_data_get_string tmp))
  match launch_data_dict_lookup msg LAUNCH_KEY_STARTJOB with
  | some tmp =>
    match find tmp with
    | some j => ⟨ok, msg, true, job_start or j s⟩
    | none => ⟨notfound, msg, false, s⟩
  | none =>
  match launch_data_dict_lookup msg LAUNCH_KEY_STOPJOB with
  | some tmp =>
    match find tmp with
    | some j => ⟨ok, msg, true, job_stop j s⟩
    | none => ⟨notfound, msg, false, s⟩
  | none =>
  match launch_data_dict_lookup msg LAUNCH_KEY_REMOVEJOB with
  | some tmp =>
    match find tmp with
    | some j =>
      let s := if launch_data_get_string tmp == HELPERD then { s with helperd := none } else s
      ⟨ok, msg, true, notify_helperd (job_remove or j s)⟩
    | none => ⟨notfound, msg, false, s⟩
  | none =>
  match launch_data_dict_lookup msg LAUNCH_KEY_SUBMITJOB with
  | some pload =>
    match pload with
    | .array xs =>
      let r := load_jobs os 0 xs s
      ⟨.array r.1, dict_replace msg LAUNCH_KEY_SUBMITJOB (.array r.2.1), false, r.2.2⟩
    | _ =>
      let r := load_job or pload s
      ⟨r.1, dict_replace msg LAUNCH_KEY_SUBMITJOB r.2.1, false, r.2.2⟩
  | none =>
  match launch_data_dict_lookup msg LAUNCH_KEY_UNSETUSERENVIRONMENT with
  | some pload =>
    ⟨ok, msg, false,
      { s with environ := s.environ.filter (fun kv => !(kv.1 == launch_data_get_string pload)) }⟩
  | none =>
  if is_request msg LAUNCH_KEY_GETUSERENVIRONMENT then
    ⟨s.environ.foldl (fun resp kv => launch_data_dict_insert resp (.string kv.2) kv.1)
        (.dictionary []), msg, false, s⟩
  else
  match launch_data_dict_lookup msg LAUNCH_KEY_SETUSERENVIRONMENT with
  | some pload =>
    match pload with
    | .dictionary kv => ⟨ok, msg, false, { s with environ := set_user_env kv s.environ }⟩
    | _ => ⟨ok, msg, false, s⟩
  | none =>
  if is_request msg LAUNCH_KEY_CHECKIN then
    match c.j with
    | some a =>
      match find_job s a with
      | some j => ⟨launch_data_copy j.ldj, msg, false, set_job { j with checkedin := true } s⟩
      | none => ⟨.string LAUNCH_RESPONSE_NOTRUNNINGFROMLAUNCHD, msg, false, { s with ub := true }⟩
    | none => ⟨.string LAUNCH_RESPONSE_NOTRUNNINGFROMLAUNCHD, msg, false, s⟩
  else if is_request msg LAUNCH_KEY_RELOADTTYS then
    ⟨ok, msg, false, emit .update_ttys s⟩
  else if is_request msg LAUNCH_KEY_SHUTDOWN then
    ⟨ok, msg, false, do_shutdown or s⟩
  else if is_request msg LAUNCH_KEY_GETJOBS then
    ⟨launch_data_revoke_fds (get_jobs none s), msg, false, s⟩
  else if is_request msg LAUNCH_KEY_GETRESOURCELIMITS then
    let r := adjust_rlimits or none s
    ⟨r.1, msg, false, r.2⟩
  else
  match launch_data_dict_lookup msg LAUNCH_KEY_SETRESOURCELIMITS with
  | some tmp =>
    let r := adjust_rlimits or (some tmp) s
    ⟨r.1, msg, false, r.2⟩
  | none =>
  match launch_data_dict_lookup msg LAUNCH_KEY_GETJOB with
  | some tmp =>
    ⟨launch_data_revoke_fds (get_jobs (some (launch_data_get_string tmp)) s), msg, false, s⟩
  | none =>
  match launch_data_dict_lookup msg LAUNCH_KEY_GETJOBWITHHANDLES with
  | some tmp => ⟨get_jobs (some (launch_data_get_string tmp)) s, msg, false, s⟩
  | none =>
  match launch_data_dict_lookup msg LAUNCH_KEY_SETUMASK with
  | some tmp =>
    ⟨.integer s.cur_umask, msg, false,
      { s with cur_umask := launch_data_get_integer tmp % 512 }⟩
  | none =>
  if is_request msg LAUNCH_KEY_GETUMASK then
    ⟨.integer s.cur_umask, msg, false, s⟩
  else
  match launch_data_dict_lookup msg LAUNCH_KEY_SETSTDOUT with
  | some tmp =>
    let r := setstdio 1 tmp s
    ⟨r.1, msg, false, r.2⟩
  | none =>
  match launch_data_dict_lookup msg LAUNCH_KEY_SETSTDERR with
  | some tmp =>
    let r := setstdio 2 tmp s
    ⟨r.1, msg, false, r.2⟩
  | none =>
  match launch_data_dict_lookup msg LAUNCH_KEY_BATCHCONTROL with
  | some tmp => ⟨ok, msg, false, batch_job_enable (launch_data_get_bool tmp) s⟩
  | none =>
  if is_request msg LAUNCH_KEY_BATCHQUERY then
    ⟨.bool s.batch_enabled, msg, false, s⟩
  else
    ⟨.string LAUNCH_RESPONSE_UNKNOWNCOMMAND, msg, false, s⟩

/-- Source: `ipc_readmsg`.  Returns the response handed to `launchd_msg_send` and the
state.  Once the process has called `exit` nothing more is executed. -/
def ipc_readmsg (os : Nat → Oracle) (msg : launch_data) (c : conncb) (s : State) :
    launch_data × State :=
  let r := ipc_readmsg_cmd os msg c s
  if r.s.exited.isSome then (r.resp, r.s)
  else
    let s := if r.goto_out then r.s else launch_data_close_fds r.msg r.s
    let s := emit (.msg_send c.conn r.resp) s
    match (os 0).send_result with
    | .ok => (r.resp, s)
    | .eagain => (r.resp, (kevent_mod (os 0) c.conn .WRITE EV_ADD 0 (.conn c.addr) s).2)
    | .error => (r.resp, ipc_close c s)

/-- The messages one `launchd_msg_recv` hands to `ipc_readmsg`, one after the other; the
`k`-th runs under the oracles `oss k`.  `launchd_msg_recv` keeps using the connection
record, so a message that arrives after `ipc_readmsg` closed the connection reads a
freed record. -/
def ipc_readmsgs (oss : Nat → Nat → Oracle) :
    Nat → List launch_data → conncb → State → State
  | _, [], _, s => s
  | k, m :: rest, c, s =>
    if s.exited.isSome then s
    else
      match s.connections.find? (fun x => x.addr == c.addr) with
      | some c => ipc_readmsgs oss (k + 1) rest c (ipc_readmsg (oss k) m c s).2
      | none => { s with ub := true }

/-- Source: `ipc_callback`.  `msgs` are the messages `launchd_msg_recv` decodes,
`recv_failed` tells whether it answers `-1` with an error other than `EAGAIN`; `send_r`
is what `launchd_msg_send(c->conn, NULL)` answers and `send_eagain` whether its error is
`EAGAIN`. -/
def ipc_callback (oss : Nat → Nat → Oracle) (c : conncb) (filter : Filter)
    (msgs : List launch_data) (recv_failed : Bool) (send_r : Int) (send_eagain : Bool)
    (s : State) : State :=
  if filter = .READ then
    let s := ipc_readmsgs oss 0 msgs c s
    if s.exited.isSome then s
    else if recv_failed then ipc_close c s else s
  else if filter = .WRITE then
    if send_r = -1 then
      if !send_eagain then ipc_close c s else s
    else if send_r = 0 then (kevent_mod (oss 0 0) c.conn .WRITE EV_DELETE 0 .null s).2
    else s
  else ipc_close c s

/-- Source: `mach_callback`; `mp` is the port name read from the pipe.  The callback the
table holds for the port is invoked with filter MACHPORT; a job callback is
`job_callback`, any other callback is code outside this file. -/
def mach_callback (or : Oracle) (mp : Int) (s : State) : State :=
  match s.machcbtable with
  | none => { s with ub := true }
  | some t =>
    let idx := MACH_PORT_INDEX mp
    let s := if idx < t.cap then s else { s with ub := true }
    let udata : Option Udata := (t.stored.find? (fun e => e.1 == idx)).map (fun e => e.2)
    match udata with
    | some (Udata.job a) => job_callback or a .MACHPORT s
    | _ => s

/-- Source: `signal_callback`; `sig` is `kev->ident`.  Reloading the configuration
(`reload_launchd_config`) and `update_ttys` are outside this model but for the
connection they open, see `Reachable.config`; the log-level toggles change no state of
the model. -/
def signal_callback (or : Oracle) (sig : Nat) (s : State) : State :=
  if sig = SIGHUP then emit .update_ttys s
  else if sig = SIGTERM then do_shutdown or s
  else s

/-! ## Reachable states -/

/-- One turn of the event loop: the callback the loop invokes while the process is
running, with whatever the operating system answers during the call.  A connection
callback runs on a record of the connection list, a job callback on a record of the job
table.  `config` is the connection that `reload_launchd_config` opens for the
configuration reader, `machport` a port registration by the bootstrap code outside this
file. -/
inductive Step : State → State → Prop where
  | ipc (oss : Nat → Nat → Oracle) (c : conncb) (filter : Filter) (msgs : List launch_data)
      (recv_failed : Bool) (send_r : Int) (send_eagain : Bool) (s : State) :
      s.exited = none → c ∈ s.connections →
      Step s (ipc_callback oss c filter msgs recv_failed send_r send_eagain s)
  | listen (or : Oracle) (cfd : Int) (s : State) :
      s.exited = none → Step s (listen_callback or cfd s)
  | config (or : Oracle) (fd : Int) (s : State) :
      s.exited = none → Step s (ipc_open or fd none s).2
  | job (or : Oracle) (a : Nat) (filter : Filter) (s : State) :
      s.exited = none → (find_job s a).isSome → Step s (job_callback or a filter s)
  | signal (or : Oracle) (sig : Nat) (s : State) :
      s.exited = none → Step s (signal_callback or sig s)
  | machport (or : Oracle) (ident : Int) (flags : Nat) (udata : Udata) (s : State) :
      s.exited = none → Step s (kevent_mod or ident .MACHPORT flags 0 udata s).2
  | mach (or : Oracle) (mp : Int) (s : State) :
      s.exited = none → Step s (mach_callback or mp s)

/-- Any number of turns of the event loop. -/
inductive Steps : State → State → Prop where
  | refl (s : State) : Steps s s
  | tail (s t u : State) : Steps s t → Step t u → Steps s u

/-- The states the supervisor can be in between two turns of its event loop, from the
start of `main` on. -/
def Reachable (s : State) : Prop :=
  ∃ pid reap env mask, Steps (State.start pid reap env mask) s

/-- The pairs (address, descriptor) of the records of the job table, in table order:
the part of a record that no operation changes once the record is linked. -/
def jobkeys (s : State) : List (Nat × launch_data) := s.jobs.map (fun j => (j.addr, j.ldj))

/-- The label of a job record: `job_get_string(j->ldj, LAUNCH_JOBKEY_LABEL)`. -/
def job_label (j : jobcb) : Option String := job_get_string j.ldj LAUNCH_JOBKEY_LABEL

/-- The labels of the job table, in table order. -/
def labels (s : State) : List (Option String) := s.jobs.map job_label

/-- Whether a log entry is the creation of a child process. -/
def is_fork : Effect → Bool
  | .fork _ _ => true
  | _ => false

/-- The number of children the supervisor has created so far. -/
def spawned (s : State) : Nat := (s.log.filter is_fork).length

/-- Allocator and table invariant: every linked record lies below the allocation
counter, no two linked records share an address, no two share a label, and every
linked record has a label. -/
structure Inv (s : State) : Prop where
  fresh : ∀ j ∈ s.jobs, j.addr < s.next_addr
  addr_nodup : (s.jobs.map (fun j => j.addr)).Nodup
  labels_nodup : (labels s).Nodup
  has_label : ∀ j ∈ s.jobs, (job_label j).isSome

/-- The record `j` a caller holds agrees with the table: a linked record with the
address of `j` has the descriptor of `j`. -/
def Compat (j : jobcb) (s : State) : Prop :=
  ∀ x ∈ s.jobs, x.addr = j.addr → x.ldj = j.ldj

/-- The table of `t` holds no record that the table of `s` did not hold, with the same
descriptor, and the allocation counter did not go back. -/
def Le (s t : State) : Prop :=
  (jobkeys t).Sublist (jobkeys s) ∧ s.next_addr ≤ t.next_addr

/-- Every record of the table of `t` was in the table of `s` with the same descriptor, or
was allocated after `s`; the allocation counter did not go back. -/
def Evolves (s t : State) : Prop :=
  (∀ k ∈ jobkeys t, k ∈ jobkeys s ∨ s.next_addr ≤ k.1) ∧ s.next_addr ≤ t.next_addr

/-- The descriptor of the job record `load_job` creates from a submitted descriptor `d`:
a copy of `d`, with `OnDemand = true` inserted when `d` has no such key and then
`ServiceIPC = true` inserted when `d` has no such key. -/
def with_defaults (d : launch_data) : launch_data :=
  let d1 :=
    if (launch_data_dict_lookup d LAUNCH_JOBKEY_ONDEMAND).isNone then
      launch_data_dict_insert d (.bool true) LAUNCH_JOBKEY_ONDEMAND
    else d
  if (launch_data_dict_lookup d1 LAUNCH_JOBKEY_SERVICEIPC).isNone then
    launch_data_dict_insert d1 (.bool true) LAUNCH_JOBKEY_SERVICEIPC
  else d1

/-- The record `load_job` allocates for a submitted descriptor `d`. -/
def new_job (s : State) (d : launch_data) : jobcb :=
  { addr := s.next_addr, ldj := with_defaults d, p := 0,
    start_time := { tv_sec := 0, tv_usec := 0 }, failed_exits := 0, c := none,
    checkedin := false }

/-- The state of `load_job` after `TAILQ_INSERT_TAIL`. -/
def linked (s : State) (d : launch_data) : State :=
  { s with next_addr := s.next_addr + 1, jobs := s.jobs ++ [new_job s d] }

/-- The state of `load_job` after the new record was watched or started. -/
def launched (or : Oracle) (s : State) (d : launch_data) : State :=
  if job_get_bool (with_defaults d) LAUNCH_JOBKEY_ONDEMAND then
    job_watch_fds or (with_defaults d) (.job s.next_addr) (linked s d)
  else job_start or (new_job s d) (linked s d)

/-- The descriptors `load_job` accepts in a state: a label is present, no record of the
table carries it, and program arguments are present. -/
def Accepts (s : State) (d : launch_data) : Prop :=
  ∃ label, launch_data_dict_lookup d LAUNCH_JOBKEY_LABEL = some label ∧
    (¬ ∃ j ∈ s.jobs, job_label j = some (launch_data_get_string label)) ∧
    launch_data_dict_lookup d LAUNCH_JOBKEY_PROGRAMARGUMENTS ≠ none

/-- The table of `t` is the table of `s`, but for the record at address `a`, whose
descriptor is `l` and whose other fields may have been written. -/
def Touch (a : Nat) (l : launch_data) (s t : State) : Prop :=
  t.jobs = s.jobs ∨ ∃ j : jobcb, j.addr = a ∧ j.ldj = l ∧ t.jobs = (set_job j s).jobs

/-! ## Concrete inputs -/

/-- An operating system whose calls all succeed: the child gets pid 42. -/
def or0 : Oracle :=
  { status := 0, now := { tv_sec := 1000, tv_usec := 0 }, fork_result := 42, kevent_result := 0,
    spair := (7, 8), send_result := .ok, uid := 0, gid := 0,
    getrlimit := fun _ => { rlim_cur := 0, rlim_max := 0 }, getpwnam := fun _ => none,
    pthread_create_result := 0, pipe_fds := (5, 6), mach_port_allocate_ok := true,
    mach_port_move_member_ok := true }

/-- The oracle `or0` with another child pid for every message and every submitted job. -/
def oss0 (k i : Nat) : Oracle := { or0 with fork_result := 42 + 10 * k + i }

/-- The start state of a supervisor that is not init. -/
def s0 : State := State.start 100 false [] 18

/-- The state after one client has connected on descriptor 5. -/
def s_conn : State := listen_callback or0 5 s0

/-- The connection record of that client. -/
def conn0 : conncb := { addr := 1, conn := 5, j := none }

/-- The descriptor of scenario S1. -/
def dx : launch_data :=
  .dictionary [("Label", .string "x"), ("ProgramArguments", .array [.string "/bin/true"]),
    ("OnDemand", .bool false)]

/-- An on-demand descriptor with one activation socket, as in scenario S2. -/
def dy : launch_data :=
  .dictionary [("Label", .string "y"), ("ProgramArguments", .array [.string "/bin/cat"]),
    ("Sockets", .dictionary [("Listener", .array [.fd 9])])]

/-- The request `dict{SUBMIT_JOB: d}`. -/
def msg_submit (d : launch_data) : launch_data := .dictionary [(LAUNCH_KEY_SUBMITJOB, d)]

/-- The request `dict{GET_JOB: label}`. -/
def msg_getjob (label : launch_data) : launch_data := .dictionary [(LAUNCH_KEY_GETJOB, label)]

/-- The state after the client has submitted `dx` and `dy`. -/
def s_two : State :=
  ipc_callback oss0 conn0 .READ [msg_submit dx, msg_submit dy] false 0 false s_conn

/-- The descriptor of scenario S1 for a job that does not use service IPC. -/
def dxs : launch_data :=
  .dictionary [("Label", .string "x"), ("ProgramArguments", .array [.string "/bin/false"]),
    ("OnDemand", .bool false), ("ServiceIPC", .bool false)]

/-- The oracle `or0` at the exit of a child with the given wait status; the next child
gets pid 43. -/
def or_exit (status : Int) : Oracle := { or0 with status := status, fork_result := 43 }

/-- The seconds a forked child sleeps before `execvp`. -/
def child_sleep : List ChildStep → Int
  | [] => 0
  | .sleep n :: rest => n + child_sleep rest
  | _ :: rest => child_sleep rest

/-- The steps of the child of the most recent `fork` in the log. -/
def last_child (log : List Effect) : List ChildStep :=
  match (log.filter is_fork).getLast? with
  | some (.fork _ child) => child
  | _ => []

/-- One round of a job that exits right after `execvp`: the live child of the job at
address `a` sleeps as long as its steps say, executes at the second
`start_time + sleep`, and exits at once with wait status `status`; the supervisor handles
the exit at that very second (the clock of the call is the time of the exit). -/
def immediate_exit (or : Oracle) (status : Int) (a : Nat) (s : State) : State :=
  match find_job s a with
  | none => s
  | some j =>
    job_callback
      { or with
        status := status,
        now := { tv_sec := j.start_time.tv_sec + child_sleep (last_child s.log),
                 tv_usec := j.start_time.tv_usec } }
      a .PROC s

/-- The second at which the live child of the job at address `a` calls `execvp`: its
start time plus its sleep. -/
def exec_time (a : Nat) (s : State) : Option Int :=
  (find_job s a).map (fun j => j.start_time.tv_sec + child_sleep (last_child s.log))

/-- A record of the descriptor `dx` with defaults filled in (service IPC by default): the
live child 42, started at second 1000, with the trusted connection at address 3. -/
def j_x : jobcb :=
  { addr := 2, ldj := with_defaults dx, p := 42, start_time := { tv_sec := 1000, tv_usec := 0 },
    failed_exits := 0, c := some 3, checkedin := false }

/-- A state with one client connection, the job `j_x` and its trusted connection. -/
def s_run : State :=
  { s0 with jobs := [j_x], connections := [conn0, { addr := 3, conn := 7, j := some 2 }],
            next_addr := 4 }

/-- The descriptor of scenario S1 with label `l` and program arguments `pa`: the keys
`Label`, `ProgramArguments` and `OnDemand = false`, no other key. -/
def d_s1 (l : String) (pa : launch_data) : launch_data :=
  .dictionary [(LAUNCH_JOBKEY_LABEL, .string l), (LAUNCH_JOBKEY_PROGRAMARGUMENTS, pa),
    (LAUNCH_JOBKEY_ONDEMAND, .bool false)]

/-- The record `j_x` after its child has checked in. -/
def j_xc : jobcb := { j_x with checkedin := true }

/-- The state `s_run` after the child of the job has checked in. -/
def s_checked : State := { s_run with jobs := [j_xc] }

/-- An operating system that refuses every event registration. -/
def or_kfail : Oracle := { or0 with kevent_result := -1 }

/-- The state after the client has submitted `dx` while event registrations fail. -/
def s_kfail : State :=
  ipc_callback (fun _ _ => or_kfail) conn0 .READ [msg_submit dx] false 0 false s_conn

/-- The record `j_x` between two runs, after three bad exits. -/
def j_idle : jobcb := { j_x with p := 0, c := none, failed_exits := 3 }

/-- The state `s_run` with the job between two runs. -/
def s_idle : State := { s_run with jobs := [j_idle] }

/-- Whether a step of the child is a `sleep`. -/
def is_sleep : ChildStep → Bool
  | .sleep _ => true
  | _ => false

/-- Whether a step of the child is a `setenv`. -/
def is_setenv : ChildStep → Bool
  | .setenv _ _ => true
  | _ => false

/-- The place of a step of the child in the order in which the code of `job_start`
performs the steps between `fork` and `execvp`. -/
def step_rank : ChildStep → Nat
  | .close _ => 0
  | .setpriority _ => 1
  | .getrlimit _ => 2
  | .setrlimit _ _ => 2
  | .initgroups _ _ => 3
  | .low_priority_io => 4
  | .chroot _ => 5
  | .setgid _ => 6
  | .setuid _ => 7
  | .chdir _ => 8
  | .umask _ => 9
  | .redirect _ t => if t = 1 then 10 else 11
  | .setenv _ _ => 12
  | .setsid => 13
  | .sleep _ => 14
  | .execvp _ _ => 15
  | .exit _ => 16

/-- An on-demand descriptor that does not use service IPC. -/
def d_od : launch_data :=
  .dictionary [("Label", .string "y"), ("ProgramArguments", .array [.string "/bin/cat"]),
    ("OnDemand", .bool true), ("ServiceIPC", .bool false)]

/-- A record of `d_od` between two runs, after two bad exits, last started at second
1000. -/
def j_od : jobcb :=
  { addr := 2, ldj := d_od, p := 0, start_time := { tv_sec := 1000, tv_usec := 0 },
    failed_exits := 2, c := none, checkedin := false }

/-- A state whose table holds the record `j_od`. -/
def s_od : State := { s0 with jobs := [j_od], next_addr := 3 }

/-- A descriptor with service IPC and one configured environment variable. -/
def d_env : launch_data :=
  .dictionary [("Label", .string "e"), ("ProgramArguments", .array [.string "/usr/bin/env"]),
    ("OnDemand", .bool false), ("ServiceIPC", .bool true),
    ("EnvironmentVariables", .dictionary [("PATH", .string "/bin")])]

/-- A record of `d_env` that has not run yet. -/
def j_env : jobcb :=
  { addr := 2, ldj := d_env, p := 0, start_time := { tv_sec := 0, tv_usec := 0 },
    failed_exits := 0, c := none, checkedin := false }

/-- A state whose table holds the record `j_env`. -/
def s_env : State := { s0 with jobs := [j_env], next_addr := 3 }

/-- The job at address `a` is a plain respawning job in the middle of a run: its record is
in the table with a live child, started in second `t0` with `fe` failed exits; the job is
not on-demand and does not use service IPC; the child of the most recent `fork` sleeps
`sl` seconds before `execvp`; and the job is not the helper daemon held back by a disabled
batch. -/
def Running (a : Nat) (t0 : Int) (fe : Nat) (sl : Int) (s : State) : Prop :=
  (∃ j, find_job s a = some j ∧ j.p ≠ 0 ∧ j.failed_exits = fe ∧ j.start_time.tv_sec = t0 ∧
    job_get_bool j.ldj LAUNCH_JOBKEY_ONDEMAND = false ∧
    job_get_bool j.ldj LAUNCH_JOBKEY_SERVICEIPC = false) ∧
  child_sleep (last_child s.log) = sl ∧
  ¬ (s.helperd = some a ∧ s.batch_enabled = false)

/-- A descriptor with the label of the helper daemon, of the shape of scenario S1. -/
def d_helper : launch_data :=
  .dictionary [("Label", .string HELPERD),
    ("ProgramArguments", .array [.string "/usr/libexec/launchd_helperd"]),
    ("OnDemand", .bool false)]

/-- The state after the client has submitted `dx`: the job has address 2, the live child
42 and the trusted connection at address 3. -/
def s_sub : State := ipc_callback oss0 conn0 .READ [msg_submit dx] false 0 false s_conn

/-- The state after the child of that job has exited without checking in. -/
def s_gone : State := job_callback (or_exit 0) 2 .PROC s_sub

/-- The state after the trusted connection of that job was closed by its peer while the
child is still alive. -/
def s_closed : State :=
  ipc_callback oss0 { addr := 3, conn := 7, j := some 2 } .READ [] true 0 false s_sub

/-- The state after the client has submitted `d_helper`. -/
def s_hsub : State := ipc_callback oss0 conn0 .READ [msg_submit d_helper] false 0 false s_conn

/-- The state after the child of the helper daemon has exited without checking in. -/
def s_hgone : State := job_callback (or_exit 0) 2 .PROC s_hsub

/-- The state after the first port registration, of the port name 768 with index 3, for
the callback of a job. -/
def s_port : State := (kevent_mod or0 768 .MACHPORT EV_ADD 0 (.job 2) s0).2

/-- A descriptor with the label of the helper daemon that is on-demand by default, has
one activation socket and does not use service IPC. -/
def d_hod : launch_data :=
  .dictionary [("Label", .string HELPERD),
    ("ProgramArguments", .array [.string "/usr/libexec/launchd_helperd"]),
    ("Sockets", .dictionary [("Listener", .array [.fd 9])]), ("ServiceIPC", .bool false)]

/-- A record of `d_hod` with the live child 42. -/
def j_hod : jobcb :=
  { addr := 2, ldj := with_defaults d_hod, p := 42,
    start_time := { tv_sec := 1000, tv_usec := 0 }, failed_exits := 0, c := none,
    checkedin := false }

/-- A state in which the record `j_hod` is the helper daemon and batch is disabled. -/
def s_hod : State :=
  { s0 with jobs := [j_hod], helperd := some 2, batch_enabled := false, next_addr := 3 }

/-- The state `s_checked` with its job as the helper daemon and batch disabled. -/
def s_hidle : State := { s_checked with helperd := some 2, batch_enabled := false }

/-- The record `j_xc` at an exit that finds ten failures counted. -/
def j_ten : jobcb := { j_xc with failed_exits := 10 }

/-- The state `s_run` with the record `j_ten`. -/
def s_ten : State := { s_run with jobs := [j_ten] }

/-! ## Basic facts -/

section Basic

@[simp] theorem emit_jobs (e : Effect) (s : State) : (emit e s).jobs = s.jobs := rfl
@[simp] theorem emit_connections (e : Effect) (s : State) :
    (emit e s).connections = s.connections := rfl
@[simp] theorem emit_helperd (e : Effect) (s : State) : (emit e s).helperd = s.helperd := rfl
@[simp] theorem emit_batch_enabled (e : Effect) (s : State) :
    (emit e s).batch_enabled = s.batch_enabled := rfl
@[simp] theorem emit_next_addr (e : Effect) (s : State) :
    (emit e s).next_addr = s.next_addr := rfl
@[simp] theorem emit_log (e : Effect) (s : State) : (emit e s).log = s.log ++ [e] := rfl
@[simp] theorem emit_pid (e : Effect) (s : State) : (emit e s).pid = s.pid := rfl
@[simp] theorem emit_reap (e : Effect) (s : State) :
    (emit e s).PID1_REAP_ADOPTED_CHILDREN = s.PID1_REAP_ADOPTED_CHILDREN := rfl
@[simp] theorem emit_exited (e : Effect) (s : State) : (emit e s).exited = s.exited := rfl

/-- Appending nothing to the log leaves the state as it is. -/
theorem log_append_nil (s : State) : { s with log := s.log ++ [] } = s := by
  cases s; simp

/-- Appending to the log twice is appending the concatenation. -/
theorem log_append_append (s : State) (l1 l2 : List Effect) :
    { ({ s with log := s.log ++ l1 } : State) with
        log := ({ s with log := s.log ++ l1 } : State).log ++ l2 }
      = { s with log := s.log ++ (l1 ++ l2) } := by
  simp [List.append_assoc]

/-- A registration for a filter other than MACHPORT only appends to the log, and not
even that for a process filter in the reaping init. -/
theorem kevent_mod_not_mach (or : Oracle) (ident : Int) (f : Filter) (fl ffl : Nat)
    (u : Udata) (s : State) (hf : f ≠ .MACHPORT) :
    kevent_mod or ident f fl ffl u s =
      if s.PID1_REAP_ADOPTED_CHILDREN && f = .PROC && s.pid = 1 then (0, s)
      else (or.kevent_result, emit (.kevent ident f fl ffl u) s) := by
  simp [kevent_mod, hf]

theorem kevent_mod_read (or : Oracle) (ident : Int) (fl ffl : Nat) (u : Udata) (s : State) :
    kevent_mod or ident .READ fl ffl u s
      = (or.kevent_result, emit (.kevent ident .READ fl ffl u) s) := by
  simp [kevent_mod]

mutual
theorem launch_data_close_fds_eq : ∀ (o : launch_data) (s : State),
    launch_data_close_fds o s =
      { s with log := s.log ++ ((launch_data_fds o).filter (fun n => n ≠ -1)).map Effect.close }
  | .dictionary kv, s => by
    rw [launch_data_close_fds, launch_data_fds]; exact launch_data_close_fds_dict_eq kv s
  | .array xs, s => by
    rw [launch_data_close_fds, launch_data_fds]; exact launch_data_close_fds_array_eq xs s
  | .fd n, s => by
    by_cases h : n = -1 <;> simp [launch_data_close_fds, launch_data_fds, h, emit, log_append_nil]
  | .integer _, s | .bool _, s | .string _, s | .opaq _, s => by
    simp [launch_data_close_fds, launch_data_fds, log_append_nil]
theorem launch_data_close_fds_dict_eq : ∀ (kv : List (String × launch_data)) (s : State),
    launch_data_close_fds_dict kv s =
      { s with log := s.log ++
          ((launch_data_fds_dict kv).filter (fun n => n ≠ -1)).map Effect.close }
  | [], s => by simp [launch_data_close_fds_dict, launch_data_fds_dict, log_append_nil]
  | (_, v) :: rest, s => by
    rw [launch_data_close_fds_dict, launch_data_close_fds_eq v s,
      launch_data_close_fds_dict_eq rest]
    simp [launch_data_fds_dict, List.append_assoc]
theorem launch_data_close_fds_array_eq : ∀ (xs : List launch_data) (s : State),
    launch_data_close_fds_array xs s =
      { s with log := s.log ++
          ((launch_data_fds_array xs).filter (fun n => n ≠ -1)).map Effect.close }
  | [], s => by simp [launch_data_close_fds_array, launch_data_fds_array, log_append_nil]
  | v :: rest, s => by
    rw [launch_data_close_fds_array, launch_data_close_fds_eq v s,
      launch_data_close_fds_array_eq rest]
    simp [launch_data_fds_array, List.append_assoc]
end

mutual
theorem job_watch_fds_eq (or : Oracle) (c : Udata) : ∀ (o : launch_data) (s : State),
    job_watch_fds or o c s =
      { s with log := s.log ++
          (launch_data_fds o).map (fun n => Effect.kevent n .READ EV_ADD 0 c) }
  | .dictionary kv, s => by
    rw [job_watch_fds, launch_data_fds]; exact job_watch_fds_dict_eq or c kv s
  | .array xs, s => by
    rw [job_watch_fds, launch_data_fds]; exact job_watch_fds_array_eq or c xs s
  | .fd n, s => by
    simp [job_watch_fds, launch_data_fds, kevent_mod_read, emit]
  | .integer _, s | .bool _, s | .string _, s | .opaq _, s => by
    simp [job_watch_fds, launch_data_fds, log_append_nil]
theorem job_watch_fds_dict_eq (or : Oracle) (c : Udata) :
    ∀ (kv : List (String × launch_data)) (s : State),
    job_watch_fds_dict or kv c s =
      { s with log := s.log ++
          (launch_data_fds_dict kv).map (fun n => Effect.kevent n .READ EV_ADD 0 c) }
  | [], s => by simp [job_watch_fds_dict, launch_data_fds_dict, log_append_nil]
  | (_, v) :: rest, s => by
    rw [job_watch_fds_dict, job_watch_fds_eq or c v s, job_watch_fds_dict_eq or c rest]
    simp [launch_data_fds_dict, List.append_assoc]
theorem job_watch_fds_array_eq (or : Oracle) (c : Udata) :
    ∀ (xs : List launch_data) (s : State),
    job_watch_fds_array or xs c s =
      { s with log := s.log ++
          (launch_data_fds_array xs).map (fun n => Effect.kevent n .READ EV_ADD 0 c) }
  | [], s => by simp [job_watch_fds_array, launch_data_fds_array, log_append_nil]
  | v :: rest, s => by
    rw [job_watch_fds_array, job_watch_fds_eq or c v s, job_watch_fds_array_eq or c rest]
    simp [launch_data_fds_array, List.append_assoc]
end

mutual
theorem job_ignore_fds_eq (or : Oracle) (c : Udata) : ∀ (o : launch_data) (s : State),
    job_ignore_fds or o c s =
      { s with log := s.log ++
          (launch_data_fds o).map (fun n => Effect.kevent n .READ EV_DELETE 0 c) }
  | .dictionary kv, s => by
    rw [job_ignore_fds, launch_data_fds]; exact job_ignore_fds_dict_eq or c kv s
  | .array xs, s => by
    rw [job_ignore_fds, launch_data_fds]; exact job_ignore_fds_array_eq or c xs s
  | .fd n, s => by
    simp [job_ignore_fds, launch_data_fds, kevent_mod_read, emit]
  | .integer _, s | .bool _, s | .string _, s | .opaq _, s => by
    simp [job_ignore_fds, launch_data_fds, log_append_nil]
theorem job_ignore_fds_dict_eq (or : Oracle) (c : Udata) :
    ∀ (kv : List (String × launch_data)) (s : State),
    job_ignore_fds_dict or kv c s =
      { s with log := s.log ++
          (launch_data_fds_dict kv).map (fun n => Effect.kevent n .READ EV_DELETE 0 c) }
  | [], s => by simp [job_ignore_fds_dict, launch_data_fds_dict, log_append_nil]
  | (_, v) :: rest, s => by
    rw [job_ignore_fds_dict, job_ignore_fds_eq or c v s, job_ignore_fds_dict_eq or c rest]
    simp [launch_data_fds_dict, List.append_assoc]
theorem job_ignore_fds_array_eq (or : Oracle) (c : Udata) :
    ∀ (xs : List launch_data) (s : State),
    job_ignore_fds_array or xs c s =
      { s with log := s.log ++
          (launch_data_fds_array xs).map (fun n => Effect.kevent n .READ EV_DELETE 0 c) }
  | [], s => by simp [job_ignore_fds_array, launch_data_fds_array, log_append_nil]
  | v :: rest, s => by
    rw [job_ignore_fds_array, job_ignore_fds_eq or c v s, job_ignore_fds_array_eq or c rest]
    simp [launch_data_fds_array, List.append_assoc]
end

end Basic

section Frame

@[simp] theorem jobkeys_emit (e : Effect) (s : State) : jobkeys (emit e s) = jobkeys s := rfl

theorem _fd_snd (fd : Int) (s : State) :
    (_fd fd s).2 = if fd ≥ 0 then emit (.fcntl fd) s else s := by
  unfold _fd; split <;> rfl

@[simp] theorem _fd_fst (fd : Int) (s : State) : (_fd fd s).1 = fd := by
  unfold _fd; split <;> rfl

@[simp] theorem _fd_jobs (fd : Int) (s : State) : (_fd fd s).2.jobs = s.jobs := by
  rw [_fd_snd]; split <;> rfl
@[simp] theorem _fd_connections (fd : Int) (s : State) :
    (_fd fd s).2.connections = s.connections := by
  rw [_fd_snd]; split <;> rfl
@[simp] theorem _fd_helperd (fd : Int) (s : State) : (_fd fd s).2.helperd = s.helperd := by
  rw [_fd_snd]; split <;> rfl
@[simp] theorem _fd_batch_enabled (fd : Int) (s : State) :
    (_fd fd s).2.batch_enabled = s.batch_enabled := by
  rw [_fd_snd]; split <;> rfl
@[simp] theorem _fd_next_addr (fd : Int) (s : State) :
    (_fd fd s).2.next_addr = s.next_addr := by
  rw [_fd_snd]; split <;> rfl

@[simp] theorem machcb_init_jobs (o : Oracle) (s : State) : (machcb_init o s).jobs = s.jobs := by
  unfold machcb_init; split
  · rfl
  · simp only []; split_ifs <;> simp
@[simp] theorem machcb_init_connections (o : Oracle) (s : State) :
    (machcb_init o s).connections = s.connections := by
  unfold machcb_init; split
  · rfl
  · simp only []; split_ifs <;> simp
@[simp] theorem machcb_init_helperd (o : Oracle) (s : State) :
    (machcb_init o s).helperd = s.helperd := by
  unfold machcb_init; split
  · rfl
  · simp only []; split_ifs <;> simp
@[simp] theorem machcb_init_batch_enabled (o : Oracle) (s : State) :
    (machcb_init o s).batch_enabled = s.batch_enabled := by
  unfold machcb_init; split
  · rfl
  · simp only []; split_ifs <;> simp
@[simp] theorem machcb_init_next_addr (o : Oracle) (s : State) :
    (machcb_init o s).next_addr = s.next_addr := by
  unfold machcb_init; split
  · rfl
  · simp only []; split_ifs <;> simp

@[simp] theorem kevent_mod_jobs (or : Oracle) (ident : Int) (f : Filter) (fl ffl : Nat) (u : Udata)
    (s : State) : (kevent_mod or ident f fl ffl u s).2.jobs = s.jobs := by
  simp only [kevent_mod, kevent_mod_mach, machcb_store]
  split_ifs <;> simp
@[simp] theorem kevent_mod_connections (or : Oracle) (ident : Int) (f : Filter) (fl ffl : Nat)
    (u : Udata) (s : State) :
    (kevent_mod or ident f fl ffl u s).2.connections = s.connections := by
  simp only [kevent_mod, kevent_mod_mach, machcb_store]
  split_ifs <;> simp
@[simp] theorem kevent_mod_helperd (or : Oracle) (ident : Int) (f : Filter) (fl ffl : Nat)
    (u : Udata) (s : State) : (kevent_mod or ident f fl ffl u s).2.helperd = s.helperd := by
  simp only [kevent_mod, kevent_mod_mach, machcb_store]
  split_ifs <;> simp
@[simp] theorem kevent_mod_batch_enabled (or : Oracle) (ident : Int) (f : Filter) (fl ffl : Nat)
    (u : Udata) (s : State) :
    (kevent_mod or ident f fl ffl u s).2.batch_enabled = s.batch_enabled := by
  simp only [kevent_mod, kevent_mod_mach, machcb_store]
  split_ifs <;> simp
@[simp] theorem kevent_mod_next_addr (or : Oracle) (ident : Int) (f : Filter) (fl ffl : Nat)
    (u : Udata) (s : State) : (kevent_mod or ident f fl ffl u s).2.next_addr = s.next_addr := by
  simp only [kevent_mod, kevent_mod_mach, machcb_store]
  split_ifs <;> simp

end Frame

section Jobs

theorem any_label_iff (jobs : List jobcb) (l : String) :
    jobs.any (fun j => streq (job_get_string j.ldj LAUNCH_JOBKEY_LABEL) l) = true
      ↔ ∃ j ∈ jobs, job_label j = some l := by
  simp only [List.any_eq_true, job_label]
  constructor
  · rintro ⟨j, hj, h⟩
    refine ⟨j, hj, ?_⟩
    cases hl : job_get_string j.ldj LAUNCH_JOBKEY_LABEL with
    | none => simp [streq, hl] at h
    | some x => simp [streq, hl] at h; simp [h]
  · rintro ⟨j, hj, h⟩
    exact ⟨j, hj, by simp [streq, h]⟩

theorem job_reap_fst (or : Oracle) (j : jobcb) (s : State) :
    (job_reap or j s).1 =
      { j with failed_exits := if bad_exit or.status then j.failed_exits + 1 else 0,
               c := none, p := 0, checkedin := false } := by
  simp only [job_reap]; split <;> simp_all

theorem job_reap_snd (or : Oracle) (j : jobcb) (s : State) :
    (job_reap or j s).2 =
      set_job (job_reap or j s).1
        (if s.PID1_REAP_ADOPTED_CHILDREN && s.pid = 1 then s else emit (.waitpid j.p) s) := by
  simp only [job_reap]

theorem bad_exit_iff (status : Int) :
    bad_exit status = true ↔
      (WIFEXITED status = true ∧ WEXITSTATUS status ≠ 0) ∨
      (WIFSIGNALED status = true ∧ WTERMSIG status ≠ SIGKILL ∧ WTERMSIG status ≠ SIGTERM) := by
  simp [bad_exit]

end Jobs

section Order

theorem Le.le_refl (s : State) : Le s s := ⟨List.Sublist.refl _, Nat.le_refl _⟩

theorem Le.le_trans {s t u : State} (h1 : Le s t) (h2 : Le t u) : Le s u :=
  ⟨h2.1.trans h1.1, Nat.le_trans h1.2 h2.2⟩

theorem Le_of_jobs_eq {s t : State} (h : t.jobs = s.jobs) (hn : s.next_addr ≤ t.next_addr) :
    Le s t := by
  refine ⟨?_, hn⟩
  simp [jobkeys, h]

theorem Le_of_jobkeys_eq {s t : State} (h : jobkeys t = jobkeys s)
    (hn : s.next_addr ≤ t.next_addr) : Le s t := by
  refine ⟨?_, hn⟩
  rw [h]

theorem mem_jobkeys_of_mem {s : State} {j : jobcb} (h : j ∈ s.jobs) :
    (j.addr, j.ldj) ∈ jobkeys s := by
  simp only [jobkeys, List.mem_map]
  exact ⟨j, h, rfl⟩

theorem addrs_eq_jobkeys (s : State) :
    s.jobs.map (fun j => j.addr) = (jobkeys s).map Prod.fst := by
  simp [jobkeys, Function.comp_def]

theorem labels_eq_jobkeys (s : State) :
    labels s = (jobkeys s).map (fun k => job_get_string k.2 LAUNCH_JOBKEY_LABEL) := by
  simp [jobkeys, labels, job_label, Function.comp_def]

theorem Inv_of_Le {s t : State} (h : Le s t) (hi : Inv s) : Inv t := by
  refine ⟨?_, ?_, ?_, ?_⟩
  · intro j hj
    have hk := h.1.subset (mem_jobkeys_of_mem hj)
    simp only [jobkeys, List.mem_map] at hk
    obtain ⟨x, hx, hxk⟩ := hk
    have := hi.fresh x hx
    have hxa : x.addr = j.addr := congrArg Prod.fst hxk
    have := h.2
    omega
  · rw [addrs_eq_jobkeys]
    have := hi.addr_nodup
    rw [addrs_eq_jobkeys] at this
    exact this.sublist (h.1.map _)
  · rw [labels_eq_jobkeys]
    have := hi.labels_nodup
    rw [labels_eq_jobkeys] at this
    exact this.sublist (h.1.map _)
  · intro j hj
    have hk := h.1.subset (mem_jobkeys_of_mem hj)
    simp only [jobkeys, List.mem_map] at hk
    obtain ⟨x, hx, hxk⟩ := hk
    have hxl : x.ldj = j.ldj := congrArg Prod.snd hxk
    have := hi.has_label x hx
    simpa [job_label, hxl] using this

theorem Compat_iff (j : jobcb) (s : State) :
    Compat j s ↔ ∀ k ∈ jobkeys s, k.1 = j.addr → k.2 = j.ldj := by
  simp only [Compat, jobkeys, List.mem_map]
  constructor
  · rintro h k ⟨x, hx, rfl⟩ hk
    exact h x hx hk
  · intro h x hx hk
    exact h (x.addr, x.ldj) ⟨x, hx, rfl⟩ hk

theorem Compat_of_Le {j : jobcb} {s t : State} (hc : Compat j s) (h : Le s t) : Compat j t := by
  rw [Compat_iff] at *
  intro k hk
  exact hc k (h.1.subset hk)

theorem Compat_congr {j j' : jobcb} {s : State} (hc : Compat j s) (ha : j'.addr = j.addr)
    (hl : j'.ldj = j.ldj) : Compat j' s := by
  intro x hx hxa
  rw [hl]; exact hc x hx (hxa.trans ha)

theorem jobkeys_set_job {j : jobcb} {s : State} (hc : Compat j s) :
    jobkeys (set_job j s) = jobkeys s := by
  simp only [jobkeys, set_job, List.map_map]
  apply List.map_congr_left
  intro x hx
  simp only [Function.comp]
  split
  · next h => rw [hc x hx h, h]
  · rfl

@[simp] theorem set_job_next_addr (j : jobcb) (s : State) :
    (set_job j s).next_addr = s.next_addr := rfl
@[simp] theorem set_job_connections (j : jobcb) (s : State) :
    (set_job j s).connections = s.connections := rfl
@[simp] theorem set_job_helperd (j : jobcb) (s : State) :
    (set_job j s).helperd = s.helperd := rfl
@[simp] theorem set_job_batch_enabled (j : jobcb) (s : State) :
    (set_job j s).batch_enabled = s.batch_enabled := rfl
@[simp] theorem set_job_log (j : jobcb) (s : State) : (set_job j s).log = s.log := rfl

theorem Le_set_job {j : jobcb} {s : State} (hc : Compat j s) : Le s (set_job j s) :=
  Le_of_jobkeys_eq (jobkeys_set_job hc) (Nat.le_refl _)

theorem Le_emit (e : Effect) (s : State) : Le s (emit e s) :=
  Le_of_jobs_eq rfl (Nat.le_refl _)

theorem Le_kevent_mod (or : Oracle) (ident : Int) (f : Filter) (fl ffl : Nat) (u : Udata)
    (s : State) : Le s (kevent_mod or ident f fl ffl u s).2 :=
  Le_of_jobs_eq (by simp) (by simp)

theorem Le_fd (fd : Int) (s : State) : Le s (_fd fd s).2 :=
  Le_of_jobs_eq (by simp) (by simp)

theorem Le_close_fds (o : launch_data) (s : State) : Le s (launch_data_close_fds o s) := by
  rw [launch_data_close_fds_eq]; exact Le_of_jobs_eq rfl (Nat.le_refl _)

theorem Le_watch_fds (or : Oracle) (o : launch_data) (c : Udata) (s : State) :
    Le s (job_watch_fds or o c s) := by
  rw [job_watch_fds_eq]; exact Le_of_jobs_eq rfl (Nat.le_refl _)

theorem Le_ignore_fds (or : Oracle) (o : launch_data) (c : Udata) (s : State) :
    Le s (job_ignore_fds or o c s) := by
  rw [job_ignore_fds_eq]; exact Le_of_jobs_eq rfl (Nat.le_refl _)

theorem Le_job_stop (j : jobcb) (s : State) : Le s (job_stop j s) := by
  unfold job_stop; split
  · exact Le_emit _ _
  · exact Le.le_refl _

theorem job_reap_addr (or : Oracle) (j : jobcb) (s : State) :
    (job_reap or j s).1.addr = j.addr := by rw [job_reap_fst]
theorem job_reap_ldj (or : Oracle) (j : jobcb) (s : State) :
    (job_reap or j s).1.ldj = j.ldj := by rw [job_reap_fst]

theorem Le_job_reap (or : Oracle) {j : jobcb} {s : State} (hc : Compat j s) :
    Le s (job_reap or j s).2 := by
  rw [job_reap_snd]
  have hc' : Compat (job_reap or j s).1 s :=
    Compat_congr hc (job_reap_addr or j s) (job_reap_ldj or j s)
  split
  · exact Le_set_job hc'
  · exact (Le_emit _ s).le_trans (Le_set_job (Compat_of_Le hc' (Le_emit _ s)))

theorem Le_filter (j : jobcb) (s : State) :
    Le s { s with jobs := s.jobs.filter (fun x => !(x.addr == j.addr)) } := by
  refine ⟨?_, Nat.le_refl _⟩
  simp only [jobkeys]
  exact (List.filter_sublist _).map _

theorem Le_job_remove (or : Oracle) {j : jobcb} {s : State} (hc : Compat j s) :
    Le s (job_remove or j s) := by
  unfold job_remove
  simp only []
  refine Le.le_trans ?_ (Le_close_fds _ _)
  refine (Le_filter j s).le_trans ?_
  have hc1 := Compat_of_Le hc (Le_filter j s)
  split
  · split
    · exact (Le_kevent_mod _ _ _ _ _ _ _).le_trans
        (Le_job_reap or (Compat_of_Le hc1 (Le_kevent_mod _ _ _ _ _ _ _)))
    · exact (Le_kevent_mod _ _ _ _ _ _ _).le_trans (Le_job_stop _ _)
  · exact Le.le_refl _

theorem ipc_open_fst (or : Oracle) (fd : Int) (j : Option jobcb) (s : State) :
    (ipc_open or fd j s).1 = j.map (fun x => { x with c := some s.next_addr }) := by
  simp [ipc_open]

theorem Le_ipc_open (or : Oracle) (fd : Int) (j : Option jobcb) (s : State)
    (hc : ∀ x, j = some x → Compat x s) : Le s (ipc_open or fd j s).2 := by
  unfold ipc_open
  simp only []
  refine Le.le_trans ?_ (Le_kevent_mod _ _ _ _ _ _ _)
  cases j with
  | none => exact Le_of_jobs_eq rfl (by simp)
  | some x =>
    have h1 : Le s (emit (Effect.fcntl fd) { s with next_addr := s.next_addr + 1 }) :=
      Le_of_jobs_eq rfl (by simp)
    have hc' : Compat { x with c := some s.next_addr }
        (emit (Effect.fcntl fd) { s with next_addr := s.next_addr + 1 }) :=
      Compat_congr (Compat_of_Le (hc x rfl) h1) rfl rfl
    have h2 := Le_set_job hc'
    refine Le.le_trans (h1.le_trans h2) ?_
    exact Le_of_jobs_eq rfl (Nat.le_refl _)

theorem Le_job_start (or : Oracle) {j : jobcb} {s : State} (hc : Compat j s) :
    Le s (job_start or j s) := by
  unfold job_start
  simp only []
  split
  · exact Le.le_refl _
  · -- the socket pair
    generalize hs1 : (if job_get_bool j.ldj LAUNCH_JOBKEY_SERVICEIPC = true then
        emit (Effect.socketpair or.spair) s else s) = s1
    have h1 : Le s s1 := by
      rw [← hs1]; split
      · exact Le_emit _ _
      · exact Le.le_refl _
    generalize hj1 : (if (timersub or.now j.start_time).tv_sec ≥ LAUNCHD_MIN_JOB_RUN_TIME then
        ({ j with start_time := or.now, failed_exits := 0 } : jobcb)
        else { j with start_time := or.now }) = j1
    have hj1a : j1.addr = j.addr := by rw [← hj1]; split <;> rfl
    have hj1l : j1.ldj = j.ldj := by rw [← hj1]; split <;> rfl
    have hc1 : Compat j1 s1 := Compat_congr (Compat_of_Le hc h1) hj1a hj1l
    have h2 : Le s (set_job j1 s1) := h1.le_trans (Le_set_job hc1)
    have hc2 : Compat j1 (set_job j1 s1) := Compat_of_Le hc1 (Le_set_job hc1)
    split
    · split
      · exact h2.le_trans ((Le_emit _ _).le_trans ((Le_emit _ _).le_trans (Le_emit _ _)))
      · exact h2.le_trans (Le_emit _ _)
    · split
      · exact h2.le_trans (Le_of_jobs_eq rfl (Nat.le_refl _))
      · refine h2.le_trans ?_
        generalize hs3 : emit (Effect.fork or.fork_result (child_steps or j1
          (job_get_bool j.ldj LAUNCH_JOBKEY_SERVICEIPC) (timersub or.now j.start_time)))
          (set_job j1 s1) = s3
        have h3 : Le (set_job j1 s1) s3 := by rw [← hs3]; exact Le_emit _ _
        have hc3 : Compat j1 s3 := Compat_of_Le hc2 h3
        refine h3.le_trans ?_
        generalize ho : (if job_get_bool j.ldj LAUNCH_JOBKEY_SERVICEIPC = true then
            ipc_open or (_fd or.spair.1 (emit (Effect.close or.spair.2) s3)).1 (some j1)
              (_fd or.spair.1 (emit (Effect.close or.spair.2) s3)).2
            else (some j1, s3)) = o
        have h4 : Le s3 o.2 := by
          rw [← ho]; split
          · refine ((Le_emit _ _).le_trans (Le_fd _ _)).le_trans (Le_ipc_open _ _ _ _ ?_)
            intro x hx
            cases hx
            exact Compat_of_Le hc3 ((Le_emit _ _).le_trans (Le_fd _ _))
          · exact Le.le_refl _
        have hoa : (o.1.getD j1).addr = j.addr := by
          rw [← ho]; split
          · simp [ipc_open_fst, hj1a]
          · simpa using hj1a
        have hol : (o.1.getD j1).ldj = j.ldj := by
          rw [← ho]; split
          · simp [ipc_open_fst, hj1l]
          · simpa using hj1l
        have hc4 : Compat (o.1.getD j1) o.2 :=
          Compat_congr (Compat_of_Le hc3 h4) (hoa.trans hj1a.symm) (hol.trans hj1l.symm)
        refine h4.le_trans ?_
        split
        · exact Le_kevent_mod _ _ _ _ _ _ _
        · have hk := Le_kevent_mod or or.fork_result Filter.PROC EV_ADD
            NOTE_EXIT (Udata.job (o.1.getD j1).addr) o.2
          refine hk.le_trans ?_
          have hc5 := Compat_of_Le hc4 hk
          have hc6 : Compat { o.1.getD j1 with p := or.fork_result }
              (kevent_mod or or.fork_result Filter.PROC EV_ADD NOTE_EXIT
                (Udata.job (o.1.getD j1).addr) o.2).2 := Compat_congr hc5 rfl rfl
          split
          · exact (Le_set_job hc6).le_trans (Le_ignore_fds _ _ _ _)
          · exact Le_set_job hc6

end Order

section Table

theorem find_job_some {s : State} {a : Nat} {j : jobcb} (h : find_job s a = some j) :
    j ∈ s.jobs ∧ j.addr = a := by
  unfold find_job at h
  exact ⟨List.mem_of_find?_eq_some h, by simpa using List.find?_some h⟩

theorem eq_of_addr_eq {s : State} (hi : Inv s) {x y : jobcb} (hx : x ∈ s.jobs)
    (hy : y ∈ s.jobs) (h : x.addr = y.addr) : x = y :=
  List.inj_on_of_nodup_map hi.addr_nodup hx hy h

theorem Compat_of_mem {s : State} (hi : Inv s) {j : jobcb} (hj : j ∈ s.jobs) : Compat j s := by
  intro x hx hxa
  rw [eq_of_addr_eq hi hx hj hxa]

theorem Le_notify_helperd (s : State) : Le s (notify_helperd s) := by
  unfold notify_helperd
  split
  · exact Le.le_refl _
  · split
    · split
      · exact Le_emit _ _
      · exact Le.le_refl _
    · exact Le_of_jobs_eq rfl (Nat.le_refl _)

theorem Le_batch_job_enable (e : Bool) (s : State) : Le s (batch_job_enable e s) := by
  unfold batch_job_enable
  simp only []
  repeat' split
  all_goals first
    | exact Le_of_jobs_eq rfl (Nat.le_refl _)

theorem Le_ipc_close (c : conncb) (s : State) : Le s (ipc_close c s) := by
  unfold ipc_close
  simp only []
  exact (Le_batch_job_enable true s).le_trans (Le_of_jobs_eq rfl (Nat.le_refl _))

theorem Le_job_callback (or : Oracle) (a : Nat) (f : Filter) {s : State} (hi : Inv s) :
    Le s (job_callback or a f s) := by
  unfold job_callback
  split
  · exact Le_of_jobs_eq rfl (Nat.le_refl _)
  · next j hj =>
    have hc := Compat_of_mem hi (find_job_some hj).1
    simp only []
    have hr := Le_job_reap or hc
    have hcr : Compat (job_reap or j s).1 (job_reap or j s).2 :=
      Compat_congr (Compat_of_Le hc hr) (job_reap_addr _ _ _) (job_reap_ldj _ _ _)
    repeat' split
    · exact Le_job_remove or hc
    · exact hr.le_trans (Le_job_remove or hcr)
    · exact hr.le_trans (Le_watch_fds _ _ _ _)
    · exact hr
    · exact hr.le_trans (Le_job_start or hcr)
    · exact Le_job_start or hc

theorem dict_find_set_ne (k k' : String) (v : launch_data) (kv : List (String × launch_data))
    (h : k' ≠ k) : dict_find k' (dict_set k v kv) = dict_find k' kv := by
  induction kv with
  | nil => simp [dict_set, dict_find, Ne.symm h]
  | cons p rest ih =>
    obtain ⟨k0, v0⟩ := p
    by_cases h0 : k0 = k
    · subst h0
      simp [dict_set, dict_find, Ne.symm h]
    · by_cases h1 : k0 = k'
      · subst h1
        simp [dict_set, dict_find, h0]
      · simp [dict_set, dict_find, h0, h1, ih]

theorem dict_find_set_self (k : String) (v : launch_data) (kv : List (String × launch_data)) :
    dict_find k (dict_set k v kv) = some v := by
  induction kv with
  | nil => simp [dict_set, dict_find]
  | cons p rest ih =>
    obtain ⟨k0, v0⟩ := p
    by_cases h0 : k0 = k
    · simp [dict_set, dict_find, h0]
    · simp [dict_set, dict_find, h0, ih]

theorem lookup_insert_ne (d v : launch_data) (k k' : String) (h : k' ≠ k) :
    launch_data_dict_lookup (launch_data_dict_insert d v k) k' = launch_data_dict_lookup d k' := by
  cases d <;> simp [launch_data_dict_insert, launch_data_dict_lookup, dict_find_set_ne _ _ _ _ h]

theorem lookup_insert_self (kv : List (String × launch_data)) (v : launch_data) (k : String) :
    launch_data_dict_lookup (launch_data_dict_insert (.dictionary kv) v k) k = some v := by
  simp [launch_data_dict_insert, launch_data_dict_lookup, dict_find_set_self]

end Table

section Start

theorem set_job_jobs (j : jobcb) (s : State) :
    (set_job j s).jobs = s.jobs.map (fun x => if x.addr = j.addr then j else x) := rfl

theorem set_job_set_job {j1 j2 : jobcb} (s : State) (h : j1.addr = j2.addr) :
    (set_job j2 (set_job j1 s)).jobs = (set_job j2 s).jobs := by
  simp only [set_job_jobs, List.map_map]
  apply List.map_congr_left
  intro x _
  simp only [Function.comp]
  by_cases hx : x.addr = j1.addr
  · simp [hx, h]
  · simp [hx]

/-- Writing a record through its pointer changes the table like writing it on any state
with the same table. -/
theorem set_job_jobs_congr (j : jobcb) {s t : State} (h : t.jobs = s.jobs) :
    (set_job j t).jobs = (set_job j s).jobs := by
  simp only [set_job_jobs, h]

@[simp] theorem job_watch_fds_jobs (or : Oracle) (o : launch_data) (c : Udata) (s : State) :
    (job_watch_fds or o c s).jobs = s.jobs := by rw [job_watch_fds_eq]
@[simp] theorem job_ignore_fds_jobs (or : Oracle) (o : launch_data) (c : Udata) (s : State) :
    (job_ignore_fds or o c s).jobs = s.jobs := by rw [job_ignore_fds_eq]
@[simp] theorem launch_data_close_fds_jobs (o : launch_data) (s : State) :
    (launch_data_close_fds o s).jobs = s.jobs := by rw [launch_data_close_fds_eq]

theorem ipc_open_jobs_some (or : Oracle) (fd : Int) (x : jobcb) (s : State) :
    (ipc_open or fd (some x) s).2.jobs = (set_job { x with c := some s.next_addr } s).jobs := by
  simp [ipc_open, set_job_jobs]

theorem ipc_open_jobs_none (or : Oracle) (fd : Int) (s : State) :
    (ipc_open or fd none s).2.jobs = s.jobs := by
  simp [ipc_open]

theorem kevent_mod_fst_ne (or : Oracle) (ident : Int) (f : Filter) (fl ffl : Nat) (u : Udata)
    (s : State) (hf : f ≠ .MACHPORT) (hk : or.kevent_result ≠ -1) :
    (kevent_mod or ident f fl ffl u s).1 ≠ -1 := by
  rw [kevent_mod_not_mach _ _ _ _ _ _ _ hf]
  split
  · show (0 : Int) ≠ -1
    decide
  · exact hk

/-- The record `job_start` leaves at the address of `j` when it creates a child and
registers the exit of the child: the start time is the clock, the failure count is
cleared after a gap of the minimum run time, the back-pointer is the new connection when
the job uses service IPC, the process id is the child. -/
theorem job_start_ok (or : Oracle) (j : jobcb) (s : State) (hp : j.p = 0)
    (hf1 : or.fork_result ≠ -1) (hf0 : or.fork_result ≠ 0) (hk : or.kevent_result ≠ -1) :
    (job_start or j s).jobs =
      (set_job
        { j with
          start_time := or.now,
          failed_exits :=
            if (timersub or.now j.start_time).tv_sec ≥ LAUNCHD_MIN_JOB_RUN_TIME then 0
            else j.failed_exits,
          c := if job_get_bool j.ldj LAUNCH_JOBKEY_SERVICEIPC then some s.next_addr else j.c,
          p := or.fork_result } s).jobs := by
  unfold job_start
  simp only [hp, ne_eq, not_true_eq_false, if_false, hf1, hf0]
  have hk' : ∀ ident u t, ¬ (kevent_mod or ident Filter.PROC EV_ADD NOTE_EXIT u t).1 = -1 :=
    fun ident u t => kevent_mod_fst_ne or ident _ _ _ u t (by decide) hk
  simp only [hk', if_false]
  by_cases hs : job_get_bool j.ldj LAUNCH_JOBKEY_SERVICEIPC = true
  · by_cases ht : (timersub or.now j.start_time).tv_sec ≥ LAUNCHD_MIN_JOB_RUN_TIME
    · by_cases ho : job_get_bool j.ldj LAUNCH_JOBKEY_ONDEMAND = true <;>
      simp [hs, ht, ho, ipc_open, set_job_jobs, Function.comp_def] <;>
      (intro x _; by_cases hx : x.addr = j.addr <;> simp [hx])
    · by_cases ho : job_get_bool j.ldj LAUNCH_JOBKEY_ONDEMAND = true <;>
      simp [hs, ht, ho, ipc_open, set_job_jobs, Function.comp_def] <;>
      (intro x _; by_cases hx : x.addr = j.addr <;> simp [hx])
  · by_cases ht : (timersub or.now j.start_time).tv_sec ≥ LAUNCHD_MIN_JOB_RUN_TIME
    · by_cases ho : job_get_bool j.ldj LAUNCH_JOBKEY_ONDEMAND = true <;>
      simp [hs, ht, ho, ipc_open, set_job_jobs, Function.comp_def] <;>
      (intro x _; by_cases hx : x.addr = j.addr <;> simp [hx])
    · by_cases ho : job_get_bool j.ldj LAUNCH_JOBKEY_ONDEMAND = true <;>
      simp [hs, ht, ho, ipc_open, set_job_jobs, Function.comp_def] <;>
      (intro x _; by_cases hx : x.addr = j.addr <;> simp [hx])

end Start

section TouchSec

theorem Touch.touch_refl (a : Nat) (l : launch_data) (s : State) : Touch a l s s := Or.inl rfl

theorem Touch.touch_of_jobs_eq {a : Nat} {l : launch_data} {s t u : State} (h : Touch a l s t)
    (hu : u.jobs = t.jobs) : Touch a l s u := by
  rcases h with h | ⟨j, ha, hl, h⟩
  · exact Or.inl (hu.trans h)
  · exact Or.inr ⟨j, ha, hl, hu.trans h⟩

theorem Touch.touch_set_job {a : Nat} {l : launch_data} {s t : State} (h : Touch a l s t)
    (j : jobcb) (ha : j.addr = a) (hl : j.ldj = l) : Touch a l s (set_job j t) := by
  rcases h with h | ⟨j0, ha0, _, h⟩
  · exact Or.inr ⟨j, ha, hl, set_job_jobs_congr j h⟩
  · refine Or.inr ⟨j, ha, hl, ?_⟩
    rw [set_job_jobs_congr j h]
    exact set_job_set_job s (ha0.trans ha.symm)

theorem Touch_ipc_open {a : Nat} {l : launch_data} {s t : State} (h : Touch a l s t)
    (or : Oracle) (fd : Int) (j : jobcb) (ha : j.addr = a) (hl : j.ldj = l) :
    Touch a l s (ipc_open or fd (some j) t).2 := by
  have h2 := h.touch_set_job { j with c := some t.next_addr } ha hl
  exact h2.touch_of_jobs_eq (ipc_open_jobs_some or fd j t)

theorem Touch_job_start (or : Oracle) (j : jobcb) (s : State) :
    Touch j.addr j.ldj s (job_start or j s) := by
  unfold job_start
  simp only []
  split
  · exact Touch.touch_refl _ _ _
  · generalize hs1 : (if job_get_bool j.ldj LAUNCH_JOBKEY_SERVICEIPC = true then
        emit (Effect.socketpair or.spair) s else s) = s1
    have h1 : Touch j.addr j.ldj s s1 := by
      rw [← hs1]; split
      · exact (Touch.touch_refl _ _ _).touch_of_jobs_eq rfl
      · exact Touch.touch_refl _ _ _
    generalize hj1 : (if (timersub or.now j.start_time).tv_sec ≥ LAUNCHD_MIN_JOB_RUN_TIME then
        ({ j with start_time := or.now, failed_exits := 0 } : jobcb)
        else { j with start_time := or.now }) = j1
    have hj1a : j1.addr = j.addr := by rw [← hj1]; split <;> rfl
    have hj1l : j1.ldj = j.ldj := by rw [← hj1]; split <;> rfl
    have h2 : Touch j.addr j.ldj s (set_job j1 s1) := h1.touch_set_job j1 hj1a hj1l
    split
    · split
      · exact h2.touch_of_jobs_eq rfl
      · exact h2.touch_of_jobs_eq rfl
    · split
      · exact h2.touch_of_jobs_eq rfl
      · generalize hs3 : emit (Effect.fork or.fork_result (child_steps or j1
          (job_get_bool j.ldj LAUNCH_JOBKEY_SERVICEIPC) (timersub or.now j.start_time)))
          (set_job j1 s1) = s3
        have h3 : Touch j.addr j.ldj s s3 := by rw [← hs3]; exact h2.touch_of_jobs_eq rfl
        generalize ho : (if job_get_bool j.ldj LAUNCH_JOBKEY_SERVICEIPC = true then
            ipc_open or (_fd or.spair.1 (emit (Effect.close or.spair.2) s3)).1 (some j1)
              (_fd or.spair.1 (emit (Effect.close or.spair.2) s3)).2
            else (some j1, s3)) = o
        have h4 : Touch j.addr j.ldj s o.2 := by
          rw [← ho]; split
          · exact Touch_ipc_open (h3.touch_of_jobs_eq (by simp)) _ _ _ hj1a hj1l
          · exact h3
        have hoa : (o.1.getD j1).addr = j.addr := by
          rw [← ho]; split
          · simp [ipc_open_fst, hj1a]
          · simpa using hj1a
        have hol : (o.1.getD j1).ldj = j.ldj := by
          rw [← ho]; split
          · simp [ipc_open_fst, hj1l]
          · simpa using hj1l
        split
        · exact h4.touch_of_jobs_eq (by simp)
        · have h5 : Touch j.addr j.ldj s (kevent_mod or or.fork_result Filter.PROC EV_ADD
              NOTE_EXIT (Udata.job (o.1.getD j1).addr) o.2).2 := h4.touch_of_jobs_eq (by simp)
          have h6 := h5.touch_set_job { o.1.getD j1 with p := or.fork_result } hoa hol
          split
          · exact h6.touch_of_jobs_eq (by simp)
          · exact h6

/-- A record appended to a table whose records lie below its address is the only one a
write through its pointer reaches. -/
theorem set_job_append_fresh (s : State) (jn j : jobcb) (n : Nat)
    (hf : ∀ x ∈ s.jobs, x.addr < jn.addr) (ha : j.addr = jn.addr) :
    (set_job j { s with next_addr := n, jobs := s.jobs ++ [jn] }).jobs = s.jobs ++ [j] := by
  simp only [set_job_jobs, List.map_append, List.map_cons, List.map_nil, ha, if_true]
  congr 1
  conv_rhs => rw [← List.map_id s.jobs]
  apply List.map_congr_left
  intro x hx
  have := hf x hx
  have hne : x.addr ≠ jn.addr := by omega
  simp [hne]

theorem with_defaults_label (d : launch_data) :
    launch_data_dict_lookup (with_defaults d) LAUNCH_JOBKEY_LABEL
      = launch_data_dict_lookup d LAUNCH_JOBKEY_LABEL := by
  unfold with_defaults
  simp only []
  split <;> split <;>
    simp [lookup_insert_ne _ _ _ _ (show LAUNCH_JOBKEY_LABEL ≠ LAUNCH_JOBKEY_ONDEMAND by decide),
      lookup_insert_ne _ _ _ _ (show LAUNCH_JOBKEY_LABEL ≠ LAUNCH_JOBKEY_SERVICEIPC by decide)]

/-- What `load_job` does with a descriptor it accepts. -/
theorem load_job_of_accepts (or : Oracle) (d label : launch_data) (s : State)
    (hl : launch_data_dict_lookup d LAUNCH_JOBKEY_LABEL = some label)
    (hn : ¬ ∃ j ∈ s.jobs, job_label j = some (launch_data_get_string label))
    (hpa : launch_data_dict_lookup d LAUNCH_JOBKEY_PROGRAMARGUMENTS ≠ none) :
    load_job or d s =
      (.string LAUNCH_RESPONSE_SUCCESS, launch_data_revoke_fds d,
        notify_helperd
          (if launch_data_get_string label == HELPERD then
            { launched or s d with helperd := some s.next_addr }
           else launched or s d)) := by
  have h1 : s.jobs.any (fun j => streq (job_get_string j.ldj LAUNCH_JOBKEY_LABEL)
      (launch_data_get_string label)) = false := by
    rw [Bool.eq_false_iff]; intro hc; exact hn ((any_label_iff _ _).1 hc)
  have h2 : (launch_data_dict_lookup d LAUNCH_JOBKEY_PROGRAMARGUMENTS).isNone = false := by
    cases h : launch_data_dict_lookup d LAUNCH_JOBKEY_PROGRAMARGUMENTS with
    | none => exact absurd h hpa
    | some _ => rfl
  simp only [load_job, hl, h1, h2, with_defaults, launch_data_copy, launched, linked, new_job]
  by_cases ho : (launch_data_dict_lookup d LAUNCH_JOBKEY_ONDEMAND).isNone = true
  · by_cases hs : (launch_data_dict_lookup (launch_data_dict_insert d (.bool true)
        LAUNCH_JOBKEY_ONDEMAND) LAUNCH_JOBKEY_SERVICEIPC).isNone = true
    · simp [ho, hs]
    · simp [ho, hs]
  · by_cases hs : (launch_data_dict_lookup d LAUNCH_JOBKEY_SERVICEIPC).isNone = true
    · simp [ho, hs]
    · simp [ho, hs]

end TouchSec

section Load

theorem Inv_linked {s : State} (hi : Inv s) (d label : launch_data)
    (hl : launch_data_dict_lookup d LAUNCH_JOBKEY_LABEL = some label)
    (hn : ¬ ∃ j ∈ s.jobs, job_label j = some (launch_data_get_string label)) :
    Inv (linked s d) := by
  have hlab : job_label (new_job s d) = some (launch_data_get_string label) := by
    simp [job_label, job_get_string, new_job, with_defaults_label, hl]
  refine ⟨?_, ?_, ?_, ?_⟩
  · intro j hj
    simp only [linked, List.mem_append, List.mem_singleton] at hj ⊢
    rcases hj with hj | hj
    · have := hi.fresh j hj; omega
    · subst hj; simp [new_job]
  · simp only [linked, List.map_append, List.map_cons, List.map_nil]
    refine List.Nodup.append hi.addr_nodup (List.nodup_singleton _) ?_
    intro a ha hb
    simp only [List.mem_singleton, new_job] at hb
    simp only [List.mem_map] at ha
    obtain ⟨x, hx, hxa⟩ := ha
    have := hi.fresh x hx
    omega
  · simp only [labels, linked, List.map_append, List.map_cons, List.map_nil]
    refine List.Nodup.append hi.labels_nodup (List.nodup_singleton _) ?_
    intro a ha hb
    simp only [List.mem_singleton] at hb
    simp only [List.mem_map] at ha
    obtain ⟨x, hx, hxa⟩ := ha
    exact hn ⟨x, hx, by rw [hxa, hb, hlab]⟩
  · intro j hj
    simp only [linked, List.mem_append, List.mem_singleton] at hj
    rcases hj with hj | hj
    · exact hi.has_label j hj
    · subst hj; simp [hlab]

theorem new_job_mem_linked (s : State) (d : launch_data) : new_job s d ∈ (linked s d).jobs := by
  simp [linked]

theorem Le_launched (or : Oracle) {s : State} (d : launch_data) (hi : Inv (linked s d)) :
    Le (linked s d) (launched or s d) := by
  unfold launched
  split
  · exact Le_watch_fds _ _ _ _
  · exact Le_job_start or (Compat_of_mem hi (new_job_mem_linked s d))

/-- After `load_job` has linked and launched the new record the table is the old table
followed by one record, which has the new address and the descriptor with defaults. -/
theorem launched_jobs (or : Oracle) {s : State} (hi : Inv s) (d : launch_data) :
    ∃ j : jobcb, j.addr = s.next_addr ∧ j.ldj = with_defaults d ∧
      (launched or s d).jobs = s.jobs ++ [j] := by
  unfold launched
  split
  · exact ⟨new_job s d, rfl, rfl, by simp [linked]⟩
  · rcases Touch_job_start or (new_job s d) (linked s d) with h | ⟨j, ha, hl, h⟩
    · exact ⟨new_job s d, rfl, rfl, by rw [h]; rfl⟩
    · refine ⟨j, ha, hl, ?_⟩
      rw [h]
      exact set_job_append_fresh s (new_job s d) j _ (fun x hx => hi.fresh x hx) ha

theorem notify_helperd_jobs (s : State) : (notify_helperd s).jobs = s.jobs := by
  unfold notify_helperd
  repeat' split
  all_goals rfl

theorem notify_helperd_helperd (s : State) : (notify_helperd s).helperd = s.helperd := by
  unfold notify_helperd
  repeat' split
  all_goals rfl

theorem notify_helperd_next_addr (s : State) : (notify_helperd s).next_addr = s.next_addr := by
  unfold notify_helperd
  repeat' split
  all_goals rfl

theorem load_job_cases (or : Oracle) (d : launch_data) (s : State) :
    ((load_job or d s).2.2 = s ∧ (load_job or d s).2.1 = d ∧
      (load_job or d s).1 ≠ .string LAUNCH_RESPONSE_SUCCESS) ∨
    (∃ label, launch_data_dict_lookup d LAUNCH_JOBKEY_LABEL = some label ∧
      (¬ ∃ j ∈ s.jobs, job_label j = some (launch_data_get_string label)) ∧
      launch_data_dict_lookup d LAUNCH_JOBKEY_PROGRAMARGUMENTS ≠ none) := by
  cases hl : launch_data_dict_lookup d LAUNCH_JOBKEY_LABEL with
  | none =>
    left
    have : load_job or d s = (.string LAUNCH_RESPONSE_LABELMISSING, d, s) := by
      simp [load_job, hl]
    rw [this]
    exact ⟨rfl, rfl, by simp [LAUNCH_RESPONSE_SUCCESS, LAUNCH_RESPONSE_LABELMISSING]⟩
  | some label =>
    by_cases hex : ∃ j ∈ s.jobs, job_label j = some (launch_data_get_string label)
    · left
      have : load_job or d s = (.string LAUNCH_RESPONSE_JOBEXISTS, d, s) := by
        have := (any_label_iff s.jobs _).2 hex
        simp [load_job, hl, this]
      rw [this]
      exact ⟨rfl, rfl, by simp [LAUNCH_RESPONSE_SUCCESS, LAUNCH_RESPONSE_JOBEXISTS]⟩
    · by_cases hpa : launch_data_dict_lookup d LAUNCH_JOBKEY_PROGRAMARGUMENTS = none
      · left
        have : load_job or d s = (.string LAUNCH_RESPONSE_PROGRAMARGUMENTSMISSING, d, s) := by
          have h1 : s.jobs.any (fun j => streq (job_get_string j.ldj LAUNCH_JOBKEY_LABEL)
              (launch_data_get_string label)) = false := by
            rw [Bool.eq_false_iff]; intro hc; exact hex ((any_label_iff _ _).1 hc)
          simp only [load_job, hl, h1]
          simp [hpa]
        rw [this]
        exact ⟨rfl, rfl, by simp [LAUNCH_RESPONSE_SUCCESS, LAUNCH_RESPONSE_PROGRAMARGUMENTSMISSING]⟩
      · right
        exact ⟨label, rfl, hex, hpa⟩

/-- A descriptor `load_job` does not accept leaves the whole state, and the submitted
tree, as they were. -/
theorem load_job_refused (or : Oracle) (d : launch_data) (s : State)
    (h : (load_job or d s).1 ≠ .string LAUNCH_RESPONSE_SUCCESS) :
    (load_job or d s).2.2 = s ∧ (load_job or d s).2.1 = d := by
  rcases load_job_cases or d s with ⟨h1, h2, _⟩ | ⟨label, hl, hn, hpa⟩
  · exact ⟨h1, h2⟩
  · exfalso
    rw [load_job_of_accepts or d label s hl hn hpa] at h
    exact h rfl

theorem Inv_load_job (or : Oracle) (d : launch_data) {s : State} (hi : Inv s) :
    Inv (load_job or d s).2.2 := by
  rcases load_job_cases or d s with ⟨h, _, _⟩ | ⟨label, hl, hn, hpa⟩
  · rw [h]; exact hi
  · rw [load_job_of_accepts or d label s hl hn hpa]
    have hil := Inv_linked hi d label hl hn
    have hila := Inv_of_Le (Le_launched or d hil) hil
    refine Inv_of_Le (Le_notify_helperd _) ?_
    split
    · exact Inv_of_Le (s := launched or s d) (Le_of_jobs_eq rfl (Nat.le_refl _)) hila
    · exact hila

theorem Inv_load_jobs (os : Nat → Oracle) (xs : List launch_data) :
    ∀ (i : Nat) {s : State}, Inv s → Inv (load_jobs os i xs s).2.2 := by
  induction xs with
  | nil => intro i s hi; exact hi
  | cons p rest ih =>
    intro i s hi
    simp only [load_jobs]
    exact ih (i + 1) (Inv_load_job (os i) p hi)

end Load

section Dispatch

theorem Le_remove_all_loop (or : Oracle) :
    ∀ (fuel : Nat) {s : State}, Inv s → Le s (remove_all_loop or fuel s) := by
  intro fuel
  induction fuel with
  | zero => intro s _; exact Le.le_refl _
  | succ n ih =>
    intro s hi
    unfold remove_all_loop
    split
    · exact Le.le_refl _
    · next j rest hj =>
      have hmem : j ∈ s.jobs := by rw [hj]; exact List.mem_cons_self _ _
      have h1 := Le_job_remove or (Compat_of_mem hi hmem)
      exact h1.le_trans (ih (Inv_of_Le h1 hi))

theorem Le_do_shutdown (or : Oracle) {s : State} (hi : Inv s) : Le s (do_shutdown or s) := by
  unfold do_shutdown launchd_remove_all_jobs
  simp only []
  have h := Le_remove_all_loop or s.jobs.length hi
  split
  · exact h.le_trans ((Le_emit _ _).le_trans (Le_emit _ _))
  · exact h.le_trans (Le_of_jobs_eq rfl (Nat.le_refl _))

theorem adjust_rlimits_loop_jobs (ltmp : List rlimit) :
    ∀ (n i : Nat) (l : List rlimit) (s : State),
      (adjust_rlimits_loop ltmp n i l s).2.jobs = s.jobs ∧
      (adjust_rlimits_loop ltmp n i l s).2.next_addr = s.next_addr := by
  intro n
  induction n with
  | zero => intro i l s; exact ⟨rfl, rfl⟩
  | succ n ih =>
    intro i l s
    unfold adjust_rlimits_loop
    split
    · next x y _ _ =>
      split
      · have := ih (i + 1) (l.set i x) (emit (.setrlimit i x) s)
        simpa using this
      · exact ih _ _ _
    · exact ih _ _ _

theorem foldl_emit_jobs (f : Nat → Effect) (xs : List Nat) :
    ∀ (s : State), (xs.foldl (fun s i => emit (f i) s) s).jobs = s.jobs ∧
      (xs.foldl (fun s i => emit (f i) s) s).next_addr = s.next_addr := by
  induction xs with
  | nil => intro s; exact ⟨rfl, rfl⟩
  | cons x rest ih =>
    intro s
    simp only [List.foldl_cons]
    have := ih (emit (f x) s)
    simpa using this

theorem adjust_rlimits_jobs (or : Oracle) (inp : Option launch_data) (s : State) :
    (adjust_rlimits or inp s).2.jobs = s.jobs ∧
      (adjust_rlimits or inp s).2.next_addr = s.next_addr := by
  have hf := foldl_emit_jobs Effect.getrlimit (List.range RLIM_NLIMITS) s
  cases inp with
  | none =>
    cases hl : s.l with
    | none => simp [adjust_rlimits, hl, hf.1, hf.2]
    | some l => simp [adjust_rlimits, hl]
  | some i =>
    cases hl : s.l with
    | none =>
      simp only [adjust_rlimits, hl]
      have := adjust_rlimits_loop_jobs (launch_data_get_opaq i)
      simp [(this _ _ _ _).1, (this _ _ _ _).2, hf.1, hf.2]
    | some l =>
      simp only [adjust_rlimits, hl]
      have := adjust_rlimits_loop_jobs (launch_data_get_opaq i)
      simp [(this _ _ _ _).1, (this _ _ _ _).2]

theorem Le_adjust_rlimits (or : Oracle) (inp : Option launch_data) (s : State) :
    Le s (adjust_rlimits or inp s).2 :=
  Le_of_jobs_eq (adjust_rlimits_jobs or inp s).1
    (Nat.le_of_eq (adjust_rlimits_jobs or inp s).2.symm)

theorem Le_setstdio (d : Int) (o : launch_data) (s : State) : Le s (setstdio d o s).2 := by
  unfold setstdio
  repeat' split
  all_goals exact Le_of_jobs_eq rfl (Nat.le_refl _)

theorem Inv_ipc_readmsg_cmd (os : Nat → Oracle) (msg : launch_data) (c : conncb) {s : State}
    (hi : Inv s) : Inv (ipc_readmsg_cmd os msg c s).s := by
  unfold ipc_readmsg_cmd
  simp only []
  split
  · split
    · next j hj => exact Inv_of_Le (Le_job_start _ (Compat_of_mem hi (List.mem_of_find?_eq_some hj))) hi
    · exact hi
  split
  · split
    · exact Inv_of_Le (Le_job_stop _ _) hi
    · exact hi
  split
  · split
    · next tmp _ j hj =>
      have hmem := List.mem_of_find?_eq_some hj
      refine Inv_of_Le (Le_notify_helperd _) ?_
      split
      · have hi' : Inv { s with helperd := none } :=
          Inv_of_Le (s := s) (Le_of_jobs_eq rfl (Nat.le_refl _)) hi
        exact Inv_of_Le (Le_job_remove _ (Compat_of_mem hi' hmem)) hi'
      · exact Inv_of_Le (Le_job_remove _ (Compat_of_mem hi hmem)) hi
    · exact hi
  split
  · split
    · exact Inv_load_jobs _ _ _ hi
    · exact Inv_load_job _ _ hi
  split
  · exact Inv_of_Le (s := s) (Le_of_jobs_eq rfl (Nat.le_refl _)) hi
  split
  · exact hi
  split
  · split
    · exact Inv_of_Le (s := s) (Le_of_jobs_eq rfl (Nat.le_refl _)) hi
    · exact hi
  split
  · split
    · split
      · next j hj =>
        exact Inv_of_Le (Le_set_job (Compat_congr (Compat_of_mem hi (find_job_some hj).1)
          rfl rfl)) hi
      · exact Inv_of_Le (s := s) (Le_of_jobs_eq rfl (Nat.le_refl _)) hi
    · exact hi
  split
  · exact Inv_of_Le (Le_emit _ _) hi
  split
  · exact Inv_of_Le (Le_do_shutdown _ hi) hi
  split
  · exact hi
  split
  · exact Inv_of_Le (Le_adjust_rlimits _ _ _) hi
  split
  · exact Inv_of_Le (Le_adjust_rlimits _ _ _) hi
  split
  · exact hi
  split
  · exact hi
  split
  · exact Inv_of_Le (s := s) (Le_of_jobs_eq rfl (Nat.le_refl _)) hi
  split
  · exact hi
  split
  · exact Inv_of_Le (Le_setstdio _ _ _) hi
  split
  · exact Inv_of_Le (Le_setstdio _ _ _) hi
  split
  · exact Inv_of_Le (Le_batch_job_enable _ _) hi
  split
  · exact hi
  · exact hi

theorem Inv_ipc_readmsg (os : Nat → Oracle) (msg : launch_data) (c : conncb) {s : State}
    (hi : Inv s) : Inv (ipc_readmsg os msg c s).2 := by
  unfold ipc_readmsg
  simp only []
  have h := Inv_ipc_readmsg_cmd os msg c hi
  split
  · exact h
  · have h2 : Inv (emit (Effect.msg_send c.conn (ipc_readmsg_cmd os msg c s).resp)
        (if (ipc_readmsg_cmd os msg c s).goto_out = true then (ipc_readmsg_cmd os msg c s).s
         else launch_data_close_fds (ipc_readmsg_cmd os msg c s).msg
            (ipc_readmsg_cmd os msg c s).s)) := by
      refine Inv_of_Le (Le_emit _ _) ?_
      split
      · exact h
      · exact Inv_of_Le (Le_close_fds _ _) h
    split
    · exact h2
    · exact Inv_of_Le (Le_kevent_mod _ _ _ _ _ _ _) h2
    · exact Inv_of_Le (Le_ipc_close _ _) h2

theorem Inv_ipc_readmsgs (oss : Nat → Nat → Oracle) (msgs : List launch_data) :
    ∀ (k : Nat) (c : conncb) {s : State}, Inv s → Inv (ipc_readmsgs oss k msgs c s) := by
  induction msgs with
  | nil => intro k c s hi; exact hi
  | cons m rest ih =>
    intro k c s hi
    unfold ipc_readmsgs
    split
    · exact hi
    · split
      · exact ih _ _ (Inv_ipc_readmsg _ _ _ hi)
      · exact Inv_of_Le (s := s) (Le_of_jobs_eq rfl (Nat.le_refl _)) hi

theorem Inv_ipc_callback (oss : Nat → Nat → Oracle) (c : conncb) (filter : Filter)
    (msgs : List launch_data) (recv_failed : Bool) (send_r : Int) (send_eagain : Bool)
    {s : State} (hi : Inv s) :
    Inv (ipc_callback oss c filter msgs recv_failed send_r send_eagain s) := by
  unfold ipc_callback
  simp only []
  have h := Inv_ipc_readmsgs oss msgs 0 c hi
  repeat' split
  all_goals first
    | exact h
    | exact hi
    | exact Inv_of_Le (Le_ipc_close _ _) h
    | exact Inv_of_Le (Le_ipc_close _ _) hi
    | exact Inv_of_Le (Le_kevent_mod _ _ _ _ _ _ _) hi

theorem Inv_ipc_open_none (or : Oracle) (fd : Int) {s : State} (hi : Inv s) :
    Inv (ipc_open or fd none s).2 :=
  Inv_of_Le (Le_ipc_open or fd none s (by intro x hx; cases hx)) hi

theorem Inv_listen_callback (or : Oracle) (cfd : Int) {s : State} (hi : Inv s) :
    Inv (listen_callback or cfd s) := by
  unfold listen_callback
  simp only []
  have h1 : Inv (_fd cfd (emit (Effect.accept cfd) s)).2 :=
    Inv_of_Le ((Le_emit _ _).le_trans (Le_fd _ _)) hi
  split
  · exact h1
  · exact Inv_ipc_open_none _ _ h1

theorem Inv_mach_callback (or : Oracle) (mp : Int) {s : State} (hi : Inv s) :
    Inv (mach_callback or mp s) := by
  unfold mach_callback
  split
  · exact Inv_of_Le (s := s) (Le_of_jobs_eq rfl (Nat.le_refl _)) hi
  · simp only []
    have h1 : ∀ t : MachTable, Inv (if MACH_PORT_INDEX mp < t.cap then s
        else { s with ub := true }) := by
      intro t
      split
      · exact hi
      · exact Inv_of_Le (s := s) (Le_of_jobs_eq rfl (Nat.le_refl _)) hi
    split
    · exact Inv_of_Le (Le_job_callback _ _ _ (h1 _)) (h1 _)
    · exact h1 _

theorem Inv_signal_callback (or : Oracle) (sig : Nat) {s : State} (hi : Inv s) :
    Inv (signal_callback or sig s) := by
  unfold signal_callback
  repeat' split
  · exact Inv_of_Le (Le_emit _ _) hi
  · exact Inv_of_Le (Le_do_shutdown _ hi) hi
  · exact hi

theorem Inv_step {s t : State} (h : Step s t) (hi : Inv s) : Inv t := by
  cases h with
  | ipc oss c filter msgs recv_failed send_r send_eagain _ _ =>
    exact Inv_ipc_callback _ _ _ _ _ _ _ hi
  | listen or cfd _ => exact Inv_listen_callback _ _ hi
  | config or fd _ => exact Inv_ipc_open_none _ _ hi
  | job or a filter _ _ => exact Inv_of_Le (Le_job_callback _ _ _ hi) hi
  | signal or sig _ => exact Inv_signal_callback _ _ hi
  | machport or ident flags udata _ => exact Inv_of_Le (Le_kevent_mod _ _ _ _ _ _ _) hi
  | mach or mp _ => exact Inv_mach_callback _ _ hi

theorem Inv_steps {s t : State} (h : Steps s t) (hi : Inv s) : Inv t := by
  induction h with
  | refl => exact hi
  | tail t u _ hstep ih => exact Inv_step hstep ih

theorem Inv_start (pid : Int) (reap : Bool) (env : List (String × String)) (mask : Int) :
    Inv (State.start pid reap env mask) :=
  ⟨fun j hj => (by cases hj), List.nodup_nil, List.nodup_nil, fun j hj => (by cases hj)⟩

theorem Inv_of_Reachable {s : State} (h : Reachable s) : Inv s := by
  obtain ⟨pid, reap, env, mask, hs⟩ := h
  exact Inv_steps hs (Inv_start pid reap env mask)

end Dispatch

section Evolution

theorem Evolves.ev_refl (s : State) : Evolves s s :=
  ⟨fun _ hk => Or.inl hk, Nat.le_refl _⟩

theorem Evolves.ev_trans {s t u : State} (h1 : Evolves s t) (h2 : Evolves t u) : Evolves s u := by
  refine ⟨?_, Nat.le_trans h1.2 h2.2⟩
  intro k hk
  rcases h2.1 k hk with h | h
  · exact h1.1 k h
  · exact Or.inr (Nat.le_trans h1.2 h)

theorem Evolves_of_Le {s t : State} (h : Le s t) : Evolves s t :=
  ⟨fun _ hk => Or.inl (h.1.subset hk), h.2⟩

theorem Evolves_of_jobs_eq {s t : State} (h : t.jobs = s.jobs) (hn : s.next_addr ≤ t.next_addr) :
    Evolves s t := Evolves_of_Le (Le_of_jobs_eq h hn)

/-- The state `load_job` leaves when it accepts: the table grew by one record at the
old allocation counter, with the descriptor with defaults. -/
theorem load_job_accepted_jobs (or : Oracle) (d label : launch_data) {s : State} (hi : Inv s)
    (hl : launch_data_dict_lookup d LAUNCH_JOBKEY_LABEL = some label)
    (hn : ¬ ∃ j ∈ s.jobs, job_label j = some (launch_data_get_string label))
    (hpa : launch_data_dict_lookup d LAUNCH_JOBKEY_PROGRAMARGUMENTS ≠ none) :
    (∃ j : jobcb, j.addr = s.next_addr ∧ j.ldj = with_defaults d ∧
      (load_job or d s).2.2.jobs = s.jobs ++ [j]) ∧
    s.next_addr < (load_job or d s).2.2.next_addr := by
  rw [load_job_of_accepts or d label s hl hn hpa]
  simp only [notify_helperd_jobs, notify_helperd_next_addr]
  have hil := Inv_linked hi d label hl hn
  have hle := (Le_launched or d hil).2
  have hlt : s.next_addr < (launched or s d).next_addr := by
    have : (linked s d).next_addr = s.next_addr + 1 := rfl
    omega
  obtain ⟨j, ha, hld, hj⟩ := launched_jobs or hi d
  split
  · exact ⟨⟨j, ha, hld, hj⟩, hlt⟩
  · exact ⟨⟨j, ha, hld, hj⟩, hlt⟩

theorem Evolves_load_job (or : Oracle) (d : launch_data) {s : State} (hi : Inv s) :
    Evolves s (load_job or d s).2.2 := by
  rcases load_job_cases or d s with ⟨h, _, _⟩ | ⟨label, hl, hn, hpa⟩
  · rw [h]; exact Evolves.ev_refl _
  · obtain ⟨⟨j, ha, _, hj⟩, hlt⟩ := load_job_accepted_jobs or d label hi hl hn hpa
    refine ⟨?_, Nat.le_of_lt hlt⟩
    intro k hk
    simp only [jobkeys, hj, List.map_append, List.mem_append, List.map_cons, List.map_nil,
      List.mem_singleton] at hk
    rcases hk with hk | hk
    · exact Or.inl hk
    · right; rw [hk]; simp [ha]

theorem Evolves_load_jobs (os : Nat → Oracle) (xs : List launch_data) :
    ∀ (i : Nat) {s : State}, Inv s → Evolves s (load_jobs os i xs s).2.2 := by
  induction xs with
  | nil => intro i s _; exact Evolves.ev_refl _
  | cons p rest ih =>
    intro i s hi
    simp only [load_jobs]
    exact (Evolves_load_job (os i) p hi).ev_trans (ih (i + 1) (Inv_load_job (os i) p hi))

theorem Evolves_ipc_readmsg_cmd (os : Nat → Oracle) (msg : launch_data) (c : conncb)
    {s : State} (hi : Inv s) : Evolves s (ipc_readmsg_cmd os msg c s).s := by
  unfold ipc_readmsg_cmd
  simp only []
  split
  · split
    · next j hj =>
      exact Evolves_of_Le (Le_job_start _ (Compat_of_mem hi (List.mem_of_find?_eq_some hj)))
    · exact Evolves.ev_refl _
  split
  · split
    · exact Evolves_of_Le (Le_job_stop _ _)
    · exact Evolves.ev_refl _
  split
  · split
    · next tmp _ j hj =>
      have hmem := List.mem_of_find?_eq_some hj
      refine Evolves.ev_trans ?_ (Evolves_of_Le (Le_notify_helperd _))
      split
      · have hi' : Inv { s with helperd := none } :=
          Inv_of_Le (s := s) (Le_of_jobs_eq rfl (Nat.le_refl _)) hi
        exact (Evolves_of_jobs_eq (s := s) rfl (Nat.le_refl _)).ev_trans
          (Evolves_of_Le (Le_job_remove _ (Compat_of_mem hi' hmem)))
      · exact Evolves_of_Le (Le_job_remove _ (Compat_of_mem hi hmem))
    · exact Evolves.ev_refl _
  split
  · split
    · exact Evolves_load_jobs _ _ _ hi
    · exact Evolves_load_job _ _ hi
  split
  · exact Evolves_of_jobs_eq rfl (Nat.le_refl _)
  split
  · exact Evolves.ev_refl _
  split
  · split
    · exact Evolves_of_jobs_eq rfl (Nat.le_refl _)
    · exact Evolves.ev_refl _
  split
  · split
    · split
      · next j hj =>
        exact Evolves_of_Le (Le_set_job (Compat_congr (Compat_of_mem hi (find_job_some hj).1)
          rfl rfl))
      · exact Evolves_of_jobs_eq rfl (Nat.le_refl _)
    · exact Evolves.ev_refl _
  split
  · exact Evolves_of_Le (Le_emit _ _)
  split
  · exact Evolves_of_Le (Le_do_shutdown _ hi)
  split
  · exact Evolves.ev_refl _
  split
  · exact Evolves_of_Le (Le_adjust_rlimits _ _ _)
  split
  · exact Evolves_of_Le (Le_adjust_rlimits _ _ _)
  split
  · exact Evolves.ev_refl _
  split
  · exact Evolves.ev_refl _
  split
  · exact Evolves_of_jobs_eq rfl (Nat.le_refl _)
  split
  · exact Evolves.ev_refl _
  split
  · exact Evolves_of_Le (Le_setstdio _ _ _)
  split
  · exact Evolves_of_Le (Le_setstdio _ _ _)
  split
  · exact Evolves_of_Le (Le_batch_job_enable _ _)
  split
  · exact Evolves.ev_refl _
  · exact Evolves.ev_refl _

/-- What follows the command in `ipc_readmsg` (closing the descriptors of the message,
sending the response) does not change the job table. -/
theorem Le_ipc_readmsg_tail (os : Nat → Oracle) (msg : launch_data) (c : conncb) (s : State) :
    Le (ipc_readmsg_cmd os msg c s).s (ipc_readmsg os msg c s).2 := by
  unfold ipc_readmsg
  simp only []
  split
  · exact Le.le_refl _
  · have h2 : Le (ipc_readmsg_cmd os msg c s).s
        (emit (Effect.msg_send c.conn (ipc_readmsg_cmd os msg c s).resp)
        (if (ipc_readmsg_cmd os msg c s).goto_out = true then (ipc_readmsg_cmd os msg c s).s
         else launch_data_close_fds (ipc_readmsg_cmd os msg c s).msg
            (ipc_readmsg_cmd os msg c s).s)) := by
      refine Le.le_trans ?_ (Le_emit _ _)
      split
      · exact Le.le_refl _
      · exact Le_close_fds _ _
    split
    · exact h2
    · exact h2.le_trans (Le_kevent_mod _ _ _ _ _ _ _)
    · exact h2.le_trans (Le_ipc_close _ _)

theorem ipc_readmsg_fst (os : Nat → Oracle) (msg : launch_data) (c : conncb) (s : State) :
    (ipc_readmsg os msg c s).1 = (ipc_readmsg_cmd os msg c s).resp := by
  unfold ipc_readmsg
  simp only []
  split
  · rfl
  · split <;> rfl

theorem Evolves_ipc_readmsg (os : Nat → Oracle) (msg : launch_data) (c : conncb) {s : State}
    (hi : Inv s) : Evolves s (ipc_readmsg os msg c s).2 :=
  (Evolves_ipc_readmsg_cmd os msg c hi).ev_trans (Evolves_of_Le (Le_ipc_readmsg_tail os msg c s))

theorem Evolves_ipc_readmsgs (oss : Nat → Nat → Oracle) (msgs : List launch_data) :
    ∀ (k : Nat) (c : conncb) {s : State}, Inv s → Evolves s (ipc_readmsgs oss k msgs c s) := by
  induction msgs with
  | nil => intro k c s _; exact Evolves.ev_refl _
  | cons m rest ih =>
    intro k c s hi
    unfold ipc_readmsgs
    split
    · exact Evolves.ev_refl _
    · split
      · exact (Evolves_ipc_readmsg _ _ _ hi).ev_trans (ih _ _ (Inv_ipc_readmsg _ _ _ hi))
      · exact Evolves_of_jobs_eq rfl (Nat.le_refl _)

theorem Evolves_ipc_callback (oss : Nat → Nat → Oracle) (c : conncb) (filter : Filter)
    (msgs : List launch_data) (recv_failed : Bool) (send_r : Int) (send_eagain : Bool)
    {s : State} (hi : Inv s) :
    Evolves s (ipc_callback oss c filter msgs recv_failed send_r send_eagain s) := by
  unfold ipc_callback
  simp only []
  have h := Evolves_ipc_readmsgs oss msgs 0 c hi
  repeat' split
  all_goals first
    | exact h
    | exact Evolves.ev_refl _
    | exact h.ev_trans (Evolves_of_Le (Le_ipc_close _ _))
    | exact Evolves_of_Le (Le_ipc_close _ _)
    | exact Evolves_of_Le (Le_kevent_mod _ _ _ _ _ _ _)

theorem Evolves_step {s t : State} (h : Step s t) (hi : Inv s) : Evolves s t := by
  cases h with
  | ipc oss c filter msgs recv_failed send_r send_eagain _ _ =>
    exact Evolves_ipc_callback _ _ _ _ _ _ _ hi
  | listen or cfd _ =>
    unfold listen_callback
    simp only []
    have h1 : Le s (_fd cfd (emit (Effect.accept cfd) s)).2 := (Le_emit _ _).le_trans (Le_fd _ _)
    split
    · exact Evolves_of_Le h1
    · exact Evolves_of_Le (h1.le_trans (Le_ipc_open _ _ none _ (by intro x hx; cases hx)))
  | config or fd _ => exact Evolves_of_Le (Le_ipc_open or fd none s (by intro x hx; cases hx))
  | job or a filter _ _ => exact Evolves_of_Le (Le_job_callback _ _ _ hi)
  | signal or sig _ =>
    unfold signal_callback
    repeat' split
    · exact Evolves_of_Le (Le_emit _ _)
    · exact Evolves_of_Le (Le_do_shutdown _ hi)
    · exact Evolves.ev_refl _
  | machport or ident flags udata _ => exact Evolves_of_Le (Le_kevent_mod _ _ _ _ _ _ _)
  | mach or mp _ =>
    unfold mach_callback
    split
    · exact Evolves_of_jobs_eq rfl (Nat.le_refl _)
    · simp only []
      have h1 : ∀ t : MachTable, Le s (if MACH_PORT_INDEX mp < t.cap then s
          else { s with ub := true }) := by
        intro t
        split
        · exact Le.le_refl _
        · exact Le_of_jobs_eq rfl (Nat.le_refl _)
      split
      · exact Evolves_of_Le ((h1 _).le_trans (Le_job_callback _ _ _ (Inv_of_Le (h1 _) hi)))
      · exact Evolves_of_Le (h1 _)

theorem Evolves_steps {s t : State} (h : Steps s t) (hi : Inv s) : Evolves s t := by
  induction h with
  | refl => exact Evolves.ev_refl _
  | tail t u hst hstep ih => exact ih.ev_trans (Evolves_step hstep (Inv_steps hst hi))

/-- A record that is still linked after any number of turns of the event loop has the
descriptor it had. -/
theorem ldj_stable {s t : State} (h : Steps s t) (hi : Inv s) {x y : jobcb}
    (hx : x ∈ s.jobs) (hy : y ∈ t.jobs) (ha : y.addr = x.addr) : y.ldj = x.ldj := by
  have he := Evolves_steps h hi
  rcases he.1 _ (mem_jobkeys_of_mem hy) with hk | hk
  · simp only [jobkeys, List.mem_map] at hk
    obtain ⟨z, hz, hzk⟩ := hk
    have hza : z.addr = y.addr := congrArg Prod.fst hzk
    have hzl : z.ldj = y.ldj := congrArg Prod.snd hzk
    have := eq_of_addr_eq hi hz hx (hza.trans ha)
    rw [← hzl, this]
  · exfalso
    have := hi.fresh x hx
    simp only [] at hk
    omega

end Evolution

section Snapshot

/-- The loop of `get_jobs(which)` keeps the last record whose label is `which`. -/
theorem get_jobs_foldl_none (w : String) (jobs : List jobcb)
    (h : ∀ j ∈ jobs, job_label j ≠ some w) (init : Option launch_data) :
    jobs.foldl (fun resp j =>
      if streq (job_get_string j.ldj LAUNCH_JOBKEY_LABEL) w then some (launch_data_copy j.ldj)
      else resp) init = init := by
  induction jobs generalizing init with
  | nil => rfl
  | cons x rest ih =>
    simp only [List.foldl_cons]
    have hx : streq (job_get_string x.ldj LAUNCH_JOBKEY_LABEL) w = false := by
      have := h x (List.mem_cons_self _ _)
      unfold job_label at this
      cases hl : job_get_string x.ldj LAUNCH_JOBKEY_LABEL with
      | none => rfl
      | some y =>
        rw [hl] at this
        simp only [streq, beq_eq_false_iff_ne, ne_eq]
        intro hy; exact this (by rw [hy])
    simp only [hx, Bool.false_eq_true, if_false]
    exact ih (fun j hj => h j (List.mem_cons_of_mem _ hj)) init

theorem get_jobs_foldl_unique (w : String) (jobs : List jobcb) (x : jobcb)
    (hx : x ∈ jobs) (hxl : job_label x = some w)
    (hnd : (jobs.map job_label).Nodup) (init : Option launch_data) :
    jobs.foldl (fun resp j =>
      if streq (job_get_string j.ldj LAUNCH_JOBKEY_LABEL) w then some (launch_data_copy j.ldj)
      else resp) init = some x.ldj := by
  induction jobs generalizing init with
  | nil => cases hx
  | cons y rest ih =>
    simp only [List.foldl_cons]
    simp only [List.map_cons, List.nodup_cons] at hnd
    rcases List.mem_cons.1 hx with h | h
    · subst h
      have hs : streq (job_get_string x.ldj LAUNCH_JOBKEY_LABEL) w = true := by
        unfold job_label at hxl
        simp [streq, hxl]
      simp only [hs, if_true]
      apply get_jobs_foldl_none
      intro j hj hjl
      apply hnd.1
      rw [hxl, ← hjl]
      exact List.mem_map_of_mem _ hj
    · have hy : streq (job_get_string y.ldj LAUNCH_JOBKEY_LABEL) w = false := by
        cases hl : job_get_string y.ldj LAUNCH_JOBKEY_LABEL with
        | none => rfl
        | some z =>
          simp only [streq, beq_eq_false_iff_ne, ne_eq]
          intro hz
          apply hnd.1
          have : job_label y = job_label x := by
            unfold job_label; rw [hl, hz]; exact hxl.symm
          rw [this]
          exact List.mem_map_of_mem _ h
      simp only [hy, Bool.false_eq_true, if_false]
      exact ih h hnd.2 init

/-- `get_jobs(which)` on a table with pairwise distinct labels answers the descriptor of
the record labelled `which`. -/
theorem get_jobs_some {s : State} (hi : Inv s) {x : jobcb} (hx : x ∈ s.jobs) {w : String}
    (hxl : job_label x = some w) : get_jobs (some w) s = x.ldj := by
  simp only [get_jobs]
  rw [get_jobs_foldl_unique w s.jobs x hx hxl hi.labels_nodup]

/-- `get_jobs(which)` answers JOBNOTFOUND when no record is labelled `which`. -/
theorem get_jobs_some_none {s : State} {w : String} (h : ∀ j ∈ s.jobs, job_label j ≠ some w) :
    get_jobs (some w) s = .string LAUNCH_RESPONSE_JOBNOTFOUND := by
  simp only [get_jobs]
  rw [get_jobs_foldl_none w s.jobs h]

theorem dict_set_fresh (k : String) (v : launch_data) (kv : List (String × launch_data))
    (h : k ∉ kv.map Prod.fst) : dict_set k v kv = kv ++ [(k, v)] := by
  induction kv with
  | nil => rfl
  | cons p rest ih =>
    obtain ⟨k0, v0⟩ := p
    simp only [List.map_cons, List.mem_cons, not_or] at h
    have h0 : ¬ k0 = k := fun hh => h.1 hh.symm
    simp [dict_set, h0, ih h.2]

/-- The loop of `get_jobs(NULL)` over records with pairwise distinct labels builds the
dictionary of the records in table order. -/
theorem get_jobs_foldl_all (jobs : List jobcb) (hnd : (jobs.map job_label).Nodup)
    (hl : ∀ j ∈ jobs, (job_label j).isSome) (kv : List (String × launch_data))
    (hkv : ∀ j ∈ jobs, ∀ k ∈ kv.map Prod.fst, job_label j ≠ some k) :
    jobs.foldl (fun resp j =>
      match job_get_string (launch_data_copy j.ldj) LAUNCH_JOBKEY_LABEL with
      | some k => launch_data_dict_insert resp (launch_data_copy j.ldj) k
      | none => resp) (.dictionary kv)
    = .dictionary (kv ++ jobs.map (fun j => ((job_label j).getD "", j.ldj))) := by
  induction jobs generalizing kv with
  | nil => simp
  | cons x rest ih =>
    rw [List.foldl_cons]
    simp only [List.map_cons, List.nodup_cons] at hnd
    have hxs := hl x (List.mem_cons_self _ _)
    obtain ⟨w, hw⟩ := Option.isSome_iff_exists.1 hxs
    have hw' : job_get_string (launch_data_copy x.ldj) LAUNCH_JOBKEY_LABEL = some w := hw
    have hfresh : w ∉ kv.map Prod.fst := by
      intro hmem
      exact hkv x (List.mem_cons_self _ _) w hmem hw
    have hstep : (match job_get_string (launch_data_copy x.ldj) LAUNCH_JOBKEY_LABEL with
        | some k => launch_data_dict_insert (.dictionary kv) (launch_data_copy x.ldj) k
        | none => .dictionary kv) = .dictionary (kv ++ [(w, x.ldj)]) := by
      rw [hw']
      simp only [launch_data_dict_insert, dict_set_fresh w _ kv hfresh, launch_data_copy]
    rw [hstep, ih hnd.2 (fun j hj => hl j (List.mem_cons_of_mem _ hj))]
    · simp [hw]
    · intro j hj k hk hjk
      simp only [List.map_append, List.map_cons, List.map_nil, List.mem_append,
        List.mem_singleton] at hk
      rcases hk with hk | hk
      · exact hkv j (List.mem_cons_of_mem _ hj) k hk hjk
      · apply hnd.1
        rw [hw, ← hk, ← hjk]
        exact List.mem_map_of_mem _ hj

/-- `get_jobs(NULL)` answers the dictionary that maps every label of the table to the
descriptor of its record, in table order. -/
theorem get_jobs_none {s : State} (hi : Inv s) :
    get_jobs none s = .dictionary (s.jobs.map (fun j => ((job_label j).getD "", j.ldj))) := by
  have h := get_jobs_foldl_all s.jobs hi.labels_nodup hi.has_label []
    (by intro j _ k hk; cases hk)
  simp only [List.nil_append] at h
  exact h

mutual
/-- After `launch_data_revoke_fds` every descriptor leaf is `-1`. -/
theorem revoke_fds_leaves : ∀ (o : launch_data), ∀ n ∈ launch_data_fds (launch_data_revoke_fds o), n = -1
  | .dictionary kv => by
    rw [launch_data_revoke_fds, launch_data_fds]; exact revoke_fds_leaves_dict kv
  | .array xs => by
    rw [launch_data_revoke_fds, launch_data_fds]; exact revoke_fds_leaves_array xs
  | .fd _ => by simp [launch_data_revoke_fds, launch_data_fds]
  | .integer _ | .bool _ | .string _ | .opaq _ => by simp [launch_data_revoke_fds, launch_data_fds]
theorem revoke_fds_leaves_dict : ∀ (kv : List (String × launch_data)),
    ∀ n ∈ launch_data_fds_dict (launch_data_revoke_fds_dict kv), n = -1
  | [] => by simp [launch_data_revoke_fds_dict, launch_data_fds_dict]
  | (_, v) :: rest => by
    intro n hn
    simp only [launch_data_revoke_fds_dict, launch_data_fds_dict, List.mem_append] at hn
    rcases hn with hn | hn
    · exact revoke_fds_leaves v n hn
    · exact revoke_fds_leaves_dict rest n hn
theorem revoke_fds_leaves_array : ∀ (xs : List launch_data),
    ∀ n ∈ launch_data_fds_array (launch_data_revoke_fds_array xs), n = -1
  | [] => by simp [launch_data_revoke_fds_array, launch_data_fds_array]
  | v :: rest => by
    intro n hn
    simp only [launch_data_revoke_fds_array, launch_data_fds_array, List.mem_append] at hn
    rcases hn with hn | hn
    · exact revoke_fds_leaves v n hn
    · exact revoke_fds_leaves_array rest n hn
end

theorem revoke_fds_dict_eq_map (kv : List (String × launch_data)) :
    launch_data_revoke_fds_dict kv = kv.map (fun p => (p.1, launch_data_revoke_fds p.2)) := by
  induction kv with
  | nil => rfl
  | cons p rest ih => obtain ⟨k, v⟩ := p; simp [launch_data_revoke_fds_dict, ih]

theorem revoke_fds_array_eq_map (xs : List launch_data) :
    launch_data_revoke_fds_array xs = xs.map launch_data_revoke_fds := by
  induction xs with
  | nil => rfl
  | cons p rest ih => simp [launch_data_revoke_fds_array, ih]

/-- The request `dict{GET_JOB: label}` runs `get_jobs(label)` and revokes the copy. -/
theorem ipc_readmsg_cmd_getjob (os : Nat → Oracle) (w : launch_data) (c : conncb) (s : State) :
    ipc_readmsg_cmd os (.dictionary [(LAUNCH_KEY_GETJOB, w)]) c s =
      ⟨launch_data_revoke_fds (get_jobs (some (launch_data_get_string w)) s),
        .dictionary [(LAUNCH_KEY_GETJOB, w)], false, s⟩ := by
  simp [ipc_readmsg_cmd, launch_data_dict_lookup, dict_find, is_request, LAUNCH_KEY_GETJOB,
    LAUNCH_KEY_STARTJOB, LAUNCH_KEY_STOPJOB, LAUNCH_KEY_REMOVEJOB, LAUNCH_KEY_SUBMITJOB,
    LAUNCH_KEY_UNSETUSERENVIRONMENT, LAUNCH_KEY_SETUSERENVIRONMENT,
    LAUNCH_KEY_SETRESOURCELIMITS]

/-- The request `GET_JOBS` runs `get_jobs(NULL)` and revokes the copy. -/
theorem ipc_readmsg_cmd_getjobs (os : Nat → Oracle) (c : conncb) (s : State) :
    ipc_readmsg_cmd os (.string LAUNCH_KEY_GETJOBS) c s =
      ⟨launch_data_revoke_fds (get_jobs none s), .string LAUNCH_KEY_GETJOBS, false, s⟩ := by
  simp [ipc_readmsg_cmd, launch_data_dict_lookup, is_request, LAUNCH_KEY_GETJOBS,
    LAUNCH_KEY_GETUSERENVIRONMENT, LAUNCH_KEY_CHECKIN, LAUNCH_KEY_RELOADTTYS,
    LAUNCH_KEY_SHUTDOWN]

/-- The request `dict{SUBMIT_JOB: d}` with a payload that is no array runs `load_job`. -/
theorem ipc_readmsg_cmd_submit (os : Nat → Oracle) (d : launch_data) (c : conncb) (s : State)
    (hd : ∀ xs, d ≠ .array xs) :
    (ipc_readmsg_cmd os (.dictionary [(LAUNCH_KEY_SUBMITJOB, d)]) c s).resp
        = (load_job (os 0) d s).1 ∧
    (ipc_readmsg_cmd os (.dictionary [(LAUNCH_KEY_SUBMITJOB, d)]) c s).s
        = (load_job (os 0) d s).2.2 := by
  cases d with
  | array xs => exact absurd rfl (hd xs)
  | _ =>
    simp [ipc_readmsg_cmd, launch_data_dict_lookup, dict_find, LAUNCH_KEY_SUBMITJOB,
      LAUNCH_KEY_STARTJOB, LAUNCH_KEY_STOPJOB, LAUNCH_KEY_REMOVEJOB]

end Snapshot

section More

theorem batch_job_enable_jobs (e : Bool) (s : State) : (batch_job_enable e s).jobs = s.jobs := by
  unfold batch_job_enable
  simp only []
  repeat' split
  all_goals rfl

theorem ipc_close_jobs (c : conncb) (s : State) : (ipc_close c s).jobs = s.jobs := by
  simp [ipc_close, batch_job_enable_jobs]

/-- What follows the command in `ipc_readmsg` leaves the job table as the command left
it. -/
theorem ipc_readmsg_jobs (os : Nat → Oracle) (msg : launch_data) (c : conncb) (s : State) :
    (ipc_readmsg os msg c s).2.jobs = (ipc_readmsg_cmd os msg c s).s.jobs := by
  unfold ipc_readmsg
  simp only []
  split
  · rfl
  · split <;> split <;> simp [ipc_close_jobs]

theorem dict_find_revoke (k : String) (kv : List (String × launch_data)) :
    dict_find k (launch_data_revoke_fds_dict kv) = (dict_find k kv).map launch_data_revoke_fds := by
  induction kv with
  | nil => rfl
  | cons p rest ih =>
    obtain ⟨k0, v0⟩ := p
    by_cases h : k0 = k <;> simp [launch_data_revoke_fds_dict, dict_find, h, ih]

/-- Revoking the descriptors of a tree keeps its keys and revokes every value. -/
theorem lookup_revoke (o : launch_data) (k : String) :
    launch_data_dict_lookup (launch_data_revoke_fds o) k
      = (launch_data_dict_lookup o k).map launch_data_revoke_fds := by
  cases o <;> simp [launch_data_revoke_fds, launch_data_dict_lookup, dict_find_revoke]

theorem lookup_default (kv : List (String × launch_data)) (k0 k : String) :
    launch_data_dict_lookup
        (if (launch_data_dict_lookup (.dictionary kv) k0).isNone then
          launch_data_dict_insert (.dictionary kv) (.bool true) k0
         else .dictionary kv) k
      = if k = k0 then some ((launch_data_dict_lookup (.dictionary kv) k0).getD (.bool true))
        else launch_data_dict_lookup (.dictionary kv) k := by
  by_cases hk : k = k0
  · subst hk
    cases h : launch_data_dict_lookup (.dictionary kv) k with
    | none => simp [lookup_insert_self]
    | some v => simp [h]
  · cases h : launch_data_dict_lookup (.dictionary kv) k0 with
    | none => simp [hk, lookup_insert_ne _ _ _ _ hk]
    | some v => simp [hk]

theorem default_is_dictionary (kv : List (String × launch_data)) (k0 : String) :
    ∃ kv2, (if (launch_data_dict_lookup (.dictionary kv) k0).isNone then
          launch_data_dict_insert (.dictionary kv) (.bool true) k0
         else launch_data.dictionary kv) = .dictionary kv2 := by
  split
  · exact ⟨_, rfl⟩
  · exact ⟨_, rfl⟩

/-- The keys of the descriptor with defaults: `ServiceIPC` and `OnDemand` have the value
of `d` where `d` sets them and `true` where it does not; every other key is as in `d`. -/
theorem with_defaults_lookup (kv : List (String × launch_data)) (k : String) :
    launch_data_dict_lookup (with_defaults (.dictionary kv)) k =
      if k = LAUNCH_JOBKEY_SERVICEIPC then
        some ((launch_data_dict_lookup (.dictionary kv) LAUNCH_JOBKEY_SERVICEIPC).getD
          (.bool true))
      else if k = LAUNCH_JOBKEY_ONDEMAND then
        some ((launch_data_dict_lookup (.dictionary kv) LAUNCH_JOBKEY_ONDEMAND).getD
          (.bool true))
      else launch_data_dict_lookup (.dictionary kv) k := by
  have hne : LAUNCH_JOBKEY_SERVICEIPC ≠ LAUNCH_JOBKEY_ONDEMAND := by decide
  unfold with_defaults
  simp only []
  obtain ⟨kv2, h2⟩ := default_is_dictionary kv LAUNCH_JOBKEY_ONDEMAND
  have hl := lookup_default kv LAUNCH_JOBKEY_ONDEMAND
  rw [h2] at hl ⊢
  rw [lookup_default kv2 LAUNCH_JOBKEY_SERVICEIPC k]
  rw [hl LAUNCH_JOBKEY_SERVICEIPC, hl k]
  simp only [hne, if_false]

theorem dictionary_of_lookup {d : launch_data} {k : String} {v : launch_data}
    (h : launch_data_dict_lookup d k = some v) : ∃ kv, d = .dictionary kv := by
  cases d with
  | dictionary kv => exact ⟨kv, rfl⟩
  | _ => simp [launch_data_dict_lookup] at h

/-- The wait status of a child that exited with code `code` counts as a bad exit unless
the code is zero; the wait status of a child killed by signal `sig` counts as a bad exit
unless the signal is SIGKILL or SIGTERM. -/
theorem bad_exit_decode :
    (∀ code : Int, 0 ≤ code → code < 256 → (bad_exit (code * 256) = true ↔ code ≠ 0)) ∧
    (∀ sig : Int, 1 ≤ sig → sig < 127 →
      (bad_exit sig = true ↔ sig ≠ SIGKILL ∧ sig ≠ SIGTERM)) := by
  constructor
  · intro code h0 h1
    have e1 : code * 256 % 128 = 0 := by omega
    have e2 : code * 256 / 256 % 256 = code := by omega
    simp only [bad_exit, WIFEXITED, WEXITSTATUS, WIFSIGNALED, WTERMSIG, WSTATUS, e1, e2]
    simp
  · intro sig h0 h1
    have e1 : sig % 128 = sig := by omega
    have e2 : sig ≠ 0 := by omega
    have e3 : sig ≠ 127 := by omega
    simp only [bad_exit, WIFEXITED, WEXITSTATUS, WIFSIGNALED, WTERMSIG, WSTATUS, e1]
    simp [e2, e3]

end More

section Policy

theorem Reachable_s_conn : Reachable s_conn :=
  ⟨100, false, [], 18, Steps.tail _ _ _ (Steps.refl _) (Step.listen or0 5 s0 rfl)⟩

theorem Reachable_s_two : Reachable s_two := by
  obtain ⟨pid, reap, env, mask, h⟩ := Reachable_s_conn
  exact ⟨pid, reap, env, mask, Steps.tail _ _ _ h
    (Step.ipc oss0 conn0 .READ [msg_submit dx, msg_submit dy] false 0 false s_conn rfl
      (by decide))⟩

theorem forks_kevent_mod (or : Oracle) (ident : Int) (f : Filter) (fl ffl : Nat) (u : Udata)
    (s : State) (hf : f ≠ .MACHPORT) :
    (kevent_mod or ident f fl ffl u s).2.log.filter is_fork = s.log.filter is_fork := by
  rw [kevent_mod_not_mach _ _ _ _ _ _ _ hf]
  split <;> simp [is_fork]

theorem forks_fd (fd : Int) (s : State) :
    (_fd fd s).2.log.filter is_fork = s.log.filter is_fork := by
  rw [_fd_snd]; split <;> simp [is_fork]

theorem forks_close_fds (o : launch_data) (s : State) :
    (launch_data_close_fds o s).log.filter is_fork = s.log.filter is_fork := by
  rw [launch_data_close_fds_eq]
  simp only [List.filter_append, List.filter_eq_nil_iff.2, List.append_right_eq_self,
    List.filter_eq_nil_iff, List.mem_map]
  rintro a ⟨x, -, rfl⟩
  simp [is_fork]

theorem forks_watch_fds (or : Oracle) (o : launch_data) (c : Udata) (s : State) :
    (job_watch_fds or o c s).log.filter is_fork = s.log.filter is_fork := by
  rw [job_watch_fds_eq]
  simp [List.filter_eq_nil_iff, is_fork]

theorem forks_ignore_fds (or : Oracle) (o : launch_data) (c : Udata) (s : State) :
    (job_ignore_fds or o c s).log.filter is_fork = s.log.filter is_fork := by
  rw [job_ignore_fds_eq]
  simp [List.filter_eq_nil_iff, is_fork]

theorem forks_job_reap (or : Oracle) (j : jobcb) (s : State) :
    (job_reap or j s).2.log.filter is_fork = s.log.filter is_fork := by
  rw [job_reap_snd]
  split <;> simp [is_fork]

theorem forks_job_stop (j : jobcb) (s : State) :
    (job_stop j s).log.filter is_fork = s.log.filter is_fork := by
  unfold job_stop
  split <;> simp [is_fork]

theorem forks_job_remove (or : Oracle) (j : jobcb) (s : State) :
    (job_remove or j s).log.filter is_fork = s.log.filter is_fork := by
  unfold job_remove
  simp only []
  rw [forks_close_fds]
  split
  · split
    · rw [forks_job_reap, forks_kevent_mod _ _ _ _ _ _ _ (by decide)]
    · rw [forks_job_stop, forks_kevent_mod _ _ _ _ _ _ _ (by decide)]
  · rfl

theorem forks_ipc_open (or : Oracle) (fd : Int) (j : Option jobcb) (s : State) :
    (ipc_open or fd j s).2.log.filter is_fork = s.log.filter is_fork := by
  unfold ipc_open
  simp only []
  rw [forks_kevent_mod _ _ _ _ _ _ _ (by decide)]
  cases j <;> simp [is_fork]

/-- Writing a record through a pointer to an unlinked address changes no record. -/
theorem filter_map_set (j : jobcb) (l : List jobcb) :
    (l.map (fun x => if x.addr = j.addr then j else x)).filter (fun x => !(x.addr == j.addr))
      = l.filter (fun x => !(x.addr == j.addr)) := by
  induction l with
  | nil => rfl
  | cons x rest ih =>
    by_cases hx : x.addr = j.addr
    · simp [hx, ih]
    · simp [hx, ih]

theorem map_set_filter (a : Nat) (j : jobcb) (l : List jobcb) :
    (l.filter (fun x => !(x.addr == a))).map (fun x => if x.addr = a then j else x)
      = l.filter (fun x => !(x.addr == a)) := by
  induction l with
  | nil => rfl
  | cons x rest ih =>
    by_cases hx : x.addr = a
    · simp [hx, ih]
    · simp [hx, ih]

/-- The table after `job_remove`: the records at the address of `j` are gone, every other
record is as before, in the same order. -/
theorem job_remove_jobs (or : Oracle) (j : jobcb) (s : State) :
    (job_remove or j s).jobs = s.jobs.filter (fun x => !(x.addr == j.addr)) := by
  unfold job_remove
  simp only [launch_data_close_fds_jobs]
  split
  · split
    · rw [job_reap_snd]
      simp only [set_job_jobs, job_reap_addr]
      split
      · simp only [kevent_mod_jobs]
        exact map_set_filter j.addr _ s.jobs
      · simp only [emit_jobs, kevent_mod_jobs]
        exact map_set_filter j.addr _ s.jobs
    · unfold job_stop
      split <;> simp
  · rfl

theorem find_job_set_job (j : jobcb) (s : State) (h : (find_job s j.addr).isSome) :
    find_job (set_job j s) j.addr = some j := by
  unfold find_job at *
  rw [set_job_jobs]
  generalize s.jobs = l at h
  induction l with
  | nil => simp at h
  | cons x rest ih =>
    by_cases hx : x.addr = j.addr
    · simp [List.find?, hx]
    · have hx' : (x.addr == j.addr) = false := by simpa using hx
      simp only [List.map_cons, hx, if_false, List.find?, hx'] at h ⊢
      exact ih h

theorem find_job_removed (a : Nat) (l : List jobcb) :
    (l.filter (fun x => !(x.addr == a))).find? (fun j => j.addr == a) = none := by
  simp [List.find?_eq_none]

theorem find_job_addr {s : State} {a : Nat} {j : jobcb} (h : find_job s a = some j) :
    j.addr = a := by
  unfold find_job at h
  have := List.find?_some h
  simpa using this

theorem job_start_running (or : Oracle) (j : jobcb) (s : State) (hp : j.p ≠ 0) :
    job_start or j s = s := by
  unfold job_start
  simp [hp]

/-- The children `job_start` creates: none when the job is running or `fork` fails, else
exactly one, whose steps are those of the record as written before `fork`. -/
theorem forks_job_start (or : Oracle) (j : jobcb) (s : State) :
    (job_start or j s).log.filter is_fork =
      s.log.filter is_fork ++
        (if j.p = 0 ∧ or.fork_result ≠ -1 ∧ or.fork_result ≠ 0 then
          [Effect.fork or.fork_result
            (child_steps or
              { j with
                start_time := or.now,
                failed_exits :=
                  if (timersub or.now j.start_time).tv_sec ≥ LAUNCHD_MIN_JOB_RUN_TIME then 0
                  else j.failed_exits }
              (job_get_bool j.ldj LAUNCH_JOBKEY_SERVICEIPC) (timersub or.now j.start_time))]
         else []) := by
  unfold job_start
  by_cases hp : j.p = 0
  · obtain ⟨addr, ldj, p, st, fe, c, ck⟩ := j
    simp only at hp
    subst hp
    simp only [ne_eq, not_true_eq_false, if_false, true_and]
    by_cases hf1 : or.fork_result = -1
    · by_cases hs : job_get_bool ldj LAUNCH_JOBKEY_SERVICEIPC = true <;>
        simp [hf1, hs, is_fork]
    · by_cases hf0 : or.fork_result = 0
      · by_cases hs : job_get_bool ldj LAUNCH_JOBKEY_SERVICEIPC = true <;>
          simp [hf0, hs, is_fork]
      · simp only [hf1, hf0, if_false, not_false_eq_true, and_self, if_true]
        have e : (if (timersub or.now st).tv_sec ≥ LAUNCHD_MIN_JOB_RUN_TIME then
            ({ addr := addr, ldj := ldj, p := 0, start_time := or.now, failed_exits := 0, c := c,
               checkedin := ck } : jobcb)
            else { addr := addr, ldj := ldj, p := 0, start_time := or.now, failed_exits := fe,
                   c := c, checkedin := ck }) =
            { addr := addr, ldj := ldj, p := 0, start_time := or.now,
              failed_exits :=
                if (timersub or.now st).tv_sec ≥ LAUNCHD_MIN_JOB_RUN_TIME then 0 else fe,
              c := c, checkedin := ck } := by
          split <;> rfl
        rw [e]
        generalize jobcb.mk addr ldj 0 or.now
          (if (timersub or.now st).tv_sec ≥ LAUNCHD_MIN_JOB_RUN_TIME then 0 else fe) c ck = j1
        have hk : ∀ ident u t, List.filter is_fork
            (kevent_mod or ident Filter.PROC EV_ADD NOTE_EXIT u t).2.log
              = List.filter is_fork t.log :=
          fun ident u t => forks_kevent_mod or ident _ _ _ u t (by decide)
        cases hs : job_get_bool ldj LAUNCH_JOBKEY_SERVICEIPC
        · simp only [Bool.false_eq_true, if_false]
          split_ifs <;>
            simp [forks_ignore_fds, hk, is_fork]
        · simp only [if_true]
          split_ifs <;>
            simp [forks_ignore_fds, hk, forks_ipc_open, forks_fd, is_fork]
  · simp [hp]

end Policy

section Policy2

theorem job_callback_proc_removed (or : Oracle) (a : Nat) (s : State) (j : jobcb)
    (hj : find_job s a = some j)
    (hs : job_get_bool j.ldj LAUNCH_JOBKEY_SERVICEIPC = true) (hc : j.checkedin = false) :
    job_callback or a .PROC s = job_remove or j s := by
  simp [job_callback, hj, hs, hc]

theorem spawned_job_remove (or : Oracle) (j : jobcb) (s : State) :
    spawned (job_remove or j s) = spawned s := by
  simp only [spawned, forks_job_remove]

theorem find_job_job_remove (or : Oracle) (j : jobcb) (s : State) :
    find_job (job_remove or j s) j.addr = none := by
  unfold find_job
  rw [job_remove_jobs]
  exact find_job_removed _ _

/-- The rest of `job_callback` for a process exit once the check-in test has passed. -/
theorem job_callback_proc_rest (or : Oracle) (a : Nat) (s : State) (j : jobcb)
    (hj : find_job s a = some j)
    (hs : ¬ (job_get_bool j.ldj LAUNCH_JOBKEY_SERVICEIPC = true ∧ j.checkedin = false)) :
    job_callback or a .PROC s =
      if (job_reap or j s).1.failed_exits > LAUNCHD_FAILED_EXITS_THRESHOLD then
        job_remove or (job_reap or j s).1 (job_reap or j s).2
      else if job_get_bool j.ldj LAUNCH_JOBKEY_ONDEMAND = true then
        job_watch_fds or j.ldj (.job a) (job_reap or j s).2
      else if s.helperd = some a ∧ s.batch_enabled = false then (job_reap or j s).2
      else job_start or (job_reap or j s).1 (job_reap or j s).2 := by
  have ha := find_job_addr hj
  have h1 : (job_get_bool j.ldj LAUNCH_JOBKEY_SERVICEIPC && !j.checkedin) = false := by
    cases h : job_get_bool j.ldj LAUNCH_JOBKEY_SERVICEIPC <;> cases h2 : j.checkedin <;>
      simp_all
  have h2 : (job_reap or j s).2.helperd = s.helperd := by
    rw [job_reap_snd]; split <;> simp
  have h3 : (job_reap or j s).2.batch_enabled = s.batch_enabled := by
    rw [job_reap_snd]; split <;> simp
  simp only [job_callback, hj, if_true, h1, Bool.false_eq_true, if_false, job_reap_ldj,
    job_reap_addr, h2, h3, ha]
  split
  · rfl
  · split
    · rfl
    · cases hb : s.batch_enabled <;> simp

theorem job_reap_jobs (or : Oracle) (j : jobcb) (s : State) :
    (job_reap or j s).2.jobs = (set_job (job_reap or j s).1 s).jobs := by
  rw [job_reap_snd]; split <;> rfl

theorem find_job_job_reap (or : Oracle) (a : Nat) (j : jobcb) (s : State)
    (hj : find_job s a = some j) :
    find_job (job_reap or j s).2 a = some (job_reap or j s).1 := by
  have ha := find_job_addr hj
  have h : find_job (set_job (job_reap or j s).1 s) (job_reap or j s).1.addr
      = some (job_reap or j s).1 :=
    find_job_set_job _ s (by rw [job_reap_addr, ha, hj]; rfl)
  rw [job_reap_addr, ha] at h
  unfold find_job at h ⊢
  rw [job_reap_jobs]
  exact h

end Policy2

section Start2

theorem find_job_congr {s t : State} (h : t.jobs = s.jobs) (a : Nat) :
    find_job t a = find_job s a := by
  unfold find_job; rw [h]

/-- The record at the address of `j` after `job_start` created a child and registered its
exit. -/
theorem job_start_ok_find (or : Oracle) (j : jobcb) (s : State) (hp : j.p = 0)
    (hj : (find_job s j.addr).isSome)
    (hf1 : or.fork_result ≠ -1) (hf0 : or.fork_result ≠ 0) (hk : or.kevent_result ≠ -1) :
    find_job (job_start or j s) j.addr = some
        { j with
          start_time := or.now,
          failed_exits :=
            if (timersub or.now j.start_time).tv_sec ≥ LAUNCHD_MIN_JOB_RUN_TIME then 0
            else j.failed_exits,
          c := if job_get_bool j.ldj LAUNCH_JOBKEY_SERVICEIPC then some s.next_addr else j.c,
          p := or.fork_result } := by
  rw [find_job_congr (job_start_ok or j s hp hf1 hf0 hk)]
  exact find_job_set_job _ s hj

/-- On every path of `job_start` for a job that is not running, the record at the address
of the job has the clock as start time and the failure count cleared after a gap of the
minimum run time, kept otherwise. -/
theorem job_start_record (or : Oracle) (j : jobcb) (s : State) (hp : j.p = 0) :
    ∃ j' : jobcb, j'.addr = j.addr ∧ j'.start_time = or.now ∧
      j'.failed_exits =
        (if (timersub or.now j.start_time).tv_sec ≥ LAUNCHD_MIN_JOB_RUN_TIME then 0
         else j.failed_exits) ∧
      (job_start or j s).jobs = (set_job j' s).jobs := by
  obtain ⟨addr, ldj, p, st, fe, c, ck⟩ := j
  simp only at hp
  subst hp
  unfold job_start
  simp only [ne_eq, not_true_eq_false, if_false]
  have e : (if (timersub or.now st).tv_sec ≥ LAUNCHD_MIN_JOB_RUN_TIME then
      ({ addr := addr, ldj := ldj, p := 0, start_time := or.now, failed_exits := 0, c := c,
         checkedin := ck } : jobcb)
      else { addr := addr, ldj := ldj, p := 0, start_time := or.now, failed_exits := fe,
             c := c, checkedin := ck }) =
      { addr := addr, ldj := ldj, p := 0, start_time := or.now,
        failed_exits :=
          if (timersub or.now st).tv_sec ≥ LAUNCHD_MIN_JOB_RUN_TIME then 0 else fe,
        c := c, checkedin := ck } := by
    split <;> rfl
  rw [e]
  generalize hX : (if (timersub or.now st).tv_sec ≥ LAUNCHD_MIN_JOB_RUN_TIME then 0 else fe)
    = X
  have key : ∀ (t : State) (j1 : jobcb), t.jobs = s.jobs → j1.addr = addr →
      j1.start_time = or.now → j1.failed_exits = X →
      ∃ j' : jobcb, j'.addr = addr ∧ j'.start_time = or.now ∧ j'.failed_exits = X ∧
        (set_job j1 t).jobs = (set_job j' s).jobs :=
    fun t j1 ht h1 h2 h3 => ⟨j1, h1, h2, h3, set_job_jobs_congr j1 ht⟩
  have key2 : ∀ (t : State) (j0 j1 : jobcb), t.jobs = s.jobs → j0.addr = addr →
      j1.addr = addr → j1.start_time = or.now → j1.failed_exits = X →
      ∃ j' : jobcb, j'.addr = addr ∧ j'.start_time = or.now ∧ j'.failed_exits = X ∧
        (set_job j1 (set_job j0 t)).jobs = (set_job j' s).jobs :=
    fun t j0 j1 ht h0 h1 h2 h3 => ⟨j1, h1, h2, h3, by
      rw [set_job_set_job t (h0.trans h1.symm)]; exact set_job_jobs_congr j1 ht⟩
  have key3 : ∀ (t : State) (j0 j1 j2 : jobcb), t.jobs = s.jobs → j0.addr = addr →
      j1.addr = addr → j2.addr = addr → j2.start_time = or.now → j2.failed_exits = X →
      ∃ j' : jobcb, j'.addr = addr ∧ j'.start_time = or.now ∧ j'.failed_exits = X ∧
        (set_job j2 (set_job j1 (set_job j0 t))).jobs = (set_job j' s).jobs :=
    fun t j0 j1 j2 ht h0 h1 h2 h3 h4 => ⟨j2, h2, h3, h4, by
      rw [set_job_set_job _ (h1.trans h2.symm), set_job_set_job t (h0.trans h2.symm)]
      exact set_job_jobs_congr j2 ht⟩
  cases hs : job_get_bool ldj LAUNCH_JOBKEY_SERVICEIPC
  · simp only [Bool.false_eq_true, if_false]
    split_ifs
    · exact key _ _ rfl rfl rfl rfl
    · exact key _ _ rfl rfl rfl rfl
    · simp only [kevent_mod_jobs, emit_jobs, Option.getD_some]
      exact key _ _ rfl rfl rfl rfl
    · simp only [job_ignore_fds_jobs, Option.getD_some]
      have := key2 s ⟨addr, ldj, 0, or.now, X, c, ck⟩
        ⟨addr, ldj, or.fork_result, or.now, X, c, ck⟩ rfl rfl rfl rfl rfl
      simpa [set_job_jobs, Function.comp_def] using this
    · simp only [Option.getD_some]
      have := key2 s ⟨addr, ldj, 0, or.now, X, c, ck⟩
        ⟨addr, ldj, or.fork_result, or.now, X, c, ck⟩ rfl rfl rfl rfl rfl
      simpa [set_job_jobs, Function.comp_def] using this
  · simp only [if_true]
    split_ifs
    · exact key _ _ rfl rfl rfl rfl
    · exact key _ _ rfl rfl rfl rfl
    · simp only [kevent_mod_jobs, ipc_open_jobs_some, ipc_open_fst]
      have := key2 s ⟨addr, ldj, 0, or.now, X, c, ck⟩
        ⟨addr, ldj, 0, or.now, X, some s.next_addr, ck⟩ rfl rfl rfl rfl rfl
      simpa [set_job_jobs, Function.comp_def] using this
    · simp only [job_ignore_fds_jobs]
      have := key3 s ⟨addr, ldj, 0, or.now, X, c, ck⟩
        ⟨addr, ldj, 0, or.now, X, some s.next_addr, ck⟩
        ⟨addr, ldj, or.fork_result, or.now, X, some s.next_addr, ck⟩ rfl rfl rfl rfl rfl rfl
      simpa [set_job_jobs, Function.comp_def, ipc_open] using this
    · have := key3 s ⟨addr, ldj, 0, or.now, X, c, ck⟩
        ⟨addr, ldj, 0, or.now, X, some s.next_addr, ck⟩
        ⟨addr, ldj, or.fork_result, or.now, X, some s.next_addr, ck⟩ rfl rfl rfl rfl rfl rfl
      simpa [set_job_jobs, Function.comp_def, ipc_open] using this

end Start2
section Start3

theorem forks_batch_job_enable (e : Bool) (s : State) :
    (batch_job_enable e s).log.filter is_fork = s.log.filter is_fork := by
  unfold batch_job_enable
  split <;> simp only [] <;> repeat' split
  all_goals simp [is_fork]

theorem forks_ipc_close (c : conncb) (s : State) :
    (ipc_close c s).log.filter is_fork = s.log.filter is_fork := by
  unfold ipc_close
  simp [forks_batch_job_enable, is_fork]

theorem forks_notify_helperd (s : State) :
    (notify_helperd s).log.filter is_fork = s.log.filter is_fork := by
  unfold notify_helperd
  repeat' split
  all_goals simp [is_fork]

theorem bad_exit_zero : bad_exit 0 = false := by decide

theorem timersub_sec (a b : timeval) (ha0 : 0 ≤ a.tv_usec) (ha1 : a.tv_usec < 1000000)
    (hb0 : 0 ≤ b.tv_usec) (hb1 : b.tv_usec < 1000000) :
    (timersub a b).tv_sec ≥ LAUNCHD_MIN_JOB_RUN_TIME ↔
      (a.tv_sec * 1000000 + a.tv_usec) - (b.tv_sec * 1000000 + b.tv_usec) ≥ 10 * 1000000 := by
  unfold timersub LAUNCHD_MIN_JOB_RUN_TIME
  simp only []
  split <;> simp only [] <;> omega

end Start3

section Start4

/-- The table after `load_job` accepted a descriptor that is not on-demand, created the
child and registered its exit: the old table followed by the new record with the child
as its pid. -/
theorem load_job_started (or : Oracle) (d label : launch_data) {s : State} (hi : Inv s)
    (hl : launch_data_dict_lookup d LAUNCH_JOBKEY_LABEL = some label)
    (hn : ¬ ∃ j ∈ s.jobs, job_label j = some (launch_data_get_string label))
    (hpa : launch_data_dict_lookup d LAUNCH_JOBKEY_PROGRAMARGUMENTS ≠ none)
    (hod : job_get_bool (with_defaults d) LAUNCH_JOBKEY_ONDEMAND = false)
    (hf1 : or.fork_result ≠ -1) (hf0 : or.fork_result ≠ 0) (hk : or.kevent_result ≠ -1) :
    (load_job or d s).2.2.jobs = s.jobs ++
      [{ addr := s.next_addr, ldj := with_defaults d, p := or.fork_result,
         start_time := or.now, failed_exits := 0,
         c := if job_get_bool (with_defaults d) LAUNCH_JOBKEY_SERVICEIPC then
                some (s.next_addr + 1) else none,
         checkedin := false }] := by
  rw [load_job_of_accepts or d label s hl hn hpa]
  have h1 : (notify_helperd (if launch_data_get_string label == HELPERD then
      { launched or s d with helperd := some s.next_addr } else launched or s d)).jobs
      = (launched or s d).jobs := by
    rw [notify_helperd_jobs]; split <;> rfl
  show (notify_helperd _).jobs = _
  rw [h1]
  unfold launched
  rw [if_neg (by simp [hod])]
  rw [job_start_ok or (new_job s d) (linked s d) rfl hf1 hf0 hk]
  have h2 := set_job_append_fresh s (new_job s d)
    { addr := s.next_addr, ldj := with_defaults d, p := or.fork_result,
      start_time := or.now, failed_exits := 0,
      c := if job_get_bool (with_defaults d) LAUNCH_JOBKEY_SERVICEIPC then
             some (s.next_addr + 1) else none,
      checkedin := false } (s.next_addr + 1) (fun x hx => hi.fresh x hx) rfl
  rw [← h2]
  simp only [linked, new_job, ite_self]

theorem with_defaults_d_s1 (l : String) (pa : launch_data) :
    with_defaults (d_s1 l pa) =
      .dictionary [(LAUNCH_JOBKEY_LABEL, .string l), (LAUNCH_JOBKEY_PROGRAMARGUMENTS, pa),
        (LAUNCH_JOBKEY_ONDEMAND, .bool false), (LAUNCH_JOBKEY_SERVICEIPC, .bool true)] := by
  simp [with_defaults, d_s1, launch_data_dict_lookup, dict_find, launch_data_dict_insert,
    dict_set, LAUNCH_JOBKEY_LABEL, LAUNCH_JOBKEY_PROGRAMARGUMENTS, LAUNCH_JOBKEY_ONDEMAND,
    LAUNCH_JOBKEY_SERVICEIPC]

end Start4

section Commands2

theorem streq_label (j : jobcb) (w : String) :
    streq (job_get_string j.ldj LAUNCH_JOBKEY_LABEL) w = true ↔ job_label j = some w := by
  unfold job_label
  cases hl : job_get_string j.ldj LAUNCH_JOBKEY_LABEL with
  | none => simp [streq]
  | some x => simp [streq]

theorem eq_of_label_eq {s : State} (hi : Inv s) {x y : jobcb} (hx : x ∈ s.jobs)
    (hy : y ∈ s.jobs) (h : job_label x = job_label y) : x = y :=
  List.inj_on_of_nodup_map hi.labels_nodup hx hy h

theorem batch_job_enable_helperd (e : Bool) (s : State) :
    (batch_job_enable e s).helperd = s.helperd := by
  unfold batch_job_enable
  split <;> simp only [] <;> repeat' split
  all_goals rfl

theorem batch_job_enable_batch (e : Bool) (s : State) :
    (batch_job_enable e s).batch_enabled = e := by
  unfold batch_job_enable
  split <;> simp only [] <;> repeat' split
  all_goals simp_all

theorem batch_job_enable_connections (e : Bool) (s : State) :
    (batch_job_enable e s).connections = s.connections := by
  unfold batch_job_enable
  split <;> simp only [] <;> repeat' split
  all_goals rfl

theorem ipc_close_helperd (c : conncb) (s : State) : (ipc_close c s).helperd = s.helperd := by
  simp [ipc_close, batch_job_enable_helperd]

theorem launch_data_close_fds_helperd (o : launch_data) (s : State) :
    (launch_data_close_fds o s).helperd = s.helperd := by rw [launch_data_close_fds_eq]

theorem launch_data_close_fds_batch (o : launch_data) (s : State) :
    (launch_data_close_fds o s).batch_enabled = s.batch_enabled := by
  rw [launch_data_close_fds_eq]

theorem ipc_readmsg_helperd (os : Nat → Oracle) (msg : launch_data) (c : conncb) (s : State) :
    (ipc_readmsg os msg c s).2.helperd = (ipc_readmsg_cmd os msg c s).s.helperd := by
  unfold ipc_readmsg
  simp only []
  split
  · rfl
  · split <;> split <;> simp [ipc_close_helperd, launch_data_close_fds_helperd]

/-- The batch flag after `ipc_readmsg` when the response could be handed over. -/
theorem ipc_readmsg_batch (os : Nat → Oracle) (msg : launch_data) (c : conncb) (s : State)
    (hs : (os 0).send_result ≠ .error) :
    (ipc_readmsg os msg c s).2.batch_enabled = (ipc_readmsg_cmd os msg c s).s.batch_enabled := by
  unfold ipc_readmsg
  simp only []
  split
  · rfl
  · split <;> split <;> simp_all [launch_data_close_fds_batch]

theorem job_remove_helperd (or : Oracle) (j : jobcb) (s : State) :
    (job_remove or j s).helperd = s.helperd := by
  unfold job_remove
  simp only [launch_data_close_fds_helperd]
  split
  · split
    · rw [job_reap_snd]; split <;> simp
    · unfold job_stop; split <;> simp
  · rfl

/-- On a table with pairwise distinct addresses and labels, dropping the records at the
address of a record is dropping the records with its label. -/
theorem filter_addr_eq_filter_label {s : State} (hi : Inv s) {j : jobcb} (hj : j ∈ s.jobs)
    {w : String} (hw : job_label j = some w) :
    s.jobs.filter (fun x => !(x.addr == j.addr))
      = s.jobs.filter (fun x => decide (job_label x ≠ some w)) := by
  apply List.filter_congr
  intro x hx
  by_cases h : x.addr = j.addr
  · have := eq_of_addr_eq hi hx hj h
    subst this
    simp [hw]
  · have h2 : job_label x ≠ some w := by
      intro hx2
      exact h (congrArg jobcb.addr (eq_of_label_eq hi hx hj (hx2.trans hw.symm)))
    simp [h, h2]

theorem ipc_readmsg_cmd_removejob (os : Nat → Oracle) (label : launch_data) (c : conncb)
    (s : State) (j : jobcb)
    (h : s.jobs.find? (fun j => streq (job_get_string j.ldj LAUNCH_JOBKEY_LABEL)
          (launch_data_get_string label)) = some j) :
    ipc_readmsg_cmd os (.dictionary [(LAUNCH_KEY_REMOVEJOB, label)]) c s =
      ⟨.string LAUNCH_RESPONSE_SUCCESS, .dictionary [(LAUNCH_KEY_REMOVEJOB, label)], true,
        notify_helperd (job_remove (os 0) j
          (if launch_data_get_string label == HELPERD then { s with helperd := none } else s))⟩ := by
  simp [ipc_readmsg_cmd, launch_data_dict_lookup, dict_find, LAUNCH_KEY_REMOVEJOB,
    LAUNCH_KEY_STARTJOB, LAUNCH_KEY_STOPJOB, h]

theorem ipc_readmsg_cmd_removejob_none (os : Nat → Oracle) (label : launch_data) (c : conncb)
    (s : State)
    (h : s.jobs.find? (fun j => streq (job_get_string j.ldj LAUNCH_JOBKEY_LABEL)
          (launch_data_get_string label)) = none) :
    ipc_readmsg_cmd os (.dictionary [(LAUNCH_KEY_REMOVEJOB, label)]) c s =
      ⟨.string LAUNCH_RESPONSE_JOBNOTFOUND, .dictionary [(LAUNCH_KEY_REMOVEJOB, label)], false,
        s⟩ := by
  simp [ipc_readmsg_cmd, launch_data_dict_lookup, dict_find, LAUNCH_KEY_REMOVEJOB,
    LAUNCH_KEY_STARTJOB, LAUNCH_KEY_STOPJOB, h]

theorem ipc_readmsg_cmd_checkin (os : Nat → Oracle) (c : conncb) (s : State) (a : Nat)
    (j : jobcb) (hc : c.j = some a) (hj : find_job s a = some j) :
    ipc_readmsg_cmd os (.string LAUNCH_KEY_CHECKIN) c s =
      ⟨j.ldj, .string LAUNCH_KEY_CHECKIN, false, set_job { j with checkedin := true } s⟩ := by
  simp [ipc_readmsg_cmd, launch_data_dict_lookup, is_request, LAUNCH_KEY_CHECKIN,
    LAUNCH_KEY_GETUSERENVIRONMENT, launch_data_copy, hc, hj]

theorem ipc_readmsg_cmd_checkin_none (os : Nat → Oracle) (c : conncb) (s : State)
    (hc : c.j = none) :
    ipc_readmsg_cmd os (.string LAUNCH_KEY_CHECKIN) c s =
      ⟨.string LAUNCH_RESPONSE_NOTRUNNINGFROMLAUNCHD, .string LAUNCH_KEY_CHECKIN, false, s⟩ := by
  simp [ipc_readmsg_cmd, launch_data_dict_lookup, is_request, LAUNCH_KEY_CHECKIN,
    LAUNCH_KEY_GETUSERENVIRONMENT, launch_data_copy, hc]

theorem ipc_readmsg_cmd_batchcontrol (os : Nat → Oracle) (v : launch_data) (c : conncb)
    (s : State) :
    ipc_readmsg_cmd os (.dictionary [(LAUNCH_KEY_BATCHCONTROL, v)]) c s =
      ⟨.string LAUNCH_RESPONSE_SUCCESS, .dictionary [(LAUNCH_KEY_BATCHCONTROL, v)], false,
        batch_job_enable (launch_data_get_bool v) s⟩ := by
  simp [ipc_readmsg_cmd, launch_data_dict_lookup, dict_find, is_request,
    LAUNCH_KEY_BATCHCONTROL, LAUNCH_KEY_STARTJOB, LAUNCH_KEY_STOPJOB, LAUNCH_KEY_REMOVEJOB,
    LAUNCH_KEY_SUBMITJOB, LAUNCH_KEY_UNSETUSERENVIRONMENT, LAUNCH_KEY_SETUSERENVIRONMENT,
    LAUNCH_KEY_SETRESOURCELIMITS, LAUNCH_KEY_GETJOB, LAUNCH_KEY_GETJOBWITHHANDLES,
    LAUNCH_KEY_SETUMASK, LAUNCH_KEY_SETSTDOUT, LAUNCH_KEY_SETSTDERR]

theorem ipc_readmsg_cmd_batchquery (os : Nat → Oracle) (c : conncb) (s : State) :
    ipc_readmsg_cmd os (.string LAUNCH_KEY_BATCHQUERY) c s =
      ⟨.bool s.batch_enabled, .string LAUNCH_KEY_BATCHQUERY, false, s⟩ := by
  simp [ipc_readmsg_cmd, launch_data_dict_lookup, is_request, LAUNCH_KEY_BATCHQUERY,
    LAUNCH_KEY_GETUSERENVIRONMENT, LAUNCH_KEY_CHECKIN, LAUNCH_KEY_RELOADTTYS,
    LAUNCH_KEY_SHUTDOWN, LAUNCH_KEY_GETJOBS, LAUNCH_KEY_GETRESOURCELIMITS, LAUNCH_KEY_GETUMASK]

end Commands2
section Commands3

theorem ipc_readmsg_connections (os : Nat → Oracle) (msg : launch_data) (c : conncb) (s : State)
    (hs : (os 0).send_result ≠ .error) :
    (ipc_readmsg os msg c s).2.connections = (ipc_readmsg_cmd os msg c s).s.connections := by
  unfold ipc_readmsg
  simp only []
  split
  · rfl
  · split <;> split <;> simp_all [launch_data_close_fds_eq]

theorem Inv_s_run : Inv s_run := by
  refine ⟨?_, by decide, by decide, ?_⟩
  · intro j hj
    simp only [s_run, List.mem_singleton] at hj
    subst hj
    decide
  · intro j hj
    simp only [s_run, List.mem_singleton] at hj
    subst hj
    decide

end Commands3

section Child

/-- A list of steps in code order followed by steps that all have the same, later place
is in code order. -/
theorem rank_step (l1 l2 : List ChildStep) (r r' : Nat)
    (h : (l1.map step_rank).Pairwise (· ≤ ·) ∧ ∀ x ∈ l1, step_rank x ≤ r)
    (h2 : l2.all (fun x => step_rank x == r') = true) (hr : r ≤ r') :
    ((l1 ++ l2).map step_rank).Pairwise (· ≤ ·) ∧ ∀ x ∈ l1 ++ l2, step_rank x ≤ r' := by
  have h2' : ∀ x ∈ l2, step_rank x = r' := by
    intro x hx
    have := List.all_eq_true.1 h2 x hx
    simpa using this
  constructor
  · rw [List.map_append, List.pairwise_append]
    refine ⟨h.1, ?_, ?_⟩
    · apply List.pairwise_of_forall_mem_list
      intro a ha b hb
      obtain ⟨x, hx, rfl⟩ := List.mem_map.1 ha
      obtain ⟨y, hy, rfl⟩ := List.mem_map.1 hb
      rw [h2' x hx, h2' y hy]
    · intro a ha b hb
      obtain ⟨x, hx, rfl⟩ := List.mem_map.1 ha
      obtain ⟨y, hy, rfl⟩ := List.mem_map.1 hb
      rw [h2' y hy]
      exact Nat.le_trans (h.2 x hx) hr
  · intro x hx
    rcases List.mem_append.1 hx with hx | hx
    · exact Nat.le_trans (h.2 x hx) hr
    · exact Nat.le_of_eq (h2' x hx)

theorem child_rlimits_rank (or : Oracle) (srl hrl : Option launch_data) :
    (child_rlimits or srl hrl).all (fun x => step_rank x == 2) = true := by
  rw [List.all_eq_true]
  intro x hx
  unfold child_rlimits at hx
  split at hx
  · simp only [List.mem_flatMap, List.mem_cons, List.mem_singleton, List.not_mem_nil,
      or_false] at hx
    obtain ⟨kv, -, h | h⟩ := hx <;> subst h <;> rfl
  · cases hx

theorem setup_job_env_rank : ∀ kv : List (String × launch_data),
    (setup_job_env kv).all (fun x => step_rank x == 12) = true
  | [] => rfl
  | (_, .string _) :: rest => by
    simp only [setup_job_env, List.all_cons, setup_job_env_rank rest, Bool.and_true]
    rfl
  | (_, .dictionary _) :: rest | (_, .array _) :: rest | (_, .fd _) :: rest
  | (_, .integer _) :: rest | (_, .bool _) :: rest | (_, .opaq _) :: rest => by
    simp only [setup_job_env]
    exact setup_job_env_rank rest

theorem setup_job_env_setenv : ∀ kv : List (String × launch_data),
    (setup_job_env kv).filter is_setenv = setup_job_env kv
  | [] => rfl
  | (_, .string _) :: rest => by
    simp only [setup_job_env, List.filter_cons, is_setenv, if_true, setup_job_env_setenv rest]
  | (_, .dictionary _) :: rest | (_, .array _) :: rest | (_, .fd _) :: rest
  | (_, .integer _) :: rest | (_, .bool _) :: rest | (_, .opaq _) :: rest => by
    simp only [setup_job_env]
    exact setup_job_env_setenv rest

theorem throttle_eq (b : Bool) (x m : Int) (n : Nat) (l : List ChildStep) :
    (if (!b && decide (x < m)) = true then (if n > 0 then l else []) else [])
      = if b = false ∧ x < m ∧ n > 0 then l else [] := by
  cases b <;> by_cases h1 : x < m <;> by_cases h2 : n > 0 <;> simp [h1, h2]

/-- The steps of the child: the set-up in the order of the code, then the throttle sleep
of a job that is not on-demand, restarted within the minimum run time after a bad exit,
then `execvp`. -/
theorem child_steps_split (or : Oracle) (j : jobcb) (sipc : Bool) (tvd : timeval) :
    ∃ (pre : List ChildStep) (a0 : Option String) (argv : List String),
      child_steps or j sipc tvd =
        pre ++
          (if job_get_bool j.ldj LAUNCH_JOBKEY_ONDEMAND = false ∧
              tvd.tv_sec < LAUNCHD_MIN_JOB_RUN_TIME ∧ j.failed_exits > 0 then
            [ChildStep.sleep (LAUNCHD_MIN_JOB_RUN_TIME - tvd.tv_sec)] else []) ++
          [ChildStep.execvp a0 argv, ChildStep.exit EXIT_FAILURE] ∧
      ((pre.map step_rank).Pairwise (· ≤ ·) ∧ ∀ x ∈ pre, step_rank x ≤ 13) := by
  unfold child_steps
  simp only [throttle_eq]
  refine ⟨_, _, _, rfl, ?_⟩
  refine rank_step _ _ 12 13 ?_ rfl (by decide)
  refine rank_step _ _ 12 12 ?_ (by split <;> rfl) (by decide)
  refine rank_step _ _ 11 12 ?_ (by split
                                    · exact setup_job_env_rank _
                                    · rfl) (by decide)
  refine rank_step _ _ 10 11 ?_ (by split <;> rfl) (by decide)
  refine rank_step _ _ 9 10 ?_ (by split <;> rfl) (by decide)
  refine rank_step _ _ 8 9 ?_ (by split <;> rfl) (by decide)
  refine rank_step _ _ 7 8 ?_ (by split <;> rfl) (by decide)
  refine rank_step _ _ 6 7 ?_ (by split <;> rfl) (by decide)
  refine rank_step _ _ 5 6 ?_ (by split <;> rfl) (by decide)
  refine rank_step _ _ 4 5 ?_ (by split <;> rfl) (by decide)
  refine rank_step _ _ 3 4 ?_ (by split <;> rfl) (by decide)
  refine rank_step _ _ 2 3 ?_ (by repeat' split
                                  all_goals rfl) (by decide)
  refine rank_step _ _ 1 2 ?_ (child_rlimits_rank _ _ _) (by decide)
  refine rank_step _ _ 0 1 ?_ rfl (by decide)
  refine ⟨?_, ?_⟩
  · split <;> simp
  · intro x hx
    split at hx
    · simp only [List.mem_singleton] at hx; subst hx; exact Nat.le_refl _
    · cases hx

theorem child_sleep_append (l1 l2 : List ChildStep) :
    child_sleep (l1 ++ l2) = child_sleep l1 + child_sleep l2 := by
  induction l1 with
  | nil => simp [child_sleep]
  | cons x rest ih =>
    cases x <;> simp [child_sleep, ih, Int.add_assoc]

theorem child_sleep_set_up (l : List ChildStep) (h : ∀ x ∈ l, step_rank x ≤ 13) :
    child_sleep l = 0 := by
  induction l with
  | nil => rfl
  | cons x rest ih =>
    have hx := h x (List.mem_cons_self _ _)
    have ih' := ih (fun y hy => h y (List.mem_cons_of_mem _ hy))
    cases x <;> simp_all [child_sleep, step_rank]

/-- The seconds the child sleeps before `execvp`. -/
theorem child_sleep_child_steps (or : Oracle) (j : jobcb) (sipc : Bool) (tvd : timeval) :
    child_sleep (child_steps or j sipc tvd) =
      if job_get_bool j.ldj LAUNCH_JOBKEY_ONDEMAND = false ∧
          tvd.tv_sec < LAUNCHD_MIN_JOB_RUN_TIME ∧ j.failed_exits > 0 then
        LAUNCHD_MIN_JOB_RUN_TIME - tvd.tv_sec
      else 0 := by
  obtain ⟨pre, a0, argv, he, -, hb⟩ := child_steps_split or j sipc tvd
  rw [he, child_sleep_append, child_sleep_append, child_sleep_set_up pre hb]
  split <;> simp [child_sleep]

theorem child_steps_env_split (or : Oracle) (j : jobcb) (sipc : Bool) (tvd : timeval)
    (kv : List (String × launch_data))
    (h : launch_data_dict_lookup j.ldj LAUNCH_JOBKEY_ENVIRONMENTVARIABLES = some (.dictionary kv)) :
    ∃ (pre thr : List ChildStep) (a0 : Option String) (argv : List String),
      child_steps or j sipc tvd =
        pre ++ setup_job_env kv ++
          (if sipc then [ChildStep.setenv LAUNCHD_TRUSTED_FD_ENV (toString or.spair.2)] else []) ++
          [ChildStep.setsid] ++ thr ++ [ChildStep.execvp a0 argv, ChildStep.exit EXIT_FAILURE] ∧
      ((pre.map step_rank).Pairwise (· ≤ ·) ∧ ∀ x ∈ pre, step_rank x ≤ 11) ∧
      thr.all (fun x => step_rank x == 14) = true := by
  unfold child_steps
  simp only [throttle_eq, h]
  refine ⟨_, _, _, _, rfl, ?_, by split <;> rfl⟩
  refine rank_step _ _ 10 11 ?_ (by split <;> rfl) (by decide)
  refine rank_step _ _ 9 10 ?_ (by split <;> rfl) (by decide)
  refine rank_step _ _ 8 9 ?_ (by split <;> rfl) (by decide)
  refine rank_step _ _ 7 8 ?_ (by split <;> rfl) (by decide)
  refine rank_step _ _ 6 7 ?_ (by split <;> rfl) (by decide)
  refine rank_step _ _ 5 6 ?_ (by split <;> rfl) (by decide)
  refine rank_step _ _ 4 5 ?_ (by split <;> rfl) (by decide)
  refine rank_step _ _ 3 4 ?_ (by split <;> rfl) (by decide)
  refine rank_step _ _ 2 3 ?_ (by repeat' split
                                  all_goals rfl) (by decide)
  refine rank_step _ _ 1 2 ?_ (child_rlimits_rank _ _ _) (by decide)
  refine rank_step _ _ 0 1 ?_ rfl (by decide)
  refine ⟨?_, ?_⟩
  · split <;> simp
  · intro x hx
    split at hx
    · simp only [List.mem_singleton] at hx; subst hx; exact Nat.le_refl _
    · cases hx

theorem filter_setenv_nil (l : List ChildStep) (h : ∀ x ∈ l, step_rank x ≠ 12) :
    l.filter is_setenv = [] := by
  rw [List.filter_eq_nil_iff]
  intro x hx
  have := h x hx
  cases x <;> simp_all [step_rank, is_setenv]

/-- The `setenv` steps of the child: the configured variables first, the variable of the
trusted descriptor last. -/
theorem child_steps_setenv (or : Oracle) (j : jobcb) (sipc : Bool) (tvd : timeval)
    (kv : List (String × launch_data))
    (h : launch_data_dict_lookup j.ldj LAUNCH_JOBKEY_ENVIRONMENTVARIABLES = some (.dictionary kv)) :
    (child_steps or j sipc tvd).filter is_setenv =
      setup_job_env kv ++
        (if sipc then [ChildStep.setenv LAUNCHD_TRUSTED_FD_ENV (toString or.spair.2)] else []) := by
  obtain ⟨pre, thr, a0, argv, he, ⟨-, hpre⟩, hthr⟩ := child_steps_env_split or j sipc tvd kv h
  have h1 : pre.filter is_setenv = [] :=
    filter_setenv_nil pre (fun x hx => by have := hpre x hx; omega)
  have h2 : thr.filter is_setenv = [] :=
    filter_setenv_nil thr (fun x hx => by
      have := List.all_eq_true.1 hthr x hx
      simp only [beq_iff_eq] at this
      omega)
  have h3 : ∀ X : ChildStep, is_setenv X = true →
      (if sipc = true then [X] else []).filter is_setenv = (if sipc = true then [X] else []) := by
    intro X hX
    cases sipc
    · rfl
    · simp only [if_true, List.filter_cons, hX, List.filter_nil]
  have h4 : [ChildStep.setsid].filter is_setenv = [] := rfl
  have h5 : [ChildStep.execvp a0 argv, ChildStep.exit EXIT_FAILURE].filter is_setenv = [] := rfl
  rw [he]
  simp only [List.filter_append, setup_job_env_setenv, h1, h2, h4, h5,
    List.nil_append, List.append_nil]
  rw [h3 (ChildStep.setenv LAUNCHD_TRUSTED_FD_ENV (toString or.spair.2)) rfl]

/-- The steps of the child are in the order of the code. -/
theorem child_steps_rank (or : Oracle) (j : jobcb) (sipc : Bool) (tvd : timeval) :
    ((child_steps or j sipc tvd).map step_rank).Pairwise (· ≤ ·) := by
  obtain ⟨pre, a0, argv, he, hpre⟩ := child_steps_split or j sipc tvd
  rw [he]
  have h1 := rank_step pre _ 13 14 hpre
    (show (if job_get_bool j.ldj LAUNCH_JOBKEY_ONDEMAND = false ∧
              tvd.tv_sec < LAUNCHD_MIN_JOB_RUN_TIME ∧ j.failed_exits > 0 then
            [ChildStep.sleep (LAUNCHD_MIN_JOB_RUN_TIME - tvd.tv_sec)] else []).all
          (fun x => step_rank x == 14) = true by split <;> rfl) (by decide)
  have h2 := rank_step _ [ChildStep.execvp a0 argv] 14 15 h1 rfl (by decide)
  have h3 := rank_step _ [ChildStep.exit EXIT_FAILURE] 15 16 h2 rfl (by decide)
  simpa using h3.1

end Child

section Rounds

theorem find_job_job_start_isSome (or : Oracle) (j : jobcb) (s : State)
    (h : (find_job s j.addr).isSome) : (find_job (job_start or j s) j.addr).isSome := by
  rcases Touch_job_start or j s with h1 | ⟨j', ha, -, h1⟩
  · rw [find_job_congr h1]; exact h
  · rw [find_job_congr h1, ← ha, find_job_set_job j' s (by rw [ha]; exact h)]; rfl

/-- `job_start` on a job that is not running, not on-demand and without service IPC, when
`fork` and the registration of the exit succeed. -/
theorem job_start_plain (or : Oracle) (j : jobcb) (s : State) (hp : j.p = 0)
    (hs : job_get_bool j.ldj LAUNCH_JOBKEY_SERVICEIPC = false)
    (ho : job_get_bool j.ldj LAUNCH_JOBKEY_ONDEMAND = false)
    (hf1 : or.fork_result ≠ -1) (hf0 : or.fork_result ≠ 0) (hk : or.kevent_result ≠ -1) :
    job_start or j s =
      set_job
        { j with
          start_time := or.now,
          failed_exits :=
            if (timersub or.now j.start_time).tv_sec ≥ LAUNCHD_MIN_JOB_RUN_TIME then 0
            else j.failed_exits,
          p := or.fork_result }
        (kevent_mod or or.fork_result .PROC EV_ADD NOTE_EXIT (.job j.addr)
          (emit (.fork or.fork_result
            (child_steps or
              { j with
                start_time := or.now,
                failed_exits :=
                  if (timersub or.now j.start_time).tv_sec ≥ LAUNCHD_MIN_JOB_RUN_TIME then 0
                  else j.failed_exits }
              false (timersub or.now j.start_time)))
            (set_job
              { j with
                start_time := or.now,
                failed_exits :=
                  if (timersub or.now j.start_time).tv_sec ≥ LAUNCHD_MIN_JOB_RUN_TIME then 0
                  else j.failed_exits } s))).2 := by
  obtain ⟨addr, ldj, p, st, fe, c, ck⟩ := j
  simp only at hp hs ho
  subst hp
  unfold job_start
  have hk' : ∀ ident u t, ¬ (kevent_mod or ident Filter.PROC EV_ADD NOTE_EXIT u t).1 = -1 :=
    fun ident u t => kevent_mod_fst_ne or ident _ _ _ u t (by decide) hk
  simp only [ne_eq, not_true_eq_false, if_false, hs, ho, hf1, hf0, Bool.false_eq_true, hk',
    Option.getD_some]
  split <;> simp [ho]

theorem job_reap_start_time (or : Oracle) (j : jobcb) (s : State) :
    (job_reap or j s).1.start_time = j.start_time := by rw [job_reap_fst]

theorem last_child_of_forks (log : List Effect) (l : List Effect) (c : Int)
    (ch : List ChildStep) (h : log.filter is_fork = l ++ [Effect.fork c ch]) :
    last_child log = ch := by
  simp [last_child, h]

theorem timersub_same_usec (a b : timeval) (h : a.tv_usec = b.tv_usec) :
    (timersub a b).tv_sec = a.tv_sec - b.tv_sec := by
  unfold timersub
  simp [h]

theorem job_start_helperd_plain (or : Oracle) (j : jobcb) (s : State) (hp : j.p = 0)
    (hs : job_get_bool j.ldj LAUNCH_JOBKEY_SERVICEIPC = false)
    (ho : job_get_bool j.ldj LAUNCH_JOBKEY_ONDEMAND = false)
    (hf1 : or.fork_result ≠ -1) (hf0 : or.fork_result ≠ 0) (hk : or.kevent_result ≠ -1) :
    (job_start or j s).helperd = s.helperd ∧
    (job_start or j s).batch_enabled = s.batch_enabled := by
  rw [job_start_plain or j s hp hs ho hf1 hf0 hk]
  simp

theorem Running_congr {a : Nat} {t t' : Int} {fe fe' : Nat} {sl sl' : Int} {s : State}
    (h : Running a t fe sl s) (h1 : t = t') (h2 : fe = fe') (h3 : sl = sl') :
    Running a t' fe' sl' s := by
  subst h1 h2 h3; exact h

/-- The state after `job_start` has started a job that is not on-demand and does not use
service IPC. -/
theorem start_plain_running (or : Oracle) (j : jobcb) (s : State) (hp : j.p = 0)
    (hfind : (find_job s j.addr).isSome)
    (hs : job_get_bool j.ldj LAUNCH_JOBKEY_SERVICEIPC = false)
    (ho : job_get_bool j.ldj LAUNCH_JOBKEY_ONDEMAND = false)
    (hf1 : or.fork_result ≠ -1) (hf0 : or.fork_result ≠ 0) (hk : or.kevent_result ≠ -1)
    (hh : ¬ (s.helperd = some j.addr ∧ s.batch_enabled = false)) :
    Running j.addr or.now.tv_sec
      (if (timersub or.now j.start_time).tv_sec ≥ LAUNCHD_MIN_JOB_RUN_TIME then 0
       else j.failed_exits)
      (if (timersub or.now j.start_time).tv_sec < LAUNCHD_MIN_JOB_RUN_TIME ∧ j.failed_exits > 0
       then LAUNCHD_MIN_JOB_RUN_TIME - (timersub or.now j.start_time).tv_sec else 0)
      (job_start or j s) := by
  refine ⟨⟨_, job_start_ok_find or j s hp hfind hf1 hf0 hk, hf0, rfl, rfl, ho, hs⟩, ?_, ?_⟩
  · have hfk := forks_job_start or j s
    rw [if_pos ⟨hp, hf1, hf0⟩] at hfk
    rw [last_child_of_forks _ _ _ _ hfk, child_sleep_child_steps]
    simp only [ho, true_and]
    by_cases ht : (timersub or.now j.start_time).tv_sec ≥ LAUNCHD_MIN_JOB_RUN_TIME
    · have : ¬ (timersub or.now j.start_time).tv_sec < LAUNCHD_MIN_JOB_RUN_TIME := by omega
      simp [this]
    · simp [ht]
  · obtain ⟨h1, h2⟩ := job_start_helperd_plain or j s hp hs ho hf1 hf0 hk
    rw [h1, h2]; exact hh

/-- One round of a failing job: the child executes, exits badly at once, and the
supervisor starts the next child. -/
theorem running_round (or : Oracle) (status : Int) (a : Nat) (s : State) (t0 : Int) (fe : Nat)
    (sl : Int) (h : Running a t0 fe sl s) (hfe : fe + 1 ≤ LAUNCHD_FAILED_EXITS_THRESHOLD)
    (hbad : bad_exit status = true)
    (hf1 : or.fork_result ≠ -1) (hf0 : or.fork_result ≠ 0) (hk : or.kevent_result ≠ -1) :
    Running a (t0 + sl) (if sl ≥ LAUNCHD_MIN_JOB_RUN_TIME then 0 else fe + 1)
      (if sl ≥ LAUNCHD_MIN_JOB_RUN_TIME then 0 else LAUNCHD_MIN_JOB_RUN_TIME - sl)
      (immediate_exit or status a s) := by
  obtain ⟨⟨j, hj, hp, hjfe, hjt, hod, hsi⟩, hsl, hh⟩ := h
  have ha := find_job_addr hj
  simp only [immediate_exit, hj, hsl, hjt]
  generalize hor :
    ({ or with status := status, now := ⟨t0 + sl, j.start_time.tv_usec⟩ } : Oracle) = or'
  have hst : or'.status = status := by rw [← hor]
  have hnow : or'.now = { tv_sec := t0 + sl, tv_usec := j.start_time.tv_usec } := by rw [← hor]
  have hf1' : or'.fork_result ≠ -1 := by rw [← hor]; exact hf1
  have hf0' : or'.fork_result ≠ 0 := by rw [← hor]; exact hf0
  have hk' : or'.kevent_result ≠ -1 := by rw [← hor]; exact hk
  have hpol : ¬ (job_get_bool j.ldj LAUNCH_JOBKEY_SERVICEIPC = true ∧ j.checkedin = false) := by
    simp [hsi]
  have hr1 : (job_reap or' j s).1 =
      { j with failed_exits := fe + 1, c := none, p := 0, checkedin := false } := by
    rw [job_reap_fst, hst, hbad, hjfe]; rfl
  have hrest := job_callback_proc_rest or' a s j hj hpol
  rw [if_neg (by rw [hr1]; simp only []; omega), if_neg (by simp [hod]), if_neg hh] at hrest
  rw [hrest]
  have htv : (timersub or'.now j.start_time).tv_sec = sl := by
    rw [timersub_same_usec _ _ (by rw [hnow])]
    rw [hnow, hjt]; simp
  have hfr := find_job_job_reap or' a j s hj
  have h2 : (job_reap or' j s).2.helperd = s.helperd := by
    rw [job_reap_snd]; split <;> simp
  have h3 : (job_reap or' j s).2.batch_enabled = s.batch_enabled := by
    rw [job_reap_snd]; split <;> simp
  have hra : (job_reap or' j s).1.addr = a := by rw [job_reap_addr, ha]
  have key := start_plain_running or' (job_reap or' j s).1 (job_reap or' j s).2
    (by rw [hr1]) (by rw [hra, hfr]; rfl) (by rw [job_reap_ldj]; exact hsi)
    (by rw [job_reap_ldj]; exact hod) hf1' hf0' hk' (by rw [hra, h2, h3]; exact hh)
  rw [hra, job_reap_start_time, htv] at key
  refine Running_congr key (by rw [hnow]) ?_ ?_
  · rw [hr1]
  · rw [hr1]
    by_cases hsl10 : sl ≥ LAUNCHD_MIN_JOB_RUN_TIME
    · have : ¬ sl < LAUNCHD_MIN_JOB_RUN_TIME := by omega
      simp [hsl10, this]
    · have : sl < LAUNCHD_MIN_JOB_RUN_TIME := by omega
      simp [hsl10, this]

/-- Two rounds of a failing job bring it back to where it was, ten seconds later: the
start that follows the throttle sleep clears the failure count. -/
theorem running_two_rounds (or : Oracle) (status : Int) (a : Nat) (s : State) (t0 : Int)
    (h : Running a t0 0 0 s) (hbad : bad_exit status = true)
    (hf1 : or.fork_result ≠ -1) (hf0 : or.fork_result ≠ 0) (hk : or.kevent_result ≠ -1) :
    Running a t0 1 10 (immediate_exit or status a s) ∧
    Running a (t0 + 10) 0 0 (immediate_exit or status a (immediate_exit or status a s)) := by
  have h1 := running_round or status a s t0 0 0 h (by decide) hbad hf1 hf0 hk
  have h1' : Running a t0 1 10 (immediate_exit or status a s) :=
    Running_congr h1 (by omega) (by simp [LAUNCHD_MIN_JOB_RUN_TIME])
      (by simp [LAUNCHD_MIN_JOB_RUN_TIME])
  have h2 := running_round or status a _ t0 1 10 h1' (by decide) hbad hf1 hf0 hk
  exact ⟨h1', Running_congr h2 rfl (by simp [LAUNCHD_MIN_JOB_RUN_TIME])
    (by simp [LAUNCHD_MIN_JOB_RUN_TIME])⟩

theorem running_even (or : Oracle) (status : Int) (a : Nat) (hbad : bad_exit status = true)
    (hf1 : or.fork_result ≠ -1) (hf0 : or.fork_result ≠ 0) (hk : or.kevent_result ≠ -1) :
    ∀ (k : Nat) (s : State) (t0 : Int), Running a t0 0 0 s →
      Running a (t0 + 10 * k) 0 0 ((immediate_exit or status a)^[2 * k] s)
  | 0, s, t0, h => by simpa using h
  | k + 1, s, t0, h => by
    have h2 := (running_two_rounds or status a s t0 h hbad hf1 hf0 hk).2
    have h3 := running_even or status a hbad hf1 hf0 hk k _ (t0 + 10) h2
    have e : 2 * (k + 1) = 2 * k + 1 + 1 := by omega
    rw [e, Function.iterate_succ_apply, Function.iterate_succ_apply]
    refine Running_congr h3 ?_ rfl rfl
    push_cast; omega

theorem running_find {a : Nat} {t0 : Int} {fe : Nat} {sl : Int} {s : State}
    (h : Running a t0 fe sl s) :
    (∃ j, find_job s a = some j ∧ j.p ≠ 0 ∧ j.failed_exits = fe) ∧
    exec_time a s = some (t0 + sl) := by
  obtain ⟨⟨j, hj, hp, hfe, ht, -, -⟩, hsl, -⟩ := h
  refine ⟨⟨j, hj, hp, hfe⟩, ?_⟩
  simp [exec_time, hj, hsl, ht]

end Rounds
section Rounds2

/-- The state after the descriptor `dxs` was submitted to the start state: the job at
address 1 runs its first child, started in second 1000, which does not sleep. -/
theorem running_after_submit : Running 1 1000 0 0 (load_job or0 dxs s0).2.2 :=
  ⟨⟨{ addr := 1, ldj := with_defaults dxs, p := 42, start_time := or0.now, failed_exits := 0,
       c := none, checkedin := false }, by rfl, by decide, rfl, rfl, by decide, by decide⟩,
    by decide, by decide⟩

end Rounds2

section Rlimits

end Rlimits

section Dangling

theorem job_remove_connections (or : Oracle) (j : jobcb) (s : State) :
    (job_remove or j s).connections = s.connections := by
  unfold job_remove
  rw [launch_data_close_fds_eq]
  simp only []
  split
  · split
    · rw [job_reap_snd]; split <;> simp
    · unfold job_stop; split <;> simp
  · rfl

theorem Reachable_s_sub : Reachable s_sub := by
  obtain ⟨pid, reap, env, mask, h⟩ := Reachable_s_conn
  exact ⟨pid, reap, env, mask, Steps.tail _ _ _ h
    (Step.ipc oss0 conn0 .READ [msg_submit dx] false 0 false s_conn rfl (by decide))⟩

theorem Reachable_s_hsub : Reachable s_hsub := by
  obtain ⟨pid, reap, env, mask, h⟩ := Reachable_s_conn
  exact ⟨pid, reap, env, mask, Steps.tail _ _ _ h
    (Step.ipc oss0 conn0 .READ [msg_submit d_helper] false 0 false s_conn rfl (by decide))⟩

/-- A process exit of a job that uses service IPC and has not checked in: the job is
gone, the helper pointer and the connection list are as before. -/
theorem unchecked_exit_state (or : Oracle) (a : Nat) (s : State)
    (h : (find_job s a).map
      (fun j => (job_get_bool j.ldj LAUNCH_JOBKEY_SERVICEIPC, j.checkedin)) = some (true, false)) :
    find_job (job_callback or a .PROC s) a = none ∧
    (job_callback or a .PROC s).helperd = s.helperd ∧
    (job_callback or a .PROC s).connections = s.connections := by
  cases hj : find_job s a with
  | none => rw [hj] at h; cases h
  | some j =>
    rw [hj] at h
    simp only [Option.map_some', Option.some.injEq, Prod.mk.injEq] at h
    have ha := find_job_addr hj
    rw [job_callback_proc_removed or a s j hj h.1 h.2]
    exact ⟨by rw [← ha]; exact find_job_job_remove or j s, job_remove_helperd or j s,
      job_remove_connections or j s⟩

end Dangling

section Policy3

/-- The record at the address of `j` after `job_start` could not create a child. -/
theorem job_start_fork_failed_find (or : Oracle) (j : jobcb) (s : State) (hp : j.p = 0)
    (hj : (find_job s j.addr).isSome) (hf : or.fork_result = -1) :
    find_job (job_start or j s) j.addr = some
        { j with
          start_time := or.now,
          failed_exits :=
            if (timersub or.now j.start_time).tv_sec ≥ LAUNCHD_MIN_JOB_RUN_TIME then 0
            else j.failed_exits } := by
  have hjobs : (job_start or j s).jobs =
      (set_job
        { j with
          start_time := or.now,
          failed_exits :=
            if (timersub or.now j.start_time).tv_sec ≥ LAUNCHD_MIN_JOB_RUN_TIME then 0
            else j.failed_exits } s).jobs := by
    unfold job_start
    simp only [hp, ne_eq, not_true_eq_false, if_false, hf, if_true]
    by_cases ht : (timersub or.now j.start_time).tv_sec ≥ LAUNCHD_MIN_JOB_RUN_TIME <;>
      cases hs : job_get_bool j.ldj LAUNCH_JOBKEY_SERVICEIPC <;>
      simp [ht, set_job_jobs]
  rw [find_job_congr hjobs]
  exact find_job_set_job _ s hj

end Policy3

/-! ## The claims -/

section Claims

/-- C1. In every state the supervisor reaches from the start of `main` by any sequence
of callbacks of its event loop (IPC messages, connection events, child exits, readable
activation descriptors, port activations, signals), the labels of the records of the job
table are pairwise distinct. -/
theorem labels_pairwise_distinct (s : State) (h : Reachable s) : (labels s).Nodup :=
  (Inv_of_Reachable h).labels_nodup

theorem labels_pairwise_distinct_witness :
    Reachable s_two ∧ labels s_two = [some "x", some "y"] ∧ (labels s_two).Nodup :=
  ⟨Reachable_s_two, rfl, labels_pairwise_distinct s_two Reachable_s_two⟩

/-- C2. For every job table and every submitted descriptor, `load_job` answers
LABELMISSING when the descriptor has no label; otherwise JOBEXISTS when a record of the
table carries that label; otherwise PROGRAMARGUMENTSMISSING when the descriptor has no
program arguments; otherwise SUCCESS. -/
theorem load_job_response (or : Oracle) (pload : launch_data) (s : State) :
    (launch_data_dict_lookup pload LAUNCH_JOBKEY_LABEL = none →
      (load_job or pload s).1 = .string LAUNCH_RESPONSE_LABELMISSING) ∧
    (∀ label, launch_data_dict_lookup pload LAUNCH_JOBKEY_LABEL = some label →
      ((∃ j ∈ s.jobs, job_label j = some (launch_data_get_string label)) →
        (load_job or pload s).1 = .string LAUNCH_RESPONSE_JOBEXISTS) ∧
      ((¬ ∃ j ∈ s.jobs, job_label j = some (launch_data_get_string label)) →
        (launch_data_dict_lookup pload LAUNCH_JOBKEY_PROGRAMARGUMENTS = none →
          (load_job or pload s).1 = .string LAUNCH_RESPONSE_PROGRAMARGUMENTSMISSING) ∧
        (launch_data_dict_lookup pload LAUNCH_JOBKEY_PROGRAMARGUMENTS ≠ none →
          (load_job or pload s).1 = .string LAUNCH_RESPONSE_SUCCESS))) := by
  refine ⟨fun h => by simp [load_job, h], fun label h =>
    ⟨fun hex => ?_, fun hnex => ⟨fun hpa => ?_, fun hpa => ?_⟩⟩⟩
  · have := (any_label_iff s.jobs _).2 hex
    simp [load_job, h, this]
  · have : s.jobs.any (fun j => streq (job_get_string j.ldj LAUNCH_JOBKEY_LABEL)
        (launch_data_get_string label)) = false := by
      rw [Bool.eq_false_iff]; intro hc; exact hnex ((any_label_iff _ _).1 hc)
    simp only [load_job, h, this]
    simp [hpa]
  · rw [load_job_of_accepts or pload label s h hnex hpa]

theorem load_job_response_witness :
    (load_job or0 (.dictionary [("ProgramArguments", .array [])]) s_two).1
        = .string "LabelMissing" ∧
    (load_job or0 (.dictionary [("Label", .string "y")]) s_two).1 = .string "JobExists" ∧
    (load_job or0 (.dictionary [("Label", .string "z")]) s_two).1
        = .string "ProgramArgumentsMissing" ∧
    (load_job or0 (.dictionary [("Label", .string "z"), ("ProgramArguments", .array [])])
        s_two).1 = .string "Success" :=
  ⟨(load_job_response or0 (.dictionary [("ProgramArguments", .array [])]) s_two).1 rfl,
   ((load_job_response or0 (.dictionary [("Label", .string "y")]) s_two).2 (.string "y") rfl).1
     (List.mem_map.1 (show some "y" ∈ labels s_two by decide)),
   (((load_job_response or0 (.dictionary [("Label", .string "z")]) s_two).2
      (.string "z") rfl).2 (by
        rintro ⟨j, hj, hl⟩
        have : job_label j ∈ labels s_two := List.mem_map_of_mem _ hj
        rw [hl] at this
        revert this
        decide)).1 rfl,
   (((load_job_response or0
      (.dictionary [("Label", .string "z"), ("ProgramArguments", .array [])]) s_two).2
      (.string "z") rfl).2 (by
        rintro ⟨j, hj, hl⟩
        have : job_label j ∈ labels s_two := List.mem_map_of_mem _ hj
        rw [hl] at this
        revert this
        decide)).2 (by intro h; cases h)⟩

/-- C4. A job record is created only by a successful submit: on a reachable state,
whenever `load_job` answers anything other than SUCCESS the whole state (the job table
with every record, the helper pointer, everything else) is exactly as before; whenever it
answers SUCCESS the job table is the old table, records and order unchanged, followed by
exactly one new record, which has a new address and the submitted descriptor with the
defaults filled in. -/
theorem load_job_creates (or : Oracle) (d : launch_data) (s : State) (h : Reachable s) :
    ((load_job or d s).1 ≠ .string LAUNCH_RESPONSE_SUCCESS → (load_job or d s).2.2 = s) ∧
    ((load_job or d s).1 = .string LAUNCH_RESPONSE_SUCCESS →
      ∃ j : jobcb, j.addr = s.next_addr ∧ j.ldj = with_defaults d ∧
        (∀ x ∈ s.jobs, x.addr ≠ j.addr) ∧
        (load_job or d s).2.2.jobs = s.jobs ++ [j]) := by
  have hi := Inv_of_Reachable h
  refine ⟨fun hne => (load_job_refused or d s hne).1, fun hs => ?_⟩
  rcases load_job_cases or d s with ⟨_, _, hne⟩ | ⟨label, hl, hn, hpa⟩
  · exact absurd hs hne
  · obtain ⟨⟨j, ha, hld, hj⟩, _⟩ := load_job_accepted_jobs or d label hi hl hn hpa
    refine ⟨j, ha, hld, ?_, hj⟩
    intro x hx
    have := hi.fresh x hx
    omega

theorem load_job_creates_witness :
    Reachable s_two ∧
    (load_job or0 (.dictionary [("Label", .string "y")]) s_two).2.2 = s_two ∧
    (∃ j : jobcb, j.addr = s_two.next_addr ∧
      j.ldj = with_defaults
        (.dictionary [("Label", .string "z"), ("ProgramArguments", .array [])]) ∧
      (∀ x ∈ s_two.jobs, x.addr ≠ j.addr) ∧
      (load_job or0 (.dictionary [("Label", .string "z"), ("ProgramArguments", .array [])])
        s_two).2.2.jobs = s_two.jobs ++ [j]) :=
  ⟨Reachable_s_two,
   (load_job_creates or0 (.dictionary [("Label", .string "y")]) s_two Reachable_s_two).1 (by
      intro h
      have h2 : (load_job or0 (.dictionary [("Label", .string "y")]) s_two).1
          = .string "JobExists" := rfl
      rw [h2] at h
      simp [LAUNCH_RESPONSE_SUCCESS] at h),
   (load_job_creates or0 (.dictionary [("Label", .string "z"), ("ProgramArguments", .array [])])
      s_two Reachable_s_two).2 rfl⟩

/-- C10. `job_reap`, for every wait status: `failed_exits` is incremented by exactly one
when the child exited normally with a non-zero code or was terminated by a signal other
than SIGKILL and SIGTERM, and is set to 0 otherwise; in every case the pid of the job
becomes 0, its connection back-pointer NULL and its checked-in latch false; its address,
descriptor and start time stay, and no other record of the table, no connection, and
neither the helper pointer nor the batch flag is changed. -/
theorem job_reap_spec (or : Oracle) (j : jobcb) (s : State) :
    ((job_reap or j s).1.failed_exits =
      if (WIFEXITED or.status = true ∧ WEXITSTATUS or.status ≠ 0) ∨
         (WIFSIGNALED or.status = true ∧ WTERMSIG or.status ≠ SIGKILL ∧
            WTERMSIG or.status ≠ SIGTERM)
      then j.failed_exits + 1 else 0) ∧
    (job_reap or j s).1.p = 0 ∧ (job_reap or j s).1.c = none ∧
    (job_reap or j s).1.checkedin = false ∧
    (job_reap or j s).1.addr = j.addr ∧ (job_reap or j s).1.ldj = j.ldj ∧
    (job_reap or j s).1.start_time = j.start_time ∧
    (job_reap or j s).2.jobs =
      s.jobs.map (fun x => if x.addr = j.addr then (job_reap or j s).1 else x) ∧
    (job_reap or j s).2.connections = s.connections ∧
    (job_reap or j s).2.helperd = s.helperd ∧
    (job_reap or j s).2.batch_enabled = s.batch_enabled := by
  refine ⟨?_, ?_, ?_, ?_, ?_, ?_, ?_, ?_, ?_, ?_, ?_⟩
  · rw [job_reap_fst]
    simp only [← bad_exit_iff]
  · rw [job_reap_fst]
  · rw [job_reap_fst]
  · rw [job_reap_fst]
  · rw [job_reap_fst]
  · rw [job_reap_fst]
  · rw [job_reap_fst]
  · rw [job_reap_snd]; simp only [set_job]; split <;> simp [job_reap_fst]
  · rw [job_reap_snd]; simp only [set_job]; split <;> simp
  · rw [job_reap_snd]; simp only [set_job]; split <;> simp
  · rw [job_reap_snd]; simp only [set_job]; split <;> simp

/-- C3. SUBMIT_JOB(d) followed by GET_JOB(label(d)): on a reachable state, when the
request `dict{SUBMIT_JOB: d}` is answered SUCCESS, then after any number of further turns
of the event loop that leave the record of the job in the table, the request
`dict{GET_JOB: label}` with the label of `d` is answered with `d` with the defaults filled
in and every descriptor leaf revoked: under every key the answer holds the value of `d`
(for `ServiceIPC` and `OnDemand`: the value of `d` where `d` sets the key, `true` where it
does not) with its descriptor leaves replaced by `-1`. -/
theorem submit_then_get_job (os os2 : Nat → Oracle) (c c2 : conncb) (d label : launch_data)
    (s t : State) (hr : Reachable s)
    (hl : launch_data_dict_lookup d LAUNCH_JOBKEY_LABEL = some label)
    (hsub : (ipc_readmsg os (msg_submit d) c s).1 = .string LAUNCH_RESPONSE_SUCCESS)
    (hsteps : Steps (ipc_readmsg os (msg_submit d) c s).2 t)
    (hstill : ∃ j ∈ t.jobs, j.addr = s.next_addr) :
    (ipc_readmsg os2 (msg_getjob label) c2 t).1 = launch_data_revoke_fds (with_defaults d) ∧
    (∀ k, launch_data_dict_lookup (ipc_readmsg os2 (msg_getjob label) c2 t).1 k =
      (if k = LAUNCH_JOBKEY_SERVICEIPC then
          some ((launch_data_dict_lookup d LAUNCH_JOBKEY_SERVICEIPC).getD (.bool true))
        else if k = LAUNCH_JOBKEY_ONDEMAND then
          some ((launch_data_dict_lookup d LAUNCH_JOBKEY_ONDEMAND).getD (.bool true))
        else launch_data_dict_lookup d k).map launch_data_revoke_fds) := by
  have hi := Inv_of_Reachable hr
  obtain ⟨kv, hkv⟩ := dictionary_of_lookup hl
  have hd : ∀ xs, d ≠ .array xs := by intro xs h; rw [hkv] at h; cases h
  have hcmd := ipc_readmsg_cmd_submit os d c s hd
  -- the submit was accepted
  have hresp : (load_job (os 0) d s).1 = .string LAUNCH_RESPONSE_SUCCESS := by
    rw [← hcmd.1, ← ipc_readmsg_fst]; exact hsub
  rcases load_job_cases (os 0) d s with ⟨_, _, hne⟩ | ⟨label2, hl2, hn, hpa⟩
  · exact absurd hresp hne
  have hlab : label2 = label := by rw [hl] at hl2; exact (Option.some.inj hl2).symm
  subst hlab
  obtain ⟨⟨j, ha, hld, hj⟩, hlt⟩ := load_job_accepted_jobs (os 0) d label2 hi hl2 hn hpa
  -- the state after the submit
  have hi1 : Inv (ipc_readmsg os (msg_submit d) c s).2 := Inv_ipc_readmsg os _ c hi
  have hjobs1 : (ipc_readmsg os (msg_submit d) c s).2.jobs = s.jobs ++ [j] := by
    rw [ipc_readmsg_jobs]
    show (ipc_readmsg_cmd os (.dictionary [(LAUNCH_KEY_SUBMITJOB, d)]) c s).s.jobs = _
    rw [hcmd.2, hj]
  have hjmem : j ∈ (ipc_readmsg os (msg_submit d) c s).2.jobs := by
    rw [hjobs1]; simp
  -- the record is still the same after the further turns
  obtain ⟨y, hy, hya⟩ := hstill
  have hyl : y.ldj = j.ldj := ldj_stable hsteps hi1 hjmem hy (hya.trans ha.symm)
  have hit : Inv t := Inv_steps hsteps hi1
  have hylab : job_label y = some (launch_data_get_string label2) := by
    simp [job_label, job_get_string, hyl, hld, with_defaults_label, hl]
  have hget : (ipc_readmsg os2 (msg_getjob label2) c2 t).1
      = launch_data_revoke_fds (with_defaults d) := by
    rw [ipc_readmsg_fst]
    show (ipc_readmsg_cmd os2 (.dictionary [(LAUNCH_KEY_GETJOB, label2)]) c2 t).resp = _
    rw [ipc_readmsg_cmd_getjob, get_jobs_some hit hy hylab, hyl, hld]
  refine ⟨hget, ?_⟩
  intro k
  rw [hget, lookup_revoke, hkv, with_defaults_lookup]

theorem submit_then_get_job_witness :
    Reachable s_conn ∧
    launch_data_dict_lookup dy LAUNCH_JOBKEY_LABEL = some (.string "y") ∧
    (ipc_readmsg (oss0 0) (msg_submit dy) conn0 s_conn).1 = .string "Success" ∧
    (∃ j ∈ (ipc_readmsg (oss0 0) (msg_submit dy) conn0 s_conn).2.jobs,
      j.addr = s_conn.next_addr) ∧
    (ipc_readmsg (oss0 1) (msg_getjob (.string "y")) conn0
        (ipc_readmsg (oss0 0) (msg_submit dy) conn0 s_conn).2).1
      = .dictionary [("Label", .string "y"), ("ProgramArguments", .array [.string "/bin/cat"]),
          ("Sockets", .dictionary [("Listener", .array [.fd (-1)])]),
          ("OnDemand", .bool true), ("ServiceIPC", .bool true)] :=
  ⟨Reachable_s_conn, rfl, rfl,
   ⟨(ipc_readmsg (oss0 0) (msg_submit dy) conn0 s_conn).2.jobs.getLast (by
        intro h; exact absurd (congrArg List.length h) (by decide)),
      List.getLast_mem _, rfl⟩,
   (submit_then_get_job (oss0 0) (oss0 1) conn0 conn0 dy (.string "y") s_conn _
      Reachable_s_conn rfl rfl (Steps.refl _)
      ⟨(ipc_readmsg (oss0 0) (msg_submit dy) conn0 s_conn).2.jobs.getLast (by
        intro h; exact absurd (congrArg List.length h) (by decide)),
      List.getLast_mem _, rfl⟩).1⟩

/-- C5. On a reachable state the response to GET_JOBS is the dictionary that holds,
under the label of every record of the job table and in table order, the descriptor of
the record with its descriptor leaves revoked, and the response to GET_JOB(label) is the
descriptor, revoked, of the record with that label.  Revoking replaces every descriptor
leaf by `-1` at any depth of dictionaries and arrays and keeps every other leaf.  The job
table, descriptors included, is the same after the request. -/
theorem get_jobs_snapshot (os : Nat → Oracle) (c : conncb) (s : State) (hr : Reachable s) :
    (ipc_readmsg os (.string LAUNCH_KEY_GETJOBS) c s).1 =
      .dictionary (s.jobs.map (fun j =>
        ((job_label j).getD "", launch_data_revoke_fds j.ldj))) ∧
    (∀ j ∈ s.jobs, ∃ w, job_label j = some w) ∧
    (∀ j ∈ s.jobs, ∀ w, job_label j = some w →
      (ipc_readmsg os (msg_getjob (.string w)) c s).1 = launch_data_revoke_fds j.ldj) ∧
    (∀ (o : launch_data), ∀ n ∈ launch_data_fds (launch_data_revoke_fds o), n = -1) ∧
    (∀ kv, launch_data_revoke_fds (.dictionary kv)
      = .dictionary (kv.map (fun p => (p.1, launch_data_revoke_fds p.2)))) ∧
    (∀ xs, launch_data_revoke_fds (.array xs) = .array (xs.map launch_data_revoke_fds)) ∧
    (∀ n, launch_data_revoke_fds (.fd n) = .fd (-1)) ∧
    (∀ n, launch_data_revoke_fds (.integer n) = .integer n) ∧
    (∀ b, launch_data_revoke_fds (.bool b) = .bool b) ∧
    (∀ x, launch_data_revoke_fds (.string x) = .string x) ∧
    (∀ l, launch_data_revoke_fds (.opaq l) = .opaq l) ∧
    (ipc_readmsg os (.string LAUNCH_KEY_GETJOBS) c s).2.jobs = s.jobs ∧
    (∀ w, (ipc_readmsg os (msg_getjob w) c s).2.jobs = s.jobs) := by
  have hi := Inv_of_Reachable hr
  refine ⟨?_, ?_, ?_, revoke_fds_leaves, ?_, ?_, ?_, ?_, ?_, ?_, ?_, ?_, ?_⟩
  · rw [ipc_readmsg_fst, ipc_readmsg_cmd_getjobs, get_jobs_none hi]
    simp [launch_data_revoke_fds, revoke_fds_dict_eq_map, Function.comp_def]
  · intro j hj
    exact Option.isSome_iff_exists.1 (hi.has_label j hj)
  · intro j hj w hw
    rw [ipc_readmsg_fst]
    show (ipc_readmsg_cmd os (.dictionary [(LAUNCH_KEY_GETJOB, .string w)]) c s).resp = _
    rw [ipc_readmsg_cmd_getjob]
    show launch_data_revoke_fds (get_jobs (some w) s) = _
    rw [get_jobs_some hi hj hw]
  · intro kv; rw [launch_data_revoke_fds, revoke_fds_dict_eq_map]
  · intro xs; rw [launch_data_revoke_fds, revoke_fds_array_eq_map]
  · intro n; simp [launch_data_revoke_fds]
  · intro n; simp [launch_data_revoke_fds]
  · intro n; simp [launch_data_revoke_fds]
  · intro n; simp [launch_data_revoke_fds]
  · intro n; simp [launch_data_revoke_fds]
  · rw [ipc_readmsg_jobs, ipc_readmsg_cmd_getjobs]
  · intro w
    rw [ipc_readmsg_jobs]
    show (ipc_readmsg_cmd os (.dictionary [(LAUNCH_KEY_GETJOB, w)]) c s).s.jobs = _
    rw [ipc_readmsg_cmd_getjob]

theorem get_jobs_snapshot_witness :
    Reachable s_two ∧
    (ipc_readmsg (oss0 2) (.string "GetJobs") conn0 s_two).1 =
      .dictionary
        [("x", .dictionary [("Label", .string "x"),
            ("ProgramArguments", .array [.string "/bin/true"]), ("OnDemand", .bool false),
            ("ServiceIPC", .bool true)]),
         ("y", .dictionary [("Label", .string "y"),
            ("ProgramArguments", .array [.string "/bin/cat"]),
            ("Sockets", .dictionary [("Listener", .array [.fd (-1)])]),
            ("OnDemand", .bool true), ("ServiceIPC", .bool true)])] ∧
    (ipc_readmsg (oss0 2) (.string "GetJobs") conn0 s_two).2.jobs = s_two.jobs :=
  ⟨Reachable_s_two,
   (get_jobs_snapshot (oss0 2) conn0 s_two Reachable_s_two).1.trans
     (congrArg launch_data.dictionary (by rfl)),
   (get_jobs_snapshot (oss0 2) conn0 s_two Reachable_s_two).2.2.2.2.2.2.2.2.2.2.2.1⟩

/-- C6. Service-IPC contract breach.  For every job of the table whose descriptor has
`ServiceIPC` true and whose checked-in latch is not set, the process-exit event removes
the job and creates no child, whatever the wait status, the `OnDemand` flag and
`failed_exits`: `job_callback` is `job_remove`, the table afterwards is the old table
without the record, and the number of children created is the same.  A descriptor
submitted without the key `ServiceIPC` has `ServiceIPC` true in its record. -/
theorem service_ipc_breach (or : Oracle) (a : Nat) (s : State) (j : jobcb)
    (hj : find_job s a = some j)
    (hs : job_get_bool j.ldj LAUNCH_JOBKEY_SERVICEIPC = true) (hc : j.checkedin = false) :
    job_callback or a .PROC s = job_remove or j s ∧
    (job_callback or a .PROC s).jobs = s.jobs.filter (fun x => !(x.addr == a)) ∧
    find_job (job_callback or a .PROC s) a = none ∧
    spawned (job_callback or a .PROC s) = spawned s ∧
    (∀ kv, launch_data_dict_lookup (.dictionary kv) LAUNCH_JOBKEY_SERVICEIPC = none →
      job_get_bool (with_defaults (.dictionary kv)) LAUNCH_JOBKEY_SERVICEIPC = true) := by
  have ha := find_job_addr hj
  have h := job_callback_proc_removed or a s j hj hs hc
  refine ⟨h, ?_, ?_, ?_, ?_⟩
  · rw [h, job_remove_jobs, ha]
  · rw [h, ← ha]; exact find_job_job_remove or j s
  · rw [h]; exact spawned_job_remove or j s
  · intro kv hkv
    simp [job_get_bool, with_defaults_lookup, hkv, launch_data_get_bool]

theorem service_ipc_breach_witness :
    find_job s_run 2 = some j_x ∧
    job_get_bool j_x.ldj LAUNCH_JOBKEY_SERVICEIPC = true ∧
    (job_callback (or_exit 0) 2 .PROC s_run).jobs = s_run.jobs.filter (fun x => !(x.addr == 2)) ∧
    find_job (job_callback (or_exit 0) 2 .PROC s_run) 2 = none :=
  ⟨rfl, rfl, (service_ipc_breach (or_exit 0) 2 s_run j_x rfl rfl rfl).2.1,
    (service_ipc_breach (or_exit 0) 2 s_run j_x rfl rfl rfl).2.2.1⟩

/-- C13. Starting an already-running job is a no-op.  For every record `j` with a non-zero
pid `job_start` returns the state as it is.  START_JOB with a label under which the table
holds such a record answers SUCCESS, and the command changes nothing at all; after the
response was handed to the client the job table (every field of every record) is the
same, no child was created, and the connection list is the same unless sending the
response failed. -/
theorem job_start_running_noop (or : Oracle) (j : jobcb) (s : State) (hp : j.p ≠ 0) :
    job_start or j s = s ∧
    ∀ (os : Nat → Oracle) (msg label : launch_data) (c : conncb),
      launch_data_dict_lookup msg LAUNCH_KEY_STARTJOB = some label →
      s.jobs.find? (fun x => streq (job_get_string x.ldj LAUNCH_JOBKEY_LABEL)
        (launch_data_get_string label)) = some j →
      (ipc_readmsg_cmd os msg c s).s = s ∧
      (ipc_readmsg os msg c s).1 = .string LAUNCH_RESPONSE_SUCCESS ∧
      (ipc_readmsg os msg c s).2.jobs = s.jobs ∧
      spawned (ipc_readmsg os msg c s).2 = spawned s ∧
      ((os 0).send_result ≠ .error → (ipc_readmsg os msg c s).2.connections = s.connections) := by
  have h0 := job_start_running or j s hp
  refine ⟨h0, ?_⟩
  intro os msg label c hl hf
  have hcmd : ipc_readmsg_cmd os msg c s = ⟨.string LAUNCH_RESPONSE_SUCCESS, msg, true, s⟩ := by
    simp only [ipc_readmsg_cmd, hl, hf]
    rw [job_start_running (os 0) j s hp]
  refine ⟨by rw [hcmd], by rw [ipc_readmsg_fst, hcmd], by rw [ipc_readmsg_jobs, hcmd], ?_, ?_⟩
  · unfold ipc_readmsg
    simp only [hcmd, spawned]
    split
    · rfl
    · simp only [if_true]
      split
      · simp [is_fork]
      · rw [forks_kevent_mod _ _ _ _ _ _ _ (by decide)]
        simp [is_fork]
      · rw [forks_ipc_close]
        simp [is_fork]
  · intro hs
    unfold ipc_readmsg
    simp only [hcmd]
    split
    · rfl
    · simp only [if_true]
      split
      · rfl
      · simp
      · rename_i h; exact absurd h hs

theorem job_start_running_noop_witness :
    j_x.p ≠ 0 ∧ job_start or0 j_x s_run = s_run ∧
    (ipc_readmsg (oss0 0) (.dictionary [(LAUNCH_KEY_STARTJOB, .string "x")]) conn0 s_run).1
      = .string "Success" ∧
    (ipc_readmsg (oss0 0) (.dictionary [(LAUNCH_KEY_STARTJOB, .string "x")]) conn0 s_run).2.jobs
      = s_run.jobs :=
  ⟨by decide, (job_start_running_noop or0 j_x s_run (by decide)).1,
    ((job_start_running_noop or0 j_x s_run (by decide)).2 (oss0 0)
      (.dictionary [(LAUNCH_KEY_STARTJOB, .string "x")]) (.string "x") conn0 rfl rfl).2.1,
    ((job_start_running_noop or0 j_x s_run (by decide)).2 (oss0 0)
      (.dictionary [(LAUNCH_KEY_STARTJOB, .string "x")]) (.string "x") conn0 rfl rfl).2.2.1⟩

/-- C12. `failed_exits` is a natural number: it is never negative.  On every path of
`job_start` for a record of the table that is not running (the fork fails, the exit of
the child cannot be registered, the child is created), the record afterwards has the
clock as start time, and its `failed_exits` is 0 when `timersub` of the new and the
previous start time has at least 10 = LAUNCHD_MIN_JOB_RUN_TIME seconds, and is unchanged
otherwise.  For normalised clock values that is: at least 10 whole seconds lie between
the two start times. -/
theorem job_start_failed_exits (or : Oracle) (j : jobcb) (s : State) (hp : j.p = 0)
    (hj : (find_job s j.addr).isSome) :
    (∃ j' : jobcb, find_job (job_start or j s) j.addr = some j' ∧ j'.start_time = or.now ∧
      0 ≤ j'.failed_exits ∧
      j'.failed_exits =
        (if (timersub or.now j.start_time).tv_sec ≥ LAUNCHD_MIN_JOB_RUN_TIME then 0
         else j.failed_exits)) ∧
    (0 ≤ or.now.tv_usec → or.now.tv_usec < 1000000 →
      0 ≤ j.start_time.tv_usec → j.start_time.tv_usec < 1000000 →
      ((timersub or.now j.start_time).tv_sec ≥ LAUNCHD_MIN_JOB_RUN_TIME ↔
        (or.now.tv_sec * 1000000 + or.now.tv_usec)
          - (j.start_time.tv_sec * 1000000 + j.start_time.tv_usec) ≥ 10 * 1000000)) := by
  refine ⟨?_, timersub_sec _ _⟩
  obtain ⟨j', ha, hst, hfe, hjobs⟩ := job_start_record or j s hp
  refine ⟨j', ?_, hst, Nat.zero_le _, hfe⟩
  rw [find_job_congr hjobs, ← ha]
  exact find_job_set_job j' s (by rw [ha]; exact hj)

theorem job_start_failed_exits_witness :
    j_idle.p = 0 ∧ (find_job s_idle j_idle.addr).isSome = true ∧
    ∃ j' : jobcb, find_job (job_start or0 j_idle s_idle) j_idle.addr = some j' ∧
      j'.start_time = or0.now ∧ 0 ≤ j'.failed_exits ∧
      j'.failed_exits =
        (if (timersub or0.now j_idle.start_time).tv_sec ≥ LAUNCHD_MIN_JOB_RUN_TIME then 0
         else j_idle.failed_exits) :=
  ⟨rfl, rfl, (job_start_failed_exits or0 j_idle s_idle rfl rfl).1⟩

/-- C7, as the code has it.  Scenario S1, first half: on a reachable state, a descriptor
`{Label, ProgramArguments, OnDemand: false}` with a new label is answered SUCCESS, and
when `fork` and the registration of the exit succeed the new record has the child as its
pid, `failed_exits` 0 and no check-in.  The record has `ServiceIPC` true by default.  So
when the child of such a record exits with status 0: if the child has checked in, and the
job is not the helper daemon with batch disabled, `failed_exits` is 0, the job stays in
the table and a new child is created; if the child has not checked in, the job is removed
and no child is created. -/
theorem submit_then_exit_zero (or or2 : Oracle) (s t : State) (l : String) (pa : launch_data)
    (a : Nat) (j : jobcb) (hr : Reachable s)
    (hn : ¬ ∃ x ∈ s.jobs, job_label x = some l)
    (hf1 : or.fork_result ≠ -1) (hf0 : or.fork_result ≠ 0) (hk : or.kevent_result ≠ -1)
    (hj : find_job t a = some j) (hd : j.ldj = with_defaults (d_s1 l pa))
    (hst : or2.status = 0)
    (hh : ¬ (t.helperd = some a ∧ t.batch_enabled = false))
    (hg1 : or2.fork_result ≠ -1) (hg0 : or2.fork_result ≠ 0) (hk2 : or2.kevent_result ≠ -1) :
    (load_job or (d_s1 l pa) s).1 = .string LAUNCH_RESPONSE_SUCCESS ∧
    (∃ x ∈ (load_job or (d_s1 l pa) s).2.2.jobs, x.addr = s.next_addr ∧
      x.ldj = with_defaults (d_s1 l pa) ∧ x.p = or.fork_result ∧ x.p ≠ 0 ∧
      x.failed_exits = 0 ∧ x.checkedin = false) ∧
    job_get_bool (with_defaults (d_s1 l pa)) LAUNCH_JOBKEY_SERVICEIPC = true ∧
    (j.checkedin = true →
      (∃ j' : jobcb, find_job (job_callback or2 a .PROC t) a = some j' ∧
        j'.failed_exits = 0 ∧ j'.p = or2.fork_result) ∧
      spawned (job_callback or2 a .PROC t) = spawned t + 1) ∧
    (j.checkedin = false →
      find_job (job_callback or2 a .PROC t) a = none ∧
      spawned (job_callback or2 a .PROC t) = spawned t) := by
  have hi := Inv_of_Reachable hr
  have hl : launch_data_dict_lookup (d_s1 l pa) LAUNCH_JOBKEY_LABEL = some (.string l) := by
    simp [d_s1, launch_data_dict_lookup, dict_find]
  have hpa : launch_data_dict_lookup (d_s1 l pa) LAUNCH_JOBKEY_PROGRAMARGUMENTS ≠ none := by
    simp [d_s1, launch_data_dict_lookup, dict_find, LAUNCH_JOBKEY_LABEL,
      LAUNCH_JOBKEY_PROGRAMARGUMENTS]
  have hod : job_get_bool (with_defaults (d_s1 l pa)) LAUNCH_JOBKEY_ONDEMAND = false := by
    rw [with_defaults_d_s1]
    simp [job_get_bool, launch_data_dict_lookup, dict_find, launch_data_get_bool,
      LAUNCH_JOBKEY_LABEL, LAUNCH_JOBKEY_PROGRAMARGUMENTS, LAUNCH_JOBKEY_ONDEMAND]
  have hsi : job_get_bool (with_defaults (d_s1 l pa)) LAUNCH_JOBKEY_SERVICEIPC = true := by
    rw [with_defaults_d_s1]
    simp [job_get_bool, launch_data_dict_lookup, dict_find, launch_data_get_bool,
      LAUNCH_JOBKEY_LABEL, LAUNCH_JOBKEY_PROGRAMARGUMENTS, LAUNCH_JOBKEY_ONDEMAND,
      LAUNCH_JOBKEY_SERVICEIPC]
  have hn' : ¬ ∃ x ∈ s.jobs, job_label x = some (launch_data_get_string (.string l)) := hn
  have ha := find_job_addr hj
  refine ⟨?_, ?_, hsi, ?_, ?_⟩
  · rw [load_job_of_accepts or _ _ s hl hn' hpa]
  · rw [load_job_started or _ _ hi hl hn' hpa hod hf1 hf0 hk]
    exact ⟨_, List.mem_append_right _ (List.mem_singleton_self _), rfl, rfl, rfl, hf0, rfl, rfl⟩
  · intro hc
    have hpol : ¬ (job_get_bool j.ldj LAUNCH_JOBKEY_SERVICEIPC = true ∧ j.checkedin = false) := by
      simp [hc]
    have hfe : (job_reap or2 j t).1.failed_exits = 0 := by
      rw [job_reap_fst, hst]; simp [bad_exit_zero]
    have hrest := job_callback_proc_rest or2 a t j hj hpol
    rw [if_neg (by rw [hfe]; simp [LAUNCHD_FAILED_EXITS_THRESHOLD]),
      if_neg (by rw [hd, hod]; simp), if_neg hh] at hrest
    have hp0 : (job_reap or2 j t).1.p = 0 := by rw [job_reap_fst]
    have hra : (job_reap or2 j t).1.addr = a := by rw [job_reap_addr, ha]
    have hfr := find_job_job_reap or2 a j t hj
    have hfind := job_start_ok_find or2 (job_reap or2 j t).1 (job_reap or2 j t).2 hp0
      (by rw [hra, hfr]; rfl) hg1 hg0 hk2
    rw [hra] at hfind
    refine ⟨⟨_, by rw [hrest]; exact hfind, ?_, rfl⟩, ?_⟩
    · simp [hfe]
    · rw [hrest]
      simp only [spawned, forks_job_start, forks_job_reap, hp0, hg1, hg0, ne_eq,
        not_false_eq_true, and_self, if_true, List.length_append, List.length_singleton]
  · intro hc
    have hsj : job_get_bool j.ldj LAUNCH_JOBKEY_SERVICEIPC = true := by rw [hd]; exact hsi
    have h := job_callback_proc_removed or2 a t j hj hsj hc
    rw [h]
    exact ⟨by rw [← ha]; exact find_job_job_remove or2 j t, spawned_job_remove or2 j t⟩

theorem submit_then_exit_zero_witness :
    Reachable s0 ∧ find_job s_checked 2 = some j_xc ∧ j_xc.checkedin = true ∧
    (load_job or0 (d_s1 "x" (.array [.string "/bin/true"])) s0).1 = .string "Success" ∧
    (∃ j' : jobcb, find_job (job_callback (or_exit 0) 2 .PROC s_checked) 2 = some j' ∧
        j'.failed_exits = 0 ∧ j'.p = 43) ∧
    spawned (job_callback (or_exit 0) 2 .PROC s_checked) = spawned s_checked + 1 :=
  ⟨⟨100, false, [], 18, Steps.refl _⟩, rfl, rfl,
    (submit_then_exit_zero or0 (or_exit 0) s0 s_checked "x" (.array [.string "/bin/true"]) 2 j_xc
      ⟨100, false, [], 18, Steps.refl _⟩ (by rintro ⟨x, hx, -⟩; cases hx) (by decide) (by decide)
      (by decide) rfl rfl rfl (by decide) (by decide) (by decide) (by decide)).1,
    ((submit_then_exit_zero or0 (or_exit 0) s0 s_checked "x" (.array [.string "/bin/true"]) 2 j_xc
      ⟨100, false, [], 18, Steps.refl _⟩ (by rintro ⟨x, hx, -⟩; cases hx) (by decide) (by decide)
      (by decide) rfl rfl rfl (by decide) (by decide) (by decide) (by decide)).2.2.2.1 rfl).1,
    ((submit_then_exit_zero or0 (or_exit 0) s0 s_checked "x" (.array [.string "/bin/true"]) 2 j_xc
      ⟨100, false, [], 18, Steps.refl _⟩ (by rintro ⟨x, hx, -⟩; cases hx) (by decide) (by decide)
      (by decide) rfl rfl rfl (by decide) (by decide) (by decide) (by decide)).2.2.2.1 rfl).2⟩

/-- C7, the claim as stated fails: the descriptor `dx` of scenario S1 is submitted to the
start state and answered SUCCESS, the job has the live child 42; the child exits with
status 0 without having checked in, and afterwards the table is empty and no child has
been created. -/
theorem submit_exit_zero_removed :
    (load_job or0 dx s0).1 = .string LAUNCH_RESPONSE_SUCCESS ∧
    (load_job or0 dx s0).2.2.jobs.map (fun j => (j.addr, j.p, j.failed_exits, j.checkedin))
      = [(1, 42, 0, false)] ∧
    (or_exit 0).status = 0 ∧
    (job_callback (or_exit 0) 1 .PROC (load_job or0 dx s0).2.2).jobs = [] ∧
    spawned (job_callback (or_exit 0) 1 .PROC (load_job or0 dx s0).2.2)
      = spawned (load_job or0 dx s0).2.2 := by
  have hj : find_job (load_job or0 dx s0).2.2 1 = some
      { addr := 1, ldj := with_defaults dx, p := 42, start_time := or0.now, failed_exits := 0,
        c := some 2, checkedin := false } := by rfl
  have h := job_callback_proc_removed (or_exit 0) 1 _ _ hj rfl rfl
  refine ⟨rfl, by rfl, rfl, ?_, ?_⟩
  · rw [h, job_remove_jobs]; rfl
  · rw [h]; exact spawned_job_remove _ _ _

/-- C11, checked on a reachable state: a client submits `dx` (service IPC by default)
while the kernel refuses event registrations.  `job_start` has created the child and
opened the trusted connection, then returns because the exit of the child cannot be
registered: the record of the job has pid 0 and a connection back-pointer that is not
NULL. -/
theorem kevent_failure_keeps_connection :
    Reachable s_kfail ∧
    s_kfail.jobs.map (fun j => (j.addr, j.p, j.c)) = [(2, 0, some 3)] := by
  refine ⟨?_, by decide⟩
  obtain ⟨pid, reap, env, mask, h⟩ := Reachable_s_conn
  exact ⟨pid, reap, env, mask, Steps.tail _ _ _ h
    (Step.ipc (fun _ _ => or_kfail) conn0 .READ [msg_submit dx] false 0 false s_conn rfl
      (by decide))⟩

/-- C14. REMOVE_JOB(label) on a reachable state.  When a record of the table carries the
label the answer is SUCCESS; afterwards no record carries the label, the table is the old
table without that record (the other records unchanged, in their order), and the helper
pointer is NULL when the label is the helper label and unchanged otherwise.  When no
record carries the label the answer is JOBNOTFOUND, the command changes nothing, and the
table and the helper pointer are the same after the response. -/
theorem remove_job_spec (os : Nat → Oracle) (label : launch_data) (c : conncb) (s : State)
    (hr : Reachable s) :
    ((∃ j ∈ s.jobs, job_label j = some (launch_data_get_string label)) →
      (ipc_readmsg os (.dictionary [(LAUNCH_KEY_REMOVEJOB, label)]) c s).1
        = .string LAUNCH_RESPONSE_SUCCESS ∧
      (∀ x ∈ (ipc_readmsg os (.dictionary [(LAUNCH_KEY_REMOVEJOB, label)]) c s).2.jobs,
        job_label x ≠ some (launch_data_get_string label)) ∧
      (ipc_readmsg os (.dictionary [(LAUNCH_KEY_REMOVEJOB, label)]) c s).2.jobs
        = s.jobs.filter (fun x => decide (job_label x ≠ some (launch_data_get_string label))) ∧
      (launch_data_get_string label = HELPERD →
        (ipc_readmsg os (.dictionary [(LAUNCH_KEY_REMOVEJOB, label)]) c s).2.helperd = none) ∧
      (launch_data_get_string label ≠ HELPERD →
        (ipc_readmsg os (.dictionary [(LAUNCH_KEY_REMOVEJOB, label)]) c s).2.helperd
          = s.helperd)) ∧
    ((¬ ∃ j ∈ s.jobs, job_label j = some (launch_data_get_string label)) →
      (ipc_readmsg os (.dictionary [(LAUNCH_KEY_REMOVEJOB, label)]) c s).1
        = .string LAUNCH_RESPONSE_JOBNOTFOUND ∧
      (ipc_readmsg_cmd os (.dictionary [(LAUNCH_KEY_REMOVEJOB, label)]) c s).s = s ∧
      (ipc_readmsg os (.dictionary [(LAUNCH_KEY_REMOVEJOB, label)]) c s).2.jobs = s.jobs ∧
      (ipc_readmsg os (.dictionary [(LAUNCH_KEY_REMOVEJOB, label)]) c s).2.helperd
        = s.helperd) := by
  have hi := Inv_of_Reachable hr
  constructor
  · rintro ⟨j0, hj0, hl0⟩
    cases hf : s.jobs.find? (fun j => streq (job_get_string j.ldj LAUNCH_JOBKEY_LABEL)
        (launch_data_get_string label)) with
    | none =>
      rw [List.find?_eq_none] at hf
      exact absurd ((streq_label j0 _).2 hl0) (by simpa using hf j0 hj0)
    | some j =>
      have hj : j ∈ s.jobs := List.mem_of_find?_eq_some hf
      have hl : job_label j = some (launch_data_get_string label) :=
        (streq_label j _).1 (by have h := List.find?_some hf; exact h)
      have hcmd := ipc_readmsg_cmd_removejob os label c s j hf
      have hjobs : (ipc_readmsg os (.dictionary [(LAUNCH_KEY_REMOVEJOB, label)]) c s).2.jobs
          = s.jobs.filter (fun x => decide (job_label x ≠ some (launch_data_get_string label))) := by
        rw [ipc_readmsg_jobs, hcmd]
        simp only [notify_helperd_jobs, job_remove_jobs]
        rw [← filter_addr_eq_filter_label hi hj hl]
        split <;> rfl
      refine ⟨by rw [ipc_readmsg_fst, hcmd], ?_, hjobs, ?_, ?_⟩
      · intro x hx
        rw [hjobs] at hx
        simpa using (List.mem_filter.1 hx).2
      · intro hh
        rw [ipc_readmsg_helperd, hcmd]
        simp [notify_helperd_helperd, job_remove_helperd, hh]
      · intro hh
        rw [ipc_readmsg_helperd, hcmd]
        simp [notify_helperd_helperd, job_remove_helperd, hh]
  · intro hn
    have hf : s.jobs.find? (fun j => streq (job_get_string j.ldj LAUNCH_JOBKEY_LABEL)
        (launch_data_get_string label)) = none := by
      rw [List.find?_eq_none]
      intro x hx hs
      exact hn ⟨x, hx, (streq_label x _).1 hs⟩
    have hcmd := ipc_readmsg_cmd_removejob_none os label c s hf
    exact ⟨by rw [ipc_readmsg_fst, hcmd], by rw [hcmd], by rw [ipc_readmsg_jobs, hcmd],
      by rw [ipc_readmsg_helperd, hcmd]⟩

theorem remove_job_spec_witness :
    Reachable s_two ∧
    (ipc_readmsg (oss0 3) (.dictionary [(LAUNCH_KEY_REMOVEJOB, .string "y")]) conn0 s_two).1
      = .string "Success" ∧
    (∀ x ∈ (ipc_readmsg (oss0 3) (.dictionary [(LAUNCH_KEY_REMOVEJOB, .string "y")]) conn0
        s_two).2.jobs, job_label x ≠ some "y") ∧
    (ipc_readmsg (oss0 3) (.dictionary [(LAUNCH_KEY_REMOVEJOB, .string "z")]) conn0 s_two).1
      = .string "JobNotFound" :=
  ⟨Reachable_s_two,
   ((remove_job_spec (oss0 3) (.string "y") conn0 s_two Reachable_s_two).1
      (List.mem_map.1 (show some "y" ∈ labels s_two by decide))).1,
   ((remove_job_spec (oss0 3) (.string "y") conn0 s_two Reachable_s_two).1
      (List.mem_map.1 (show some "y" ∈ labels s_two by decide))).2.1,
   ((remove_job_spec (oss0 3) (.string "z") conn0 s_two Reachable_s_two).2 (by
      rintro ⟨j, hj, hl⟩
      have : job_label j ∈ labels s_two := List.mem_map_of_mem _ hj
      rw [hl] at this
      revert this
      decide)).1⟩

/-- C15. CHECK_IN on a table with pairwise distinct addresses (as every reachable table
is).  On a connection whose job pointer is the address of a record of the table, the
response is the descriptor of that record as it is, descriptor leaves included, and the
table afterwards is the old table with the checked-in latch of that record set and every
other field of every record unchanged.  On a connection without job the response is
NOTRUNNINGFROMLAUNCHD and the table is unchanged. -/
theorem check_in_spec (os : Nat → Oracle) (c : conncb) (s : State) (hi : Inv s) :
    (∀ a j, c.j = some a → find_job s a = some j →
      (ipc_readmsg os (.string LAUNCH_KEY_CHECKIN) c s).1 = j.ldj ∧
      (ipc_readmsg os (.string LAUNCH_KEY_CHECKIN) c s).2.jobs
        = s.jobs.map (fun x => if x.addr = a then { x with checkedin := true } else x) ∧
      find_job (ipc_readmsg os (.string LAUNCH_KEY_CHECKIN) c s).2 a
        = some { j with checkedin := true }) ∧
    (c.j = none →
      (ipc_readmsg os (.string LAUNCH_KEY_CHECKIN) c s).1
        = .string LAUNCH_RESPONSE_NOTRUNNINGFROMLAUNCHD ∧
      (ipc_readmsg os (.string LAUNCH_KEY_CHECKIN) c s).2.jobs = s.jobs) := by
  constructor
  · intro a j hc hj
    have hcmd := ipc_readmsg_cmd_checkin os c s a j hc hj
    have ha := find_job_addr hj
    have hjm : j ∈ s.jobs := List.mem_of_find?_eq_some hj
    refine ⟨by rw [ipc_readmsg_fst, hcmd], ?_, ?_⟩
    · rw [ipc_readmsg_jobs, hcmd]
      simp only [set_job_jobs]
      apply List.map_congr_left
      intro x hx
      by_cases hxa : x.addr = a
      · have := eq_of_addr_eq hi hx hjm (hxa.trans ha.symm)
        subst this
        simp [ha]
      · simp [hxa, ha]
    · rw [find_job_congr (ipc_readmsg_jobs os _ c s), hcmd]
      have := find_job_set_job { j with checkedin := true } s (by
        show (find_job s j.addr).isSome = true
        rw [ha, hj]; rfl)
      simpa [ha] using this
  · intro hc
    have hcmd := ipc_readmsg_cmd_checkin_none os c s hc
    exact ⟨by rw [ipc_readmsg_fst, hcmd], by rw [ipc_readmsg_jobs, hcmd]⟩

theorem check_in_spec_witness :
    Inv s_run ∧
    (ipc_readmsg (oss0 0) (.string LAUNCH_KEY_CHECKIN) { addr := 3, conn := 7, j := some 2 }
      s_run).1 = with_defaults dx ∧
    find_job (ipc_readmsg (oss0 0) (.string LAUNCH_KEY_CHECKIN)
      { addr := 3, conn := 7, j := some 2 } s_run).2 2 = some j_xc ∧
    (ipc_readmsg (oss0 0) (.string LAUNCH_KEY_CHECKIN) conn0 s_run).1
      = .string "NotRunningFromLaunchd" :=
  ⟨Inv_s_run,
   ((check_in_spec (oss0 0) { addr := 3, conn := 7, j := some 2 } s_run Inv_s_run).1 2 j_x
      rfl rfl).1,
   ((check_in_spec (oss0 0) { addr := 3, conn := 7, j := some 2 } s_run Inv_s_run).1 2 j_x
      rfl rfl).2.2,
   ((check_in_spec (oss0 0) conn0 s_run Inv_s_run).2 rfl).1⟩

/-- C16. BATCH_CONTROL(b) then BATCH_QUERY.  From every state, for both values of `b`:
when the response to BATCH_CONTROL(b) could be handed to the client (the connection is
not closed for a failed write), the response is SUCCESS, the connection list is the same,
and a BATCH_QUERY that follows with no event in between answers `b`. -/
theorem batch_control_then_query (os os2 : Nat → Oracle) (c : conncb) (b : Bool) (s : State)
    (hs : (os 0).send_result ≠ .error) :
    (ipc_readmsg os (.dictionary [(LAUNCH_KEY_BATCHCONTROL, .bool b)]) c s).1
      = .string LAUNCH_RESPONSE_SUCCESS ∧
    (ipc_readmsg os (.dictionary [(LAUNCH_KEY_BATCHCONTROL, .bool b)]) c s).2.connections
      = s.connections ∧
    (ipc_readmsg os (.dictionary [(LAUNCH_KEY_BATCHCONTROL, .bool b)]) c s).2.batch_enabled
      = b ∧
    (ipc_readmsg os2 (.string LAUNCH_KEY_BATCHQUERY) c
      (ipc_readmsg os (.dictionary [(LAUNCH_KEY_BATCHCONTROL, .bool b)]) c s).2).1 = .bool b := by
  have hcmd := ipc_readmsg_cmd_batchcontrol os (.bool b) c s
  have hb : (ipc_readmsg os (.dictionary [(LAUNCH_KEY_BATCHCONTROL, .bool b)]) c s).2.batch_enabled
      = b := by
    rw [ipc_readmsg_batch os _ c s hs, hcmd]
    exact batch_job_enable_batch _ s
  refine ⟨by rw [ipc_readmsg_fst, hcmd], ?_, hb, ?_⟩
  · rw [ipc_readmsg_connections os _ c s hs, hcmd]
    exact batch_job_enable_connections _ s
  · rw [ipc_readmsg_fst, ipc_readmsg_cmd_batchquery, hb]

theorem batch_control_then_query_witness :
    (oss0 0 0).send_result ≠ .error ∧
    (ipc_readmsg (oss0 1) (.string LAUNCH_KEY_BATCHQUERY) conn0
      (ipc_readmsg (oss0 0) (.dictionary [(LAUNCH_KEY_BATCHCONTROL, .bool false)]) conn0
        s_run).2).1 = .bool false :=
  ⟨by decide, (batch_control_then_query (oss0 0) (oss0 1) conn0 false s_run (by decide)).2.2.2⟩

/-- C17. `ipc_close` on any connection record, from every state: the batch flag is true
afterwards; the connection list afterwards is the old list without the records at the
address of the closed connection, every other record in place; the calls issued are
SIGCONT to the child of the helper daemon exactly when the helper pointer refers to a
record of the table with a non-zero pid, and then `close` on the descriptor of the
connection; the job table and the helper pointer are unchanged. -/
theorem ipc_close_spec (c : conncb) (s : State) :
    (ipc_close c s).batch_enabled = true ∧
    (ipc_close c s).connections = s.connections.filter (fun x => !(x.addr == c.addr)) ∧
    (∀ x ∈ (ipc_close c s).connections, x.addr ≠ c.addr) ∧
    (∀ x ∈ s.connections, x.addr ≠ c.addr → x ∈ (ipc_close c s).connections) ∧
    (∀ a h, s.helperd = some a → find_job s a = some h →
      (ipc_close c s).log =
        s.log ++ (if h.p ≠ 0 then [Effect.kill h.p SIGCONT] else []) ++ [Effect.close c.conn]) ∧
    (s.helperd = none → (ipc_close c s).log = s.log ++ [Effect.close c.conn]) ∧
    (ipc_close c s).jobs = s.jobs ∧ (ipc_close c s).helperd = s.helperd := by
  have hconn : (ipc_close c s).connections
      = s.connections.filter (fun x => !(x.addr == c.addr)) := by
    simp [ipc_close, batch_job_enable_connections]
  refine ⟨?_, hconn, ?_, ?_, ?_, ?_, ipc_close_jobs c s, ipc_close_helperd c s⟩
  · simp [ipc_close, batch_job_enable_batch]
  · intro x hx
    rw [hconn] at hx
    simpa using (List.mem_filter.1 hx).2
  · intro x hx hne
    rw [hconn]
    exact List.mem_filter.2 ⟨hx, by simpa using hne⟩
  · intro a h hh hf
    simp only [ipc_close, batch_job_enable, if_true, hh]
    split
    · rename_i x heq
      have hx : x = h := Option.some.inj ((show find_job s a = some x from heq).symm.trans hf)
      subst hx
      split <;> simp_all
    · rename_i heq
      rw [show find_job s a = none from heq] at hf
      cases hf
  · intro hh
    simp [ipc_close, batch_job_enable, hh]

/-- C19, as the code has it.  Throttle condition: when `job_start` creates the child of a
job that is not running, the steps of the child are set-up steps, none of them a sleep,
then `execvp`; between the two the child sleeps exactly when the job is not on-demand,
`timersub` of this start and the previous start has fewer than 10 seconds, and the job
has prior bad exits (`failed_exits > 0`), and then for 10 minus that gap in whole
seconds.  In every other case, in particular for every on-demand job, the child goes from
the set-up to `execvp` without sleeping.  The sleep is a step of the child: the log of
the supervisor has it inside the `fork`. -/
theorem throttle_condition (or : Oracle) (j : jobcb) (s : State) (hp : j.p = 0)
    (hf1 : or.fork_result ≠ -1) (hf0 : or.fork_result ≠ 0) :
    ∃ (pre : List ChildStep) (a0 : Option String) (argv : List String),
      (job_start or j s).log.filter is_fork =
        s.log.filter is_fork ++
          [Effect.fork or.fork_result
            (pre ++
              (if job_get_bool j.ldj LAUNCH_JOBKEY_ONDEMAND = false ∧
                  (timersub or.now j.start_time).tv_sec < LAUNCHD_MIN_JOB_RUN_TIME ∧
                  j.failed_exits > 0 then
                [ChildStep.sleep
                  (LAUNCHD_MIN_JOB_RUN_TIME - (timersub or.now j.start_time).tv_sec)]
               else []) ++
              [ChildStep.execvp a0 argv, ChildStep.exit EXIT_FAILURE])] ∧
      (∀ x ∈ pre, is_sleep x = false) := by
  obtain ⟨pre, a0, argv, he, -, hb⟩ := child_steps_split or
    { j with
      start_time := or.now,
      failed_exits :=
        if (timersub or.now j.start_time).tv_sec ≥ LAUNCHD_MIN_JOB_RUN_TIME then 0
        else j.failed_exits }
    (job_get_bool j.ldj LAUNCH_JOBKEY_SERVICEIPC) (timersub or.now j.start_time)
  refine ⟨pre, a0, argv, ?_, ?_⟩
  · rw [forks_job_start, if_pos ⟨hp, hf1, hf0⟩, he]
    by_cases ht : (timersub or.now j.start_time).tv_sec ≥ LAUNCHD_MIN_JOB_RUN_TIME
    · have ht' : ¬ (timersub or.now j.start_time).tv_sec < LAUNCHD_MIN_JOB_RUN_TIME := by omega
      simp [ht, ht']
    · simp [ht]
  · intro x hx
    have := hb x hx
    cases x <;> simp_all [step_rank, is_sleep]

theorem throttle_condition_witness :
    j_idle.p = 0 ∧
    ∃ (pre : List ChildStep) (a0 : Option String) (argv : List String),
      (job_start or0 j_idle s_idle).log.filter is_fork =
        s_idle.log.filter is_fork ++
          [Effect.fork or0.fork_result
            (pre ++
              (if job_get_bool j_idle.ldj LAUNCH_JOBKEY_ONDEMAND = false ∧
                  (timersub or0.now j_idle.start_time).tv_sec < LAUNCHD_MIN_JOB_RUN_TIME ∧
                  j_idle.failed_exits > 0 then
                [ChildStep.sleep
                  (LAUNCHD_MIN_JOB_RUN_TIME - (timersub or0.now j_idle.start_time).tv_sec)]
               else []) ++
              [ChildStep.execvp a0 argv, ChildStep.exit EXIT_FAILURE])] ∧
      (∀ x ∈ pre, is_sleep x = false) :=
  ⟨rfl, throttle_condition or0 j_idle s_idle rfl (by decide) (by decide)⟩

/-- C19, the claim as stated fails for an on-demand job: the record `j_od` is on-demand,
has two prior bad exits and is started in the very second of its previous start, and its
child goes to `execvp` without any sleep. -/
theorem on_demand_child_never_sleeps :
    job_get_bool j_od.ldj LAUNCH_JOBKEY_ONDEMAND = true ∧ j_od.failed_exits > 0 ∧
    (timersub or0.now j_od.start_time).tv_sec = 0 ∧
    last_child (job_start or0 j_od s_od).log =
      [.setpriority 0, .setsid, .execvp (some "/bin/cat") ["/bin/cat"], .exit 1] := by
  decide

/-- C20, as the code has it.  When `job_start` creates the child of a job that is not
running, the steps of the child come in the order of the code: close the supervisor side
of the socket pair, nice, resource limits, initgroups, low-priority I/O, chroot, gid,
uid, working directory, umask, stdout redirection, stderr redirection, the `setenv`
calls, setsid, throttle sleep, `execvp` (and `exit` should that fail); and the `setenv`
calls are those of the configured environment variables, in their order, followed by the
one that publishes the trusted descriptor when the job uses service IPC. -/
theorem child_steps_order (or : Oracle) (j : jobcb) (s : State) (hp : j.p = 0)
    (hf1 : or.fork_result ≠ -1) (hf0 : or.fork_result ≠ 0) :
    ∃ steps : List ChildStep,
      (job_start or j s).log.filter is_fork =
        s.log.filter is_fork ++ [Effect.fork or.fork_result steps] ∧
      (steps.map step_rank).Pairwise (· ≤ ·) ∧
      (∀ kv, launch_data_dict_lookup j.ldj LAUNCH_JOBKEY_ENVIRONMENTVARIABLES
          = some (.dictionary kv) →
        steps.filter is_setenv =
          setup_job_env kv ++
            (if job_get_bool j.ldj LAUNCH_JOBKEY_SERVICEIPC then
              [ChildStep.setenv LAUNCHD_TRUSTED_FD_ENV (toString or.spair.2)] else [])) := by
  have h := forks_job_start or j s
  rw [if_pos ⟨hp, hf1, hf0⟩] at h
  exact ⟨_, h, child_steps_rank _ _ _ _, fun kv hkv => child_steps_setenv _ _ _ _ kv hkv⟩

theorem child_steps_order_witness :
    j_env.p = 0 ∧
    ∃ steps : List ChildStep,
      (job_start or0 j_env s_env).log.filter is_fork =
        s_env.log.filter is_fork ++ [Effect.fork or0.fork_result steps] ∧
      (steps.map step_rank).Pairwise (· ≤ ·) ∧
      (∀ kv, launch_data_dict_lookup j_env.ldj LAUNCH_JOBKEY_ENVIRONMENTVARIABLES
          = some (.dictionary kv) →
        steps.filter is_setenv =
          setup_job_env kv ++
            (if job_get_bool j_env.ldj LAUNCH_JOBKEY_SERVICEIPC then
              [ChildStep.setenv LAUNCHD_TRUSTED_FD_ENV (toString or0.spair.2)] else [])) :=
  ⟨rfl, child_steps_order or0 j_env s_env rfl (by decide) (by decide)⟩

/-- C20, the claim as stated fails: the child of the record `j_env`, which uses service
IPC and has the configured variable `PATH`, exports `PATH` first and publishes the
trusted descriptor `__LAUNCHD_FD` after it. -/
theorem trusted_fd_published_last :
    job_get_bool j_env.ldj LAUNCH_JOBKEY_SERVICEIPC = true ∧
    (last_child (job_start or0 j_env s_env).log).filter is_setenv =
      [.setenv "PATH" "/bin", .setenv LAUNCHD_TRUSTED_FD_ENV "8"] := by
  decide

/-- C8, checked on scenario S1.  The descriptor `dxs` (not on-demand, no service IPC) is
submitted to the start state and answered SUCCESS.  Its child exits at once with code 1,
the supervisor respawns it at once, the next child sleeps as coded and exits with code 1,
and so on.  After the 10th such exit the job is still in the table, with a live child and
`failed_exits` 0; and after any number of such exits the job is still in the table. -/
theorem ten_bad_exits_not_removed :
    (load_job or0 dxs s0).1 = .string LAUNCH_RESPONSE_SUCCESS ∧
    bad_exit 256 = true ∧ WIFEXITED 256 = true ∧ WEXITSTATUS 256 = 1 ∧
    (∃ j, find_job ((immediate_exit (or_exit 256) 256 1)^[10] (load_job or0 dxs s0).2.2) 1
        = some j ∧ j.p ≠ 0 ∧ j.failed_exits = 0) ∧
    (∀ n, (find_job ((immediate_exit (or_exit 256) 256 1)^[n] (load_job or0 dxs s0).2.2)
        1).isSome = true) := by
  have hb : bad_exit 256 = true := by decide
  have ev := running_even (or_exit 256) 256 1 hb (by decide) (by decide) (by decide)
  refine ⟨rfl, hb, by decide, by decide, ?_, ?_⟩
  · exact (running_find (ev 5 _ 1000 running_after_submit)).1
  · intro n
    rcases Nat.even_or_odd' n with ⟨k, hk | hk⟩
    · subst hk
      obtain ⟨⟨j, hj, -⟩, -⟩ := running_find (ev k _ 1000 running_after_submit)
      rw [hj]; rfl
    · subst hk
      rw [Function.iterate_succ_apply']
      obtain ⟨⟨j, hj, -⟩, -⟩ := running_find
        (running_two_rounds (or_exit 256) 256 1 _ _ (ev k _ 1000 running_after_submit) hb
          (by decide) (by decide) (by decide)).1
      rw [hj]; rfl

/-- C18, as the code has it.  When `job_start` creates the child of a job that is not
on-demand and not running: if the job has prior bad exits and `timersub` of this start
and the previous start has fewer than 10 seconds, the child sleeps 10 minus that gap
before `execvp`, so it executes the program no earlier than 10 seconds after the previous
start; if the job has no prior bad exits, or the gap has 10 seconds or more, the child
does not sleep. -/
theorem throttle_exec_time (or : Oracle) (j : jobcb) (s : State) (hp : j.p = 0)
    (hf1 : or.fork_result ≠ -1) (hf0 : or.fork_result ≠ 0)
    (hod : job_get_bool j.ldj LAUNCH_JOBKEY_ONDEMAND = false) :
    ∃ steps : List ChildStep,
      (job_start or j s).log.filter is_fork =
        s.log.filter is_fork ++ [Effect.fork or.fork_result steps] ∧
      (j.failed_exits > 0 →
        (timersub or.now j.start_time).tv_sec < LAUNCHD_MIN_JOB_RUN_TIME →
          child_sleep steps = LAUNCHD_MIN_JOB_RUN_TIME - (timersub or.now j.start_time).tv_sec ∧
          or.now.tv_sec + child_sleep steps ≥ j.start_time.tv_sec + LAUNCHD_MIN_JOB_RUN_TIME) ∧
      (j.failed_exits = 0 → child_sleep steps = 0) ∧
      ((timersub or.now j.start_time).tv_sec ≥ LAUNCHD_MIN_JOB_RUN_TIME →
        child_sleep steps = 0) := by
  have h := forks_job_start or j s
  rw [if_pos ⟨hp, hf1, hf0⟩] at h
  refine ⟨_, h, ?_, ?_, ?_⟩
  · intro hfe ht
    have ht' : ¬ (timersub or.now j.start_time).tv_sec ≥ LAUNCHD_MIN_JOB_RUN_TIME := by omega
    have hs : child_sleep (child_steps or
        { j with
          start_time := or.now,
          failed_exits :=
            if (timersub or.now j.start_time).tv_sec ≥ LAUNCHD_MIN_JOB_RUN_TIME then 0
            else j.failed_exits }
        (job_get_bool j.ldj LAUNCH_JOBKEY_SERVICEIPC) (timersub or.now j.start_time))
        = LAUNCHD_MIN_JOB_RUN_TIME - (timersub or.now j.start_time).tv_sec := by
      rw [child_sleep_child_steps]
      simp [hod, ht, ht', hfe]
    refine ⟨hs, ?_⟩
    rw [hs]
    unfold timersub
    simp only []
    split <;> simp only [] <;> omega
  · intro hfe
    rw [child_sleep_child_steps]
    simp [hfe]
  · intro ht
    have ht' : ¬ (timersub or.now j.start_time).tv_sec < LAUNCHD_MIN_JOB_RUN_TIME := by omega
    rw [child_sleep_child_steps]
    simp [ht']

theorem throttle_exec_time_witness :
    j_idle.p = 0 ∧ j_idle.failed_exits > 0 ∧
    (timersub or0.now j_idle.start_time).tv_sec < LAUNCHD_MIN_JOB_RUN_TIME ∧
    ∃ steps : List ChildStep,
      (job_start or0 j_idle s_idle).log.filter is_fork =
        s_idle.log.filter is_fork ++ [Effect.fork or0.fork_result steps] ∧
      child_sleep steps = LAUNCHD_MIN_JOB_RUN_TIME - (timersub or0.now j_idle.start_time).tv_sec ∧
      or0.now.tv_sec + child_sleep steps ≥ j_idle.start_time.tv_sec + LAUNCHD_MIN_JOB_RUN_TIME := by
  refine ⟨rfl, by decide, by decide, ?_⟩
  obtain ⟨steps, h1, h2, -⟩ := throttle_exec_time or0 j_idle s_idle rfl (by decide) (by decide) rfl
  exact ⟨steps, h1, h2 (by decide) (by decide)⟩

/-- C18, the claim as stated fails on scenario S1 with the descriptor `dxs`: the first
child executes in second 1000 and exits badly at once; the respawn that follows this first
bad exit is started in second 1000 with `failed_exits` 1 and is delayed: its child sleeps
and executes in second 1010.  When that child exits badly at once the next child is
started in second 1010 and executes in second 1010: the two executions are 0 seconds
apart. -/
theorem first_bad_respawn_delayed :
    exec_time 1 (load_job or0 dxs s0).2.2 = some 1000 ∧
    (∃ j, find_job (immediate_exit (or_exit 256) 256 1 (load_job or0 dxs s0).2.2) 1 = some j ∧
      j.p ≠ 0 ∧ j.failed_exits = 1) ∧
    exec_time 1 (immediate_exit (or_exit 256) 256 1 (load_job or0 dxs s0).2.2) = some 1010 ∧
    exec_time 1 (immediate_exit (or_exit 256) 256 1
      (immediate_exit (or_exit 256) 256 1 (load_job or0 dxs s0).2.2)) = some 1010 := by
  have hb : bad_exit 256 = true := by decide
  have h2 := running_two_rounds (or_exit 256) 256 1 _ 1000 running_after_submit hb
    (by decide) (by decide) (by decide)
  exact ⟨(running_find running_after_submit).2, (running_find h2.1).1,
    (running_find h2.1).2, (running_find h2.2).2⟩

/-- C23, checked on a reachable state.  A client submits the descriptor `d_helper`, which
carries the helper label: the helper pointer is the new record, at address 2.  The child
exits without having checked in and `job_callback` removes the job.  Afterwards the
helper pointer still holds address 2, the table has no record at that address, and
`notify_helperd` reads the freed record. -/
theorem helper_pointer_dangles :
    Reachable s_hgone ∧ s_hsub.helperd = some 2 ∧ (find_job s_hsub 2).isSome = true ∧
    s_hgone.helperd = some 2 ∧ find_job s_hgone 2 = none ∧
    (notify_helperd s_hgone).ub = true := by
  have h1 : s_hsub.helperd = some 2 := by decide
  have h2 : (find_job s_hsub 2).isSome = true := by decide
  obtain ⟨hf, hh, -⟩ := unchecked_exit_state (or_exit 0) 2 s_hsub (by decide)
  have hh' : s_hgone.helperd = some 2 := hh.trans h1
  refine ⟨?_, h1, h2, hh', hf, ?_⟩
  · obtain ⟨pid, reap, env, mask, h⟩ := Reachable_s_hsub
    exact ⟨pid, reap, env, mask, Steps.tail _ _ _ h
      (Step.job (or_exit 0) 2 .PROC s_hsub (by decide) h2)⟩
  · have hf' : find_job s_hgone 2 = none := hf
    simp only [notify_helperd, hh', hf']

/-- C24, checked on reachable states.  A client submits `dx`; the job at address 2 gets
the trusted connection at address 3.  (1) The child exits without having checked in and
`job_remove` removes the job: the connection at address 3 is still in the connection
list and still points to address 2, where the table has no record, and a CHECK_IN on
that connection reads the freed record.  (2) Instead, the peer closes the trusted
connection while the child lives and `ipc_close` removes the connection: the record of
the job still points to address 3, where the connection list has no record. -/
theorem back_pointers_dangle :
    Reachable s_gone ∧ { addr := 3, conn := 7, j := some 2 } ∈ s_gone.connections ∧
    find_job s_gone 2 = none ∧
    (ipc_readmsg_cmd (oss0 1) (.string LAUNCH_KEY_CHECKIN) { addr := 3, conn := 7, j := some 2 }
      s_gone).s.ub = true ∧
    Reachable s_closed ∧ (find_job s_closed 2).map (fun j => j.c) = some (some 3) ∧
    s_closed.connections.map (fun c => c.addr) = [1] := by
  obtain ⟨hf, -, hc⟩ := unchecked_exit_state (or_exit 0) 2 s_sub (by decide)
  have hf' : find_job s_gone 2 = none := hf
  refine ⟨?_, ?_, hf', ?_, ?_, by decide, by decide⟩
  · obtain ⟨pid, reap, env, mask, h⟩ := Reachable_s_sub
    exact ⟨pid, reap, env, mask, Steps.tail _ _ _ h
      (Step.job (or_exit 0) 2 .PROC s_sub (by decide) (by decide))⟩
  · show _ ∈ (job_callback (or_exit 0) 2 .PROC s_sub).connections
    rw [hc]; decide
  · simp [ipc_readmsg_cmd, launch_data_dict_lookup, is_request, LAUNCH_KEY_CHECKIN,
      LAUNCH_KEY_GETUSERENVIRONMENT, hf']
  · obtain ⟨pid, reap, env, mask, h⟩ := Reachable_s_sub
    exact ⟨pid, reap, env, mask, Steps.tail _ _ _ h
      (Step.ipc oss0 { addr := 3, conn := 7, j := some 2 } .READ [] true 0 false s_sub
        (by decide) (by decide))⟩

/-- C22, checked on a reachable state: the first port registration, for a port name with
index 3.  The table is reallocated to 3 slots, `machcbtable_cnt` stays 0, and the callback
is stored in slot 3, beyond the 3 allocated slots. -/
theorem machport_store_beyond_table :
    Reachable s_port ∧ MACH_PORT_INDEX 768 = 3 ∧
    s_port.machcbtable = some { cap := 3, stored := [(3, .job 2)] } ∧
    s_port.machcbtable_cnt = 0 ∧ s0.ub = false ∧ s_port.ub = true :=
  ⟨⟨100, false, [], 18, Steps.tail _ _ _ (Steps.refl _)
      (Step.machport or0 768 EV_ADD (.job 2) s0 rfl)⟩,
    by decide, by decide, by decide, by decide, by decide⟩

/-- C9, as the code has it.  The policy of `job_callback` on a process exit, for a record
`j` of the table at address `a`, in the precedence of the code.  (1) `ServiceIPC` true and
never checked in: the job is removed and no child is created.  Otherwise the child is
reaped; (2) `failed_exits` after reaping above the threshold 10: the job is removed and no
child is created; (3) otherwise, an on-demand job, also when it is the helper daemon and
batch is disabled: the reaped record stays with pid 0, no child is created, and exactly
the registrations of its activation descriptors are appended to the log; (4) otherwise,
the helper daemon with batch disabled: the state is the one `job_reap` left, the record
idle with pid 0, nothing created and nothing registered; (5) otherwise the job is
respawned: `job_start` runs on the reaped record, whose pid is 0; when `fork` succeeds
exactly one child is created, and when the exit of the child can be registered as well
the record has the child as its pid, the clock as start time and `failed_exits` as
`job_start` leaves it; when `fork` fails no child is created and the record at the
address still has pid 0. -/
theorem job_callback_policy (or : Oracle) (a : Nat) (s : State) (j : jobcb)
    (hj : find_job s a = some j) :
    (job_get_bool j.ldj LAUNCH_JOBKEY_SERVICEIPC = true ∧ j.checkedin = false →
      (job_callback or a .PROC s).jobs = s.jobs.filter (fun x => !(x.addr == a)) ∧
      find_job (job_callback or a .PROC s) a = none ∧
      spawned (job_callback or a .PROC s) = spawned s) ∧
    (¬ (job_get_bool j.ldj LAUNCH_JOBKEY_SERVICEIPC = true ∧ j.checkedin = false) →
      ((job_reap or j s).1.failed_exits > LAUNCHD_FAILED_EXITS_THRESHOLD →
        (job_callback or a .PROC s).jobs = s.jobs.filter (fun x => !(x.addr == a)) ∧
        find_job (job_callback or a .PROC s) a = none ∧
        spawned (job_callback or a .PROC s) = spawned s) ∧
      (¬ (job_reap or j s).1.failed_exits > LAUNCHD_FAILED_EXITS_THRESHOLD →
        (job_get_bool j.ldj LAUNCH_JOBKEY_ONDEMAND = true →
          find_job (job_callback or a .PROC s) a = some (job_reap or j s).1 ∧
          (job_reap or j s).1.p = 0 ∧
          spawned (job_callback or a .PROC s) = spawned s ∧
          (job_callback or a .PROC s).log = (job_reap or j s).2.log ++
            (launch_data_fds j.ldj).map (fun n => Effect.kevent n .READ EV_ADD 0 (.job a))) ∧
        (job_get_bool j.ldj LAUNCH_JOBKEY_ONDEMAND = false →
          (s.helperd = some a ∧ s.batch_enabled = false →
            job_callback or a .PROC s = (job_reap or j s).2 ∧
            find_job (job_callback or a .PROC s) a = some (job_reap or j s).1 ∧
            (job_reap or j s).1.p = 0 ∧
            spawned (job_callback or a .PROC s) = spawned s) ∧
          (¬ (s.helperd = some a ∧ s.batch_enabled = false) →
            job_callback or a .PROC s
              = job_start or (job_reap or j s).1 (job_reap or j s).2 ∧
            (job_reap or j s).1.p = 0 ∧
            (or.fork_result ≠ -1 → or.fork_result ≠ 0 →
              spawned (job_callback or a .PROC s) = spawned s + 1 ∧
              (or.kevent_result ≠ -1 →
                ∃ j' : jobcb, find_job (job_callback or a .PROC s) a = some j' ∧
                  j'.p = or.fork_result ∧ j'.start_time = or.now ∧ j'.ldj = j.ldj ∧
                  j'.failed_exits =
                    (if (timersub or.now j.start_time).tv_sec ≥ LAUNCHD_MIN_JOB_RUN_TIME
                     then 0 else (job_reap or j s).1.failed_exits))) ∧
            (or.fork_result = -1 →
              spawned (job_callback or a .PROC s) = spawned s ∧
              ∃ j' : jobcb, find_job (job_callback or a .PROC s) a = some j' ∧
                j'.p = 0))))) := by
  have ha := find_job_addr hj
  have hp : (job_reap or j s).1.p = 0 := by rw [job_reap_fst]
  have hsp : spawned (job_reap or j s).2 = spawned s := by
    simp only [spawned, forks_job_reap]
  have hfr := find_job_job_reap or a j s hj
  have hra : (job_reap or j s).1.addr = a := by rw [job_reap_addr, ha]
  refine ⟨fun h => ?_, fun hn => ⟨fun hfe => ?_, fun hfe => ⟨fun ho => ?_, fun ho =>
    ⟨fun hh => ?_, fun hh => ?_⟩⟩⟩⟩
  · have h1 := job_callback_proc_removed or a s j hj h.1 h.2
    rw [h1, job_remove_jobs, ha]
    exact ⟨rfl, by rw [← ha]; exact find_job_job_remove or j s, spawned_job_remove or j s⟩
  · rw [job_callback_proc_rest or a s j hj hn, if_pos hfe]
    refine ⟨?_, ?_, ?_⟩
    · rw [job_remove_jobs, job_reap_addr, job_reap_jobs, set_job_jobs, job_reap_addr, ha]
      have := filter_map_set { (job_reap or j s).1 with addr := a } s.jobs
      simpa [job_reap_fst, ha] using this
    · rw [← hra]; exact find_job_job_remove _ _ _
    · rw [spawned_job_remove, hsp]
  · rw [job_callback_proc_rest or a s j hj hn, if_neg hfe, if_pos ho]
    refine ⟨?_, hp, ?_, ?_⟩
    · unfold find_job at hfr ⊢
      rw [job_watch_fds_jobs]; exact hfr
    · simp only [spawned, forks_watch_fds]; exact hsp
    · rw [job_watch_fds_eq]
  · have ho' : ¬ job_get_bool j.ldj LAUNCH_JOBKEY_ONDEMAND = true := by simp [ho]
    rw [job_callback_proc_rest or a s j hj hn, if_neg hfe, if_neg ho', if_pos hh]
    exact ⟨rfl, hfr, hp, hsp⟩
  · have ho' : ¬ job_get_bool j.ldj LAUNCH_JOBKEY_ONDEMAND = true := by simp [ho]
    rw [job_callback_proc_rest or a s j hj hn, if_neg hfe, if_neg ho', if_neg hh]
    refine ⟨rfl, hp, ?_, ?_⟩
    · intro hf1 hf0
      refine ⟨?_, ?_⟩
      · simp only [spawned, forks_job_start, forks_job_reap, hp, hf1, hf0, ne_eq,
          not_false_eq_true, and_self, if_true, List.length_append, List.length_singleton]
      · intro hk
        have hfind := job_start_ok_find or (job_reap or j s).1 (job_reap or j s).2 hp
          (by rw [hra, hfr]; rfl) hf1 hf0 hk
        rw [hra] at hfind
        exact ⟨_, hfind, rfl, rfl, job_reap_ldj or j s, by
          simp only [job_reap_start_time]⟩
    · intro hf
      refine ⟨?_, ?_⟩
      · simp only [spawned, forks_job_start, forks_job_reap, hf, ne_eq, not_true_eq_false,
          false_and, and_false, if_false, List.append_nil]
      · have hfind := job_start_fork_failed_find or (job_reap or j s).1 (job_reap or j s).2 hp
          (by rw [hra, hfr]; rfl) hf
        rw [hra] at hfind
        exact ⟨_, hfind, hp⟩

theorem job_callback_policy_witness :
    (find_job s_run 2 = some j_x ∧
      find_job (job_callback (or_exit 256) 2 .PROC s_run) 2 = none) ∧
    (find_job s_ten 2 = some j_ten ∧
      find_job (job_callback (or_exit 256) 2 .PROC s_ten) 2 = none) ∧
    (find_job s_hod 2 = some j_hod ∧
      (job_callback (or_exit 0) 2 .PROC s_hod).log = (job_reap (or_exit 0) j_hod s_hod).2.log ++
        (launch_data_fds j_hod.ldj).map (fun n => Effect.kevent n .READ EV_ADD 0 (.job 2))) ∧
    (find_job s_hidle 2 = some j_xc ∧
      job_callback (or_exit 0) 2 .PROC s_hidle = (job_reap (or_exit 0) j_xc s_hidle).2 ∧
      spawned (job_callback (or_exit 0) 2 .PROC s_hidle) = spawned s_hidle) ∧
    (find_job s_checked 2 = some j_xc ∧
      spawned (job_callback (or_exit 0) 2 .PROC s_checked) = spawned s_checked + 1 ∧
      ∃ j' : jobcb, find_job (job_callback (or_exit 0) 2 .PROC s_checked) 2 = some j' ∧
        j'.p = 43) :=
  ⟨⟨rfl, ((job_callback_policy (or_exit 256) 2 s_run j_x rfl).1 ⟨rfl, rfl⟩).2.1⟩,
    ⟨rfl, (((job_callback_policy (or_exit 256) 2 s_ten j_ten rfl).2 (by decide)).1
      (by decide)).2.1⟩,
    ⟨rfl, (((((job_callback_policy (or_exit 0) 2 s_hod j_hod rfl).2 (by decide)).2
      (by decide)).1 (by decide))).2.2.2⟩,
    ⟨rfl, (((((job_callback_policy (or_exit 0) 2 s_hidle j_xc rfl).2 (by decide)).2
        (by decide)).2 (by decide)).1 (by decide)).1,
      (((((job_callback_policy (or_exit 0) 2 s_hidle j_xc rfl).2 (by decide)).2
        (by decide)).2 (by decide)).1 (by decide)).2.2.2⟩,
    ⟨rfl, ((((((job_callback_policy (or_exit 0) 2 s_checked j_xc rfl).2 (by decide)).2
        (by decide)).2 (by decide)).2 (by decide)).2.2.1 (by decide) (by decide)).1,
      (((((((job_callback_policy (or_exit 0) 2 s_checked j_xc rfl).2 (by decide)).2
        (by decide)).2 (by decide)).2 (by decide)).2.2.1 (by decide) (by decide)).2
          (by decide)).imp (fun _ h => ⟨h.1, h.2.1⟩)⟩⟩

/-- C9, the claim as stated fails on the precedence of its last branches: the record
`j_hod` is the helper daemon, batch is disabled, the job is on-demand and does not use
service IPC.  On the exit of its child with status 0 the code takes the on-demand branch
ahead of the helper test: the child is reaped and the activation descriptor 9 of the job
is watched again. -/
theorem on_demand_helper_watched_again :
    find_job s_hod 2 = some j_hod ∧ s_hod.helperd = some 2 ∧ s_hod.batch_enabled = false ∧
    job_get_bool j_hod.ldj LAUNCH_JOBKEY_SERVICEIPC = false ∧
    job_get_bool j_hod.ldj LAUNCH_JOBKEY_ONDEMAND = true ∧
    s_hod.log = [] ∧
    (job_callback (or_exit 0) 2 .PROC s_hod).log =
      [.waitpid 42, .kevent 9 .READ EV_ADD 0 (.job 2)] :=
  ⟨rfl, rfl, rfl, rfl, rfl, rfl, rfl⟩

end Claims

end Launchd
